import Mathlib

/-!
# codec63 over a shared-memory interconnect: client (`c63enc.c`) and server (`c63server.c`)

A shallow embedding of the parts of the two programs that the specification
talks about: frame geometry and codec-state initialisation (`init_c63_enc`),
the per-frame keyframe decision (`c63_encode_image`), the raw-file reader
(`read_yuv`) and the two main loops with their polled command cells.

Conventions.
* C `int` / `uint32_t` values are `Int` / `Nat`; every place where the source
  converts or wraps is written out (`% 2 ^ 32`, `% 256`).
* `c63.h`, `tables.h` and the DSP / motion-estimation units are not part of the
  sources at hand; what the code uses from them is taken as a parameter
  (`Tables`, `Externals`) or fixed from the specification, and says so.
-/

namespace C63

/-! ## Constants of `c63.h` and `common.h` -/

/-- Modelled from the spec: `c63.h` is not among the sources. Index of the luma plane. -/
abbrev Y_COMPONENT : Nat := 0

/-- Modelled from the spec: `c63.h` is not among the sources. Index of the first chroma plane. -/
abbrev U_COMPONENT : Nat := 1

/-- Modelled from the spec: `c63.h` is not among the sources. Index of the second chroma plane. -/
abbrev V_COMPONENT : Nat := 2

/-- Modelled from the spec: `c63.h` is not among the sources. Horizontal luma sampling factor (4:2:0). -/
abbrev YX : Int := 2

/-- Modelled from the spec: `c63.h` is not among the sources. Vertical luma sampling factor (4:2:0). -/
abbrev YY : Int := 2

/-- Modelled from the spec: `c63.h` is not among the sources. Horizontal U sampling factor (4:2:0). -/
abbrev UX : Int := 1

/-- Modelled from the spec: `c63.h` is not among the sources. Vertical U sampling factor (4:2:0). -/
abbrev UY : Int := 1

/-- Modelled from the spec: `c63.h` is not among the sources. Horizontal V sampling factor (4:2:0). -/
abbrev VX : Int := 1

/-- Modelled from the spec: `c63.h` is not among the sources. Vertical V sampling factor (4:2:0). -/
abbrev VY : Int := 1

/-- The `enum cmd` of `common.h`: `CMD_INVALID = 0`, `CMD_QUIT = 1`, `CMD_DONE = 2`. -/
inductive Cmd where
  | CMD_INVALID
  | CMD_QUIT
  | CMD_DONE
  deriving DecidableEq, Repr

/-! ## Single-precision conversion used by the geometry -/

/-- Number of low bits that `(float) n` drops for `0 ≤ n ≤ 2 ^ 31`: a binary32
significand holds 24 bits. -/
def f32_shift (n : Nat) : Nat :=
  if n < 2 ^ 24 then 0
  else if n < 2 ^ 25 then 1
  else if n < 2 ^ 26 then 2
  else if n < 2 ^ 27 then 3
  else if n < 2 ^ 28 then 4
  else if n < 2 ^ 29 then 5
  else if n < 2 ^ 30 then 6
  else if n < 2 ^ 31 then 7
  else 8

/-- The value of the C conversion `(float) n` for a magnitude `n ≤ 2 ^ 31`:
round to 24 significant bits, to nearest, ties to even (IEEE-754 default). -/
def f32_of_nat (n : Nat) : Nat :=
  let e := f32_shift n
  let q := n / 2 ^ e
  let r := n % 2 ^ e
  if 2 * r < 2 ^ e then q * 2 ^ e
  else if 2 ^ e < 2 * r then (q + 1) * 2 ^ e
  else if q % 2 = 0 then q * 2 ^ e
  else (q + 1) * 2 ^ e

/-- The value of `(float) z` for a C `int` z; rounding is symmetric in the sign. -/
def f32_of_int (z : Int) : Int :=
  if 0 ≤ z then (f32_of_nat z.toNat : Int) else -(f32_of_nat (-z).toNat : Int)

/-- The expression `ceil(x / d)` for an integer-valued float `x` and a divisor
`d` that is a power of two (here always `16.0f`): the quotient is exact, so the
result is the integer ceiling. -/
def ceil_div (x d : Int) : Int := -((-x) / d)

/-- The cast `(uint32_t) v` of an integer-valued double. For `0 ≤ v < 2 ^ 32`
this is `v`; a value outside that range (undefined in C) is taken modulo
`2 ^ 32`. -/
def to_uint32 (v : Int) : Nat := (v % 2 ^ 32).toNat

/-- Conversion of a `uint32_t` to `int` (two's complement). -/
def int_of_uint32 (n : Nat) : Int := if n % 2 ^ 32 < 2 ^ 31 then (n % 2 ^ 32 : Nat) else (n % 2 ^ 32 : Nat) - 2 ^ 32

/-- The product of two fields of the codec state as the code forms it, in the
32 bits of an `int`: the exact product wrapped to the range of `int` (two's
complement). A field is kept as the 32-bit value that the `uint32_t` cast in
`init_c63_enc` produces. The types of the fields are declared in `c63.h`,
which is not among the sources; they are taken to be `int`, the type of
`width` and `height`. While the exact product is below `2^31` this is the
exact product, also for an unsigned field type. -/
def mul32 (a b : Nat) : Int := int_of_uint32 (a * b)

/-- Conversion of an `int` to `size_t` (64 bits), as happens when the value is
passed as a size or as an element count. -/
def size_t_of_int (v : Int) : Nat := (v % 2 ^ 64).toNat

/-- A product of two fields, formed in 32 bits, passed as a size or count. -/
def count32 (a b : Nat) : Nat := size_t_of_int (mul32 a b)

/-! ## Data model (`c63.h`) -/

/-- Modelled from the spec: `struct macroblock` of `c63.h`: a motion-vector flag and vector. -/
structure macroblock where
  use_mv : Int
  mv_x : Int
  mv_y : Int
  deriving DecidableEq, Repr, Inhabited

/-- Modelled from the spec: `yuv_t` of `c63.h`: three planes of 8-bit samples. -/
structure yuv_t where
  Y : List Nat
  U : List Nat
  V : List Nat
  deriving DecidableEq, Repr, Inhabited

/-- Modelled from the spec: `dct_t` of `c63.h`: three planes of 16-bit coefficients. -/
structure dct_t where
  Ydct : List Int
  Udct : List Int
  Vdct : List Int
  deriving DecidableEq, Repr, Inhabited

/-- Modelled from the spec: `struct frame` of `c63.h`. `mbs` is indexed by colour component. -/
structure frame where
  orig : yuv_t
  recons : yuv_t
  predicted : yuv_t
  residuals : dct_t
  mbs : Nat → List macroblock
  keyframe : Int

/-- Modelled from the spec: `struct c63_common` of `c63.h`, with the fields that
the two programs read or write. `padw`, `padh` and `quanttbl` are indexed by
colour component; the counters are unbounded integers. -/
structure c63_common where
  width : Int
  height : Int
  ypw : Nat
  yph : Nat
  upw : Nat
  uph : Nat
  vpw : Nat
  vph : Nat
  padw : Nat → Nat
  padh : Nat → Nat
  mb_cols : Nat
  mb_rows : Nat
  qp : Nat
  me_search_range : Int
  quanttbl : Nat → Nat → Nat
  refframe : Option frame
  curframe : Option frame
  framenum : Int
  keyframe_interval : Int
  frames_since_keyframe : Int

/-- The two default quantisation tables of `tables.h` (64 entries of 8 bits
each), which is not among the sources: a parameter of the model. -/
structure Tables where
  yquanttbl_def : Fin 64 → Fin 256
  uvquanttbl_def : Fin 64 → Fin 256

/-- The store `quanttbl[c][i] = def[i] / (cm->qp / 10.0)` into an 8-bit cell:
a double division, then truncation toward zero by the conversion to `uint8_t`.
For `qp = 25` the divisor `2.5` is exact in binary64 and a quotient `e / 2.5`
is either an integer or at least `1/5` away from one, so the truncated double
is the integer quotient `e * 10 / qp`. -/
def quant_scale (e qp : Nat) : Nat := (e * 10 / qp) % 256

/-- The value of `calloc` for a `struct c63_common`: every field zero. -/
def c63_common_zero : c63_common :=
  { width := 0, height := 0, ypw := 0, yph := 0, upw := 0, uph := 0, vpw := 0, vph := 0,
    padw := fun _ => 0, padh := fun _ => 0, mb_cols := 0, mb_rows := 0, qp := 0,
    me_search_range := 0, quanttbl := fun _ _ => 0, refframe := none, curframe := none,
    framenum := 0, keyframe_interval := 0, frames_since_keyframe := 0 }

/-- Array store `a[i] = v` on an array modelled as a function. -/
def set_at (a : Nat → Nat) (i v : Nat) : Nat → Nat := fun j => if j = i then v else a j

/-- The quantisation-table loop of `init_c63_enc`, `for (i = 0; i < 64; ++i)`. -/
def init_quanttbl (T : Tables) (qp : Nat) : Nat → Nat → Nat := fun c i =>
  if h : i < 64 then
    if c = Y_COMPONENT then quant_scale (T.yquanttbl_def ⟨i, h⟩).val qp
    else if c = U_COMPONENT then quant_scale (T.uvquanttbl_def ⟨i, h⟩).val qp
    else if c = V_COMPONENT then quant_scale (T.uvquanttbl_def ⟨i, h⟩).val qp
    else 0
  else 0

/-- The function `init_c63_enc(int width, int height)`, identical in `c63enc.c`
and `c63server.c`. -/
def init_c63_enc (T : Tables) (width height : Int) : c63_common :=
  let cm := c63_common_zero
  let cm := { cm with width := width }
  let cm := { cm with height := height }
  let ypw := to_uint32 (ceil_div (f32_of_int width) 16 * 16)
  let cm := { cm with ypw := ypw, padw := set_at cm.padw Y_COMPONENT ypw }
  let yph := to_uint32 (ceil_div (f32_of_int height) 16 * 16)
  let cm := { cm with yph := yph, padh := set_at cm.padh Y_COMPONENT yph }
  let upw := to_uint32 (ceil_div (f32_of_int (width * UX)) (YX * 8) * 8)
  let cm := { cm with upw := upw, padw := set_at cm.padw U_COMPONENT upw }
  let uph := to_uint32 (ceil_div (f32_of_int (height * UY)) (YY * 8) * 8)
  let cm := { cm with uph := uph, padh := set_at cm.padh U_COMPONENT uph }
  let vpw := to_uint32 (ceil_div (f32_of_int (width * VX)) (YX * 8) * 8)
  let cm := { cm with vpw := vpw, padw := set_at cm.padw V_COMPONENT vpw }
  let vph := to_uint32 (ceil_div (f32_of_int (height * VY)) (YY * 8) * 8)
  let cm := { cm with vph := vph, padh := set_at cm.padh V_COMPONENT vph }
  let cm := { cm with mb_cols := cm.ypw / 8 }
  let cm := { cm with mb_rows := cm.yph / 8 }
  let cm := { cm with qp := 25 }
  let cm := { cm with me_search_range := 16 }
  let cm := { cm with keyframe_interval := 100 }
  { cm with quanttbl := init_quanttbl T cm.qp }

/-- A concrete pair of tables for evaluating the model: the luminance and
chrominance tables of JPEG Annex K in row order. -/
def sample_tables : Tables :=
  { yquanttbl_def := fun i => Fin.ofNat
      ([16, 11, 10, 16, 24, 40, 51, 61, 12, 12, 14, 19, 26, 58, 60, 55,
        14, 13, 16, 24, 40, 57, 69, 56, 14, 17, 22, 29, 51, 87, 80, 62,
        18, 22, 37, 56, 68, 109, 103, 77, 24, 35, 55, 64, 81, 104, 113, 92,
        49, 64, 78, 87, 103, 121, 120, 101, 72, 92, 95, 98, 112, 100, 103, 99].getD i.val 0),
    uvquanttbl_def := fun i => Fin.ofNat
      ([17, 18, 24, 47, 99, 99, 99, 99, 18, 21, 26, 66, 99, 99, 99, 99,
        24, 26, 56, 99, 99, 99, 99, 99, 47, 66, 99, 99, 99, 99, 99, 99,
        99, 99, 99, 99, 99, 99, 99, 99, 99, 99, 99, 99, 99, 99, 99, 99,
        99, 99, 99, 99, 99, 99, 99, 99, 99, 99, 99, 99, 99, 99, 99, 99].getD i.val 0) }

/-! ## The specification's formulas, for comparison -/

/-- The specification's `ceil(a / b)` over the rationals. -/
def spec_ceil (a b : Int) : Int := Int.ceil ((a : ℚ) / (b : ℚ))

/-- The specification's quantisation entry `round(e / (qp / 10.0))` clamped to
the 8-bit range, rounding to nearest with halves away from zero. -/
def spec_quant_round (e qp : Nat) : Int :=
  min 255 (max 0 (round ((e : ℚ) / ((qp : ℚ) / 10))))

/-- The truncating counterpart of `spec_quant_round`: `floor(e / (qp / 10.0))`. -/
def spec_quant_floor (e qp : Nat) : Int := Int.floor ((e : ℚ) / ((qp : ℚ) / 10))

/-! ## The encoder step of the server (`c63server.c`) -/

/-- Calls that `c63_encode_image` makes into other units, in program order. -/
inductive Call where
  | destroy_frame
  | create_frame
  | c63_motion_estimate
  | c63_motion_compensate
  | dct_quantize (c : Nat)
  | dequantize_idct (c : Nat)
  deriving DecidableEq, Repr

/-- Modelled from the spec: the units declared in `common.h` and `me.h` whose
bodies are not among the sources. `create_frame` builds a fresh frame from the
geometry; `c63_motion_estimate` fills the macroblocks of the current frame and
`c63_motion_compensate` its predicted planes; `dct_quantize` and
`dequantize_idct` take `(in, prediction, width, height, out, quantization)` and
give the new contents of `out`. -/
structure Externals where
  create_frame : c63_common → yuv_t → frame
  c63_motion_estimate : c63_common → Nat → List macroblock
  c63_motion_compensate : c63_common → yuv_t
  dct_quantize : List Nat → List Nat → Nat → Nat → List Int → (Nat → Nat) → List Int
  dequantize_idct : List Int → List Nat → Nat → Nat → List Nat → (Nat → Nat) → List Nat

/-- The function `c63_encode_image(cm, image)` of `c63server.c`, together with
the calls it makes. The current frame is threaded as `f` and stored back into
`cm->curframe` at the end. -/
def c63_encode_image_traced (E : Externals) (cm : c63_common) (image : yuv_t) :
    c63_common × List Call :=
  let tr := [Call.destroy_frame]
  let cm := { cm with refframe := cm.curframe }
  let f := E.create_frame cm image
  let tr := tr ++ [Call.create_frame]
  let cmf : c63_common × frame :=
    if cm.framenum = 0 ∨ cm.frames_since_keyframe = cm.keyframe_interval then
      ({ cm with frames_since_keyframe := 0 }, { f with keyframe := 1 })
    else (cm, { f with keyframe := 0 })
  let cm := cmf.1
  let f := cmf.2
  let ft : frame × List Call :=
    if f.keyframe = 0 then
      let f := { f with mbs := E.c63_motion_estimate { cm with curframe := some f } }
      let f := { f with predicted := E.c63_motion_compensate { cm with curframe := some f } }
      (f, tr ++ [Call.c63_motion_estimate, Call.c63_motion_compensate])
    else (f, tr)
  let f := ft.1
  let tr := ft.2
  let f := { f with residuals := { f.residuals with
    Ydct := E.dct_quantize image.Y f.predicted.Y (cm.padw Y_COMPONENT) (cm.padh Y_COMPONENT)
      f.residuals.Ydct (cm.quanttbl Y_COMPONENT) } }
  let f := { f with residuals := { f.residuals with
    Udct := E.dct_quantize image.U f.predicted.U (cm.padw U_COMPONENT) (cm.padh U_COMPONENT)
      f.residuals.Udct (cm.quanttbl U_COMPONENT) } }
  let f := { f with residuals := { f.residuals with
    Vdct := E.dct_quantize image.V f.predicted.V (cm.padw V_COMPONENT) (cm.padh V_COMPONENT)
      f.residuals.Vdct (cm.quanttbl V_COMPONENT) } }
  let tr := tr ++ [Call.dct_quantize Y_COMPONENT, Call.dct_quantize U_COMPONENT,
    Call.dct_quantize V_COMPONENT]
  let f := { f with recons := { f.recons with
    Y := E.dequantize_idct f.residuals.Ydct f.predicted.Y cm.ypw cm.yph f.recons.Y
      (cm.quanttbl Y_COMPONENT) } }
  let f := { f with recons := { f.recons with
    U := E.dequantize_idct f.residuals.Udct f.predicted.U cm.upw cm.uph f.recons.U
      (cm.quanttbl U_COMPONENT) } }
  let f := { f with recons := { f.recons with
    V := E.dequantize_idct f.residuals.Vdct f.predicted.V cm.vpw cm.vph f.recons.V
      (cm.quanttbl V_COMPONENT) } }
  let tr := tr ++ [Call.dequantize_idct Y_COMPONENT, Call.dequantize_idct U_COMPONENT,
    Call.dequantize_idct V_COMPONENT]
  ({ cm with curframe := some f }, tr)

/-- The codec state after `c63_encode_image(cm, image)`. -/
def c63_encode_image (E : Externals) (cm : c63_common) (image : yuv_t) : c63_common :=
  (c63_encode_image_traced E cm image).1

/-- The counter updates at the end of the server loop body:
`++cm->framenum; ++cm->frames_since_keyframe;`. -/
def server_increment (cm : c63_common) : c63_common :=
  let cm := { cm with framenum := cm.framenum + 1 }
  { cm with frames_since_keyframe := cm.frames_since_keyframe + 1 }

/-- One pass of the server loop body on the codec state: `c63_encode_image`
followed by the two increments. -/
def server_frame (E : Externals) (cm : c63_common) (image : yuv_t) : c63_common :=
  server_increment (c63_encode_image E cm image)

/-- The codec state of the server after the first `n` frames of the stream
`images`, starting from `init_c63_enc`. -/
def server_after (E : Externals) (T : Tables) (width height : Int) (images : Nat → yuv_t) :
    Nat → c63_common
  | 0 => init_c63_enc T width height
  | n + 1 => server_frame E (server_after E T width height images n) (images n)

/-- The keyframe flag that the server gives frame number `n` (counted from 0)
of the stream `images`. -/
def nth_keyframe (E : Externals) (T : Tables) (width height : Int) (images : Nat → yuv_t)
    (n : Nat) : Option Int :=
  (c63_encode_image E (server_after E T width height images n) (images n)).curframe.map
    frame.keyframe

/-- The expression `cm->padw[c]*cm->padh[c]`, a product formed in 32 bits: the
size that `calloc` receives for plane `c`, the number of bytes that `memcpy`
moves for it, and the number of pointers in its member of `struct img_segment`. -/
def plane_size (cm : c63_common) (c : Nat) : Nat := count32 (cm.padw c) (cm.padh c)

/-! ## The raw-file reader of the client (`c63enc.c`) -/

/-- A `FILE *` open for reading: the bytes of the file, the read position and
the end-of-file indicator. Read errors (`ferror`) are outside the model. -/
structure FILE where
  data : List Nat
  pos : Nat
  eof : Bool
  deriving DecidableEq, Repr

/-- The call `fread(buf, 1, n, file)`: the bytes delivered and the stream
afterwards. The end-of-file indicator is set when the request runs past the end
of the data; a request that is met in full leaves it alone. -/
def fread (n : Nat) (file : FILE) : List Nat × FILE :=
  if n ≤ file.data.length - file.pos then
    ((file.data.drop file.pos).take n, { file with pos := file.pos + n })
  else
    (file.data.drop file.pos, { file with pos := file.data.length, eof := true })

/-- Writing `bytes` to the start of the buffer `buf`, as `fread` does. When
there are more bytes than the buffer has room for, the result is longer than
the buffer: it stands for a write past the end of the buffer. -/
def store (buf bytes : List Nat) : List Nat := bytes ++ buf.drop bytes.length

/-- The function `read_yuv(file, cm)` of `c63enc.c`, with the globals `width`
and `height` (`uint32_t`) as arguments. The result is `none` for `NULL`. Each
plane is allocated with the size `padw[c]*padh[c]`, a product formed in 32
bits, and read with a count formed from `width*height` in `uint32_t`. The
test `len != width*height*1.5`, exact in double precision for these sizes, is
written `2 * len ≠ 3 * (width*height)`. -/
def read_yuv (width height : Nat) (file : FILE) (cm : c63_common) : Option yuv_t × FILE :=
  let len := 0
  let Y := List.replicate (plane_size cm Y_COMPONENT) 0
  let r := fread (width * height % 2 ^ 32) file
  let Y := store Y r.1
  let len := len + r.1.length
  let file := r.2
  let U := List.replicate (plane_size cm U_COMPONENT) 0
  let r := fread (width * height % 2 ^ 32 / 4) file
  let U := store U r.1
  let len := len + r.1.length
  let file := r.2
  let V := List.replicate (plane_size cm V_COMPONENT) 0
  let r := fread (width * height % 2 ^ 32 / 4) file
  let V := store V r.1
  let len := len + r.1.length
  let file := r.2
  if file.eof then (none, file)
  else if 2 * len ≠ 3 * (width * height % 2 ^ 32) then (none, file)
  else (some { Y := Y, U := U, V := V }, file)

/-- The number of bytes one successful `read_yuv` consumes:
`width*height + 2*((width*height)/4)` in `uint32_t` arithmetic. -/
def frame_bytes (width height : Nat) : Nat :=
  width * height % 2 ^ 32 + 2 * (width * height % 2 ^ 32 / 4)

/-- The results of the first `n` calls of `read_yuv` on a stream, oldest first,
and the stream after them. -/
def read_yuv_calls (width height : Nat) (cm : c63_common) : Nat → FILE → List (Option yuv_t) × FILE
  | 0, file => ([], file)
  | n + 1, file =>
    let r := read_yuv width height file cm
    let rest := read_yuv_calls width height cm n r.2
    (r.1 :: rest.1, rest.2)

/-! ## The two main loops and their command cells -/

/-- The `struct packet` of `common.h`. -/
structure packet where
  cmd : Cmd
  img_width : Int
  img_height : Int
  deriving DecidableEq, Repr

/-- The `struct result_img_segment` of both programs, by regions. -/
structure result_img_segment where
  keyframe : Int
  mbs : Nat → List macroblock
  Ydct : List Int
  Udct : List Int
  Vdct : List Int

/-- The call `memcpy(dst, src, n)` on arrays, `n` counted in elements. -/
def memcpy {α : Type} (dst src : List α) (n : Nat) : List α := src.take n ++ dst.drop n

/-- The command line of the client and the contents of its input file. -/
structure ClientConfig where
  width : Nat
  height : Nat
  limit_numframes : Int
  input : List Nat

/-- Program points of the client main loop (`c63enc.c`, lines 495-568). -/
inductive ClientPc where
  | set_invalid
  | read_frame
  | copy_raw
  | dma_raw
  | signal_done
  | wait_done
  | copy_result
  | write_frame
  | send_quit
  | finished
  deriving DecidableEq, Repr

/-- Program points of the server main loop (`c63server.c`, lines 401-479). -/
inductive ServerPc where
  | wait_cmd
  | test_quit
  | ack
  | copy_raw
  | encode
  | copy_result
  | dma_result
  | increment
  | signal_done
  | finished
  deriving DecidableEq, Repr

/-- History counters: how often each event of the protocol has happened. They
are not program variables. -/
structure History where
  raw_writes : Nat
  raw_dmas : Nat
  done_sent : Nat
  quit_sent : Nat
  results_read : Nat
  done_seen : Nat
  acks : Nat
  raw_reads : Nat
  encodes : Nat
  results_copied : Nat
  result_dmas : Nat
  done_replied : Nat
  deriving DecidableEq, Repr

/-- The joint state of the two processes. `client_cell` is the client's
`local_packets` (the server's `remote_packets`), `server_cell` the server's
`local_packets` (the client's `remote_packets`). -/
structure System where
  client_cell : packet
  server_cell : packet
  cpc : ClientPc
  infile : FILE
  image : Option yuv_t
  numframes : Int
  ccm : c63_common
  written : List frame
  client_raw : yuv_t
  client_result : result_img_segment
  spc : ServerPc
  scm : c63_common
  simage : yuv_t
  server_raw : yuv_t
  server_result : result_img_segment
  hist : History

/-- The expression `cm->mb_rows * cm->mb_cols`, a product formed in 32 bits. -/
def luma_mb_count (cm : c63_common) : Nat := count32 cm.mb_rows cm.mb_cols

/-- The value of the expression `cm->mb_rows/2 * cm->mb_cols/2`, evaluated left
to right as `((mb_rows/2) * mb_cols) / 2`: the product is formed in 32 bits and
the division of an `int` truncates toward zero. -/
def chroma_mb_expr (cm : c63_common) : Int := Int.tdiv (mul32 (cm.mb_rows / 2) cm.mb_cols) 2

/-- The expression `cm->mb_rows/2 * cm->mb_cols/2` passed as an element count. -/
def chroma_mb_count (cm : c63_common) : Nat := size_t_of_int (chroma_mb_expr cm)

/-- A `calloc`ed array of `n` macroblocks. -/
def zero_mbs (n : Nat) : List macroblock := List.replicate n ⟨0, 0, 0⟩

/-- The current frame that the client allocates before its loop (lines
471-484): zeroed residuals and macroblock arrays. -/
def client_curframe (cm : c63_common) : frame :=
  { orig := ⟨[], [], []⟩, recons := ⟨[], [], []⟩, predicted := ⟨[], [], []⟩,
    residuals := { Ydct := List.replicate (count32 cm.ypw cm.yph) 0,
                   Udct := List.replicate (count32 cm.upw cm.uph) 0,
                   Vdct := List.replicate (count32 cm.vpw cm.vph) 0 },
    mbs := fun c =>
      if c = Y_COMPONENT then zero_mbs (luma_mb_count cm)
      else if c = U_COMPONENT then zero_mbs (chroma_mb_count cm)
      else if c = V_COMPONENT then zero_mbs (chroma_mb_count cm)
      else [],
    keyframe := 0 }

/-- A zero-filled raw segment or scratch image for the geometry of `cm`. -/
def zero_image (cm : c63_common) : yuv_t :=
  { Y := List.replicate (plane_size cm Y_COMPONENT) 0,
    U := List.replicate (plane_size cm U_COMPONENT) 0,
    V := List.replicate (plane_size cm V_COMPONENT) 0 }

/-- A zero-filled result segment for the geometry of `cm`. -/
def zero_result (cm : c63_common) : result_img_segment :=
  { keyframe := 0, mbs := fun _ => zero_mbs (luma_mb_count cm),
    Ydct := List.replicate (count32 cm.ypw cm.yph) 0,
    Udct := List.replicate (count32 cm.upw cm.uph) 0,
    Vdct := List.replicate (count32 cm.vpw cm.vph) 0 }

/-- The handshake packet that the client publishes (lines 350-352). -/
def handshake_packet (cfg : ClientConfig) : packet :=
  { cmd := Cmd.CMD_DONE, img_width := int_of_uint32 cfg.width,
    img_height := int_of_uint32 cfg.height }

/-- The server from its handshake spin to the top of its encoding loop (lines
245-399), given the client cell as it reads it: `none` while the cell still
holds `CMD_INVALID`, otherwise the program point reached and the codec state.
The transport calls in between are taken to succeed; the code has no other
exit on this path. -/
def server_startup (T : Tables) (remote : packet) : Option (ServerPc × c63_common) :=
  if remote.cmd = Cmd.CMD_INVALID then none
  else some (ServerPc.wait_cmd, init_c63_enc T remote.img_width remote.img_height)

/-- The joint state when both processes are about to enter their main loops.
The client has published the handshake packet, the server has run
`init_c63_enc` on the dimensions in it; the server's command cell and all
segments are fresh (zero). -/
def System.start (T : Tables) (cfg : ClientConfig) : System :=
  let ccm := init_c63_enc T (int_of_uint32 cfg.width) (int_of_uint32 cfg.height)
  let ccm := { ccm with curframe := some (client_curframe ccm) }
  let scm := init_c63_enc T (handshake_packet cfg).img_width (handshake_packet cfg).img_height
  { client_cell := handshake_packet cfg,
    server_cell := { cmd := Cmd.CMD_INVALID, img_width := 0, img_height := 0 },
    cpc := ClientPc.set_invalid,
    infile := { data := cfg.input, pos := 0, eof := false },
    image := none,
    numframes := 0,
    ccm := ccm,
    written := [],
    client_raw := zero_image ccm,
    client_result := zero_result ccm,
    spc := ServerPc.wait_cmd,
    scm := scm,
    simage := zero_image scm,
    server_raw := zero_image scm,
    server_result := zero_result scm,
    hist := ⟨0, 0, 0, 0, 0, 0, 0, 0, 0, 0, 0, 0⟩ }

/-- One step of the client: the statement at its program point. A spin that
does not see the awaited value stays where it is. The transport calls (DMA
start and wait) are taken to succeed, a DMA being a copy of the whole segment;
`printf` and the timing calls are left out. -/
def client_step (cfg : ClientConfig) (s : System) : System :=
  match s.cpc with
  | ClientPc.set_invalid =>
    { s with client_cell := { s.client_cell with cmd := Cmd.CMD_INVALID },
             cpc := ClientPc.read_frame }
  | ClientPc.read_frame =>
    let r := read_yuv cfg.width cfg.height s.infile s.ccm
    match r.1 with
    | none => { s with image := none, infile := r.2, cpc := ClientPc.send_quit }
    | some img => { s with image := some img, infile := r.2, cpc := ClientPc.copy_raw }
  | ClientPc.copy_raw =>
    match s.image with
    | none => s
    | some img =>
      let n0 := plane_size s.ccm Y_COMPONENT
      let n1 := plane_size s.ccm U_COMPONENT
      let n2 := plane_size s.ccm V_COMPONENT
      { s with client_raw := { Y := memcpy s.client_raw.Y img.Y n0,
                               U := memcpy s.client_raw.U img.U n1,
                               V := memcpy s.client_raw.V img.V n2 },
               hist := { s.hist with raw_writes := s.hist.raw_writes + 1 },
               cpc := ClientPc.dma_raw }
  | ClientPc.dma_raw =>
    { s with server_raw := s.client_raw,
             hist := { s.hist with raw_dmas := s.hist.raw_dmas + 1 },
             cpc := ClientPc.signal_done }
  | ClientPc.signal_done =>
    { s with server_cell := { s.server_cell with cmd := Cmd.CMD_DONE },
             hist := { s.hist with done_sent := s.hist.done_sent + 1 },
             cpc := ClientPc.wait_done }
  | ClientPc.wait_done =>
    if s.client_cell.cmd ≠ Cmd.CMD_DONE then s else { s with cpc := ClientPc.copy_result }
  | ClientPc.copy_result =>
    match s.ccm.curframe with
    | none => s
    | some f =>
      let f := { f with keyframe := s.client_result.keyframe }
      let m0 := memcpy (f.mbs Y_COMPONENT) (s.client_result.mbs Y_COMPONENT)
        (luma_mb_count s.ccm)
      let m1 := memcpy (f.mbs U_COMPONENT) (s.client_result.mbs U_COMPONENT)
        (chroma_mb_count s.ccm)
      let m2 := memcpy (f.mbs V_COMPONENT) (s.client_result.mbs V_COMPONENT)
        (chroma_mb_count s.ccm)
      let f := { f with mbs := fun c =>
        if c = Y_COMPONENT then m0 else if c = U_COMPONENT then m1
        else if c = V_COMPONENT then m2 else f.mbs c }
      let f := { f with residuals :=
        { Ydct := memcpy f.residuals.Ydct s.client_result.Ydct (count32 s.ccm.ypw s.ccm.yph),
          Udct := memcpy f.residuals.Udct s.client_result.Udct (count32 s.ccm.upw s.ccm.uph),
          Vdct := memcpy f.residuals.Vdct s.client_result.Vdct (count32 s.ccm.vpw s.ccm.vph) } }
      { s with ccm := { s.ccm with curframe := some f },
               hist := { s.hist with results_read := s.hist.results_read + 1 },
               cpc := ClientPc.write_frame }
  | ClientPc.write_frame =>
    let written := match s.ccm.curframe with
      | none => s.written
      | some f => s.written ++ [f]
    let numframes := s.numframes + 1
    if cfg.limit_numframes ≠ 0 ∧ numframes ≥ cfg.limit_numframes then
      { s with written := written, numframes := numframes, cpc := ClientPc.send_quit }
    else
      { s with written := written, numframes := numframes, cpc := ClientPc.set_invalid }
  | ClientPc.send_quit =>
    { s with server_cell := { s.server_cell with cmd := Cmd.CMD_QUIT },
             hist := { s.hist with quit_sent := s.hist.quit_sent + 1 },
             cpc := ClientPc.finished }
  | ClientPc.finished => s

/-- One step of the server: the statement at its program point. The transport
calls are taken to succeed, a DMA being a copy of the whole segment. -/
def server_step (E : Externals) (s : System) : System :=
  match s.spc with
  | ServerPc.wait_cmd =>
    if s.server_cell.cmd = Cmd.CMD_INVALID then s else { s with spc := ServerPc.test_quit }
  | ServerPc.test_quit =>
    if s.server_cell.cmd = Cmd.CMD_QUIT then { s with spc := ServerPc.finished }
    else { s with hist := { s.hist with done_seen := s.hist.done_seen + 1 },
                  spc := ServerPc.ack }
  | ServerPc.ack =>
    { s with server_cell := { s.server_cell with cmd := Cmd.CMD_INVALID },
             hist := { s.hist with acks := s.hist.acks + 1 },
             spc := ServerPc.copy_raw }
  | ServerPc.copy_raw =>
    let n0 := plane_size s.scm Y_COMPONENT
    let n1 := plane_size s.scm U_COMPONENT
    let n2 := plane_size s.scm V_COMPONENT
    { s with simage := { Y := memcpy s.simage.Y s.server_raw.Y n0,
                         U := memcpy s.simage.U s.server_raw.U n1,
                         V := memcpy s.simage.V s.server_raw.V n2 },
             hist := { s.hist with raw_reads := s.hist.raw_reads + 1 },
             spc := ServerPc.encode }
  | ServerPc.encode =>
    { s with scm := c63_encode_image E s.scm s.simage,
             hist := { s.hist with encodes := s.hist.encodes + 1 },
             spc := ServerPc.copy_result }
  | ServerPc.copy_result =>
    match s.scm.curframe with
    | none => s
    | some f =>
      let r := s.server_result
      let r := { r with keyframe := f.keyframe }
      let m0 := memcpy (r.mbs Y_COMPONENT) (f.mbs Y_COMPONENT) (luma_mb_count s.scm)
      let m1 := memcpy (r.mbs U_COMPONENT) (f.mbs U_COMPONENT) (chroma_mb_count s.scm)
      let m2 := memcpy (r.mbs V_COMPONENT) (f.mbs V_COMPONENT) (chroma_mb_count s.scm)
      let r := { r with mbs := fun c =>
        if c = Y_COMPONENT then m0 else if c = U_COMPONENT then m1
        else if c = V_COMPONENT then m2 else r.mbs c }
      let r := { r with Ydct := memcpy r.Ydct f.residuals.Ydct (count32 s.scm.ypw s.scm.yph) }
      let r := { r with Udct := memcpy r.Udct f.residuals.Udct (count32 s.scm.upw s.scm.uph) }
      let r := { r with Vdct := memcpy r.Vdct f.residuals.Vdct (count32 s.scm.vpw s.scm.vph) }
      { s with server_result := r,
               hist := { s.hist with results_copied := s.hist.results_copied + 1 },
               spc := ServerPc.dma_result }
  | ServerPc.dma_result =>
    { s with client_result := s.server_result,
             hist := { s.hist with result_dmas := s.hist.result_dmas + 1 },
             spc := ServerPc.increment }
  | ServerPc.increment =>
    { s with scm := server_increment s.scm, spc := ServerPc.signal_done }
  | ServerPc.signal_done =>
    { s with client_cell := { s.client_cell with cmd := Cmd.CMD_DONE },
             hist := { s.hist with done_replied := s.hist.done_replied + 1 },
             spc := ServerPc.wait_cmd }
  | ServerPc.finished => s

/-- The states that some interleaving of client and server steps reaches from
the start state. -/
inductive Reachable (E : Externals) (T : Tables) (cfg : ClientConfig) : System → Prop where
  | start : Reachable E T cfg (System.start T cfg)
  | client (s : System) : Reachable E T cfg s → Reachable E T cfg (client_step cfg s)
  | server (s : System) : Reachable E T cfg s → Reachable E T cfg (server_step E s)

/-! ## The protocol invariant -/

/-- 1 at the client program points between its raw-segment write and its
result read of the same frame, else 0. -/
def ClientPc.after_raw_write : ClientPc → Nat
  | ClientPc.dma_raw => 1
  | ClientPc.signal_done => 1
  | ClientPc.wait_done => 1
  | ClientPc.copy_result => 1
  | _ => 0

/-- 1 at the client program points between its raw DMA and its result read. -/
def ClientPc.after_raw_dma : ClientPc → Nat
  | ClientPc.signal_done => 1
  | ClientPc.wait_done => 1
  | ClientPc.copy_result => 1
  | _ => 0

/-- 1 at the client program points between its `CMD_DONE` and its result read. -/
def ClientPc.after_signal : ClientPc → Nat
  | ClientPc.wait_done => 1
  | ClientPc.copy_result => 1
  | _ => 0

/-- Position of a server program point inside the loop body, from 0 at the
spin to 8 at the final `CMD_DONE`. -/
def ServerPc.stage : ServerPc → Nat
  | ServerPc.wait_cmd => 0
  | ServerPc.test_quit => 1
  | ServerPc.ack => 2
  | ServerPc.copy_raw => 3
  | ServerPc.encode => 4
  | ServerPc.copy_result => 5
  | ServerPc.dma_result => 6
  | ServerPc.increment => 7
  | ServerPc.signal_done => 8
  | ServerPc.finished => 0

/-- 1 when the server is past stage `k` of the frame it is working on. -/
def ServerPc.past (p : ServerPc) (k : Nat) : Nat := if k < p.stage then 1 else 0

/-- 1 while a submitted frame has not been answered: the client spins and its
cell does not hold `CMD_DONE`. -/
def System.pending (s : System) : Nat :=
  if s.cpc = ClientPc.wait_done ∧ s.client_cell.cmd ≠ Cmd.CMD_DONE then 1 else 0

/-- What the client cell holds at each client program point. -/
def client_cell_ok : ClientPc → Cmd → Prop
  | ClientPc.set_invalid, c => c = Cmd.CMD_DONE
  | ClientPc.read_frame, c => c = Cmd.CMD_INVALID
  | ClientPc.copy_raw, c => c = Cmd.CMD_INVALID
  | ClientPc.dma_raw, c => c = Cmd.CMD_INVALID
  | ClientPc.signal_done, c => c = Cmd.CMD_INVALID
  | ClientPc.wait_done, c => c ≠ Cmd.CMD_QUIT
  | ClientPc.copy_result, c => c = Cmd.CMD_DONE
  | ClientPc.write_frame, c => c = Cmd.CMD_DONE
  | ClientPc.send_quit, c => c ≠ Cmd.CMD_QUIT
  | ClientPc.finished, c => c ≠ Cmd.CMD_QUIT

/-- What the server cell holds at each server program point while a frame is
pending. -/
def server_cell_busy : ServerPc → Cmd → Prop
  | ServerPc.wait_cmd, c => c = Cmd.CMD_DONE
  | ServerPc.test_quit, c => c = Cmd.CMD_DONE
  | ServerPc.ack, c => c = Cmd.CMD_DONE
  | ServerPc.finished, _ => False
  | _, c => c = Cmd.CMD_INVALID

/-- The invariant of the joint system: how the history counters, the program
points and the two command cells hang together. -/
structure Inv (s : System) : Prop where
  raw_writes : s.hist.raw_writes = s.hist.results_read + s.cpc.after_raw_write
  raw_dmas : s.hist.raw_dmas = s.hist.results_read + s.cpc.after_raw_dma
  done_sent : s.hist.done_sent = s.hist.results_read + s.cpc.after_signal
  done_seen : s.hist.done_seen = s.hist.done_replied + s.spc.past 1
  acks : s.hist.acks = s.hist.done_replied + s.spc.past 2
  raw_reads : s.hist.raw_reads = s.hist.done_replied + s.spc.past 3
  encodes : s.hist.encodes = s.hist.done_replied + s.spc.past 4
  results_copied : s.hist.results_copied = s.hist.done_replied + s.spc.past 5
  result_dmas : s.hist.result_dmas = s.hist.done_replied + s.spc.past 6
  cross : s.hist.done_sent = s.hist.done_replied + s.pending
  idle : s.pending = 0 → s.cpc ≠ ClientPc.finished →
    s.spc = ServerPc.wait_cmd ∧ s.server_cell.cmd = Cmd.CMD_INVALID
  busy : s.pending = 1 → server_cell_busy s.spc s.server_cell.cmd
  ccell : client_cell_ok s.cpc s.client_cell.cmd
  quit : s.hist.quit_sent = (if s.cpc = ClientPc.finished then 1 else 0)
  fin : s.cpc = ClientPc.finished → s.server_cell.cmd = Cmd.CMD_QUIT ∧
    (s.spc = ServerPc.wait_cmd ∨ s.spc = ServerPc.test_quit ∨ s.spc = ServerPc.finished)
  img : s.cpc = ClientPc.copy_raw → s.image ≠ none
  ccur : s.ccm.curframe ≠ none
  scur : s.spc = ServerPc.copy_result → s.scm.curframe ≠ none

/-! ## Executions -/

/-- The two processes. -/
inductive Actor where
  | client
  | server
  deriving DecidableEq, Repr

/-- One step of the joint system by the given process. -/
def step (E : Externals) (cfg : ClientConfig) : Actor → System → System
  | Actor.client, s => client_step cfg s
  | Actor.server, s => server_step E s

/-- The state reached from `s` under a schedule, a list of who moves next. -/
def exec (E : Externals) (cfg : ClientConfig) : System → List Actor → System
  | s, [] => s
  | s, a :: l => exec E cfg (step E cfg a s) l

/-- Both processes have left their loops. -/
def System.final (s : System) : Prop :=
  s.cpc = ClientPc.finished ∧ s.spc = ServerPc.finished

/-- The process that can move without spinning: the server while a frame is
pending or the client has finished, the client otherwise. -/
def System.turn (s : System) : Actor :=
  match s.cpc with
  | ClientPc.wait_done => if s.client_cell.cmd = Cmd.CMD_DONE then Actor.client else Actor.server
  | ClientPc.finished => Actor.server
  | _ => Actor.client

/-- The schedule of length `n` that always lets the process move whose turn it is. -/
def fair_schedule (E : Externals) (cfg : ClientConfig) : Nat → System → List Actor
  | 0, _ => []
  | n + 1, s => s.turn :: fair_schedule E cfg n (step E cfg s.turn s)

/-- Progress measure inside one frame: larger means further from the end. -/
def System.rank (s : System) : Nat :=
  match s.cpc with
  | ClientPc.write_frame => 25
  | ClientPc.set_invalid => 24
  | ClientPc.read_frame => 23
  | ClientPc.copy_raw => 22
  | ClientPc.dma_raw => 21
  | ClientPc.signal_done => 20
  | ClientPc.wait_done => if s.client_cell.cmd = Cmd.CMD_DONE then 6 else 18 - s.spc.stage
  | ClientPc.copy_result => 5
  | ClientPc.send_quit => 4
  | ClientPc.finished =>
    match s.spc with
    | ServerPc.wait_cmd => 3
    | ServerPc.test_quit => 2
    | _ => 0

/-- Progress measure of the whole run when at most `bound` frames are read. -/
def System.measure (bound : Nat) (s : System) : Nat :=
  30 * (bound - s.hist.results_read) + s.rank

/-- 1 at the program point where a frame has been read but not yet copied. -/
def ClientPc.holds_frame : ClientPc → Nat
  | ClientPc.copy_raw => 1
  | _ => 0

/-- 1 at the program point where `numframes` has not yet been incremented for
the frame just received. -/
def ClientPc.before_count : ClientPc → Nat
  | ClientPc.write_frame => 1
  | _ => 0

/-- The client is still inside its loop. -/
def ClientPc.looping : ClientPc → Prop
  | ClientPc.send_quit => False
  | ClientPc.finished => False
  | _ => True

/-- The number of frames the client submits for a frame cap `limit` (0 for no
cap) and an input of `m` complete frames. -/
def frames_submitted (limit : Int) (m : Nat) : Nat :=
  if limit = 0 then m else min limit.toNat m

/-- The invariant of the client's reading and counting, for an input that holds
`m` complete frames: where the stream stands, and what `numframes` is. -/
structure FileInv (cfg : ClientConfig) (m : Nat) (s : System) : Prop where
  stream : s.cpc.looping → s.infile =
    { data := cfg.input,
      pos := (s.hist.raw_writes + s.cpc.holds_frame) * frame_bytes cfg.width cfg.height,
      eof := false }
  reads : s.hist.raw_writes + s.cpc.holds_frame ≤ m
  count : s.numframes + (s.cpc.before_count : Int) = (s.hist.results_read : Int)
  below : cfg.limit_numframes ≠ 0 → s.cpc.looping → s.numframes < cfg.limit_numframes
  total : ¬ s.cpc.looping → s.hist.results_read = frames_submitted cfg.limit_numframes m

/-- The result segment `r` holds a copy of the frame `f`: its keyframe flag,
and at the start of each array the entries of `f` that the `memcpy` calls of
the geometry `cm` move, that is the first `mb_rows*mb_cols` macroblocks of
`mbs[Y]`, the first `mb_rows/2*mb_cols/2` of `mbs[U]` and of `mbs[V]`, and
the first `ypw*yph`, `upw*uph`, `vpw*vph` coefficients of the residuals. -/
structure Copied (cm : c63_common) (f : frame) (r : result_img_segment) : Prop where
  keyframe : r.keyframe = f.keyframe
  mbs_Y : (f.mbs Y_COMPONENT).take (luma_mb_count cm) <+: r.mbs Y_COMPONENT
  mbs_U : (f.mbs U_COMPONENT).take (chroma_mb_count cm) <+: r.mbs U_COMPONENT
  mbs_V : (f.mbs V_COMPONENT).take (chroma_mb_count cm) <+: r.mbs V_COMPONENT
  Ydct : f.residuals.Ydct.take (count32 cm.ypw cm.yph) <+: r.Ydct
  Udct : f.residuals.Udct.take (count32 cm.upw cm.uph) <+: r.Udct
  Vdct : f.residuals.Vdct.take (count32 cm.vpw cm.vph) <+: r.Vdct

/-- The invariant of the joint system about the result data: after the
last result DMA the client's result segment equals the server's, and after the
last copy the server's result segment carries the keyframe flag of the
server's current frame and holds a copy of that frame; the server's
`framenum` counts the frames that it has finished. -/
structure DataInv (s : System) : Prop where
  segments : s.hist.result_dmas = s.hist.results_copied → 0 < s.hist.result_dmas →
    s.client_result = s.server_result
  flag : s.hist.results_copied = s.hist.encodes → 0 < s.hist.encodes →
    s.scm.curframe.map frame.keyframe = some s.server_result.keyframe
  content : s.hist.results_copied = s.hist.encodes → 0 < s.hist.encodes →
    ∃ f, s.scm.curframe = some f ∧ Copied s.scm f s.server_result
  framenum : s.scm.framenum = ((s.hist.done_replied + s.spc.past 7 : Nat) : Int)

/-- A small run for evaluating the model: 2 x 2 frames (6 bytes each), no frame
cap, an input of two frames. -/
def sample_config : ClientConfig :=
  { width := 2, height := 2, limit_numframes := 0,
    input := [1, 2, 3, 4, 5, 6, 7, 8, 9, 10, 11, 12] }

/-- The sample run with a truncated third frame: two complete frames and three
more bytes. -/
def sample_config_short : ClientConfig :=
  { width := 2, height := 2, limit_numframes := 0,
    input := [1, 2, 3, 4, 5, 6, 7, 8, 9, 10, 11, 12, 13, 14, 15] }

/-- The sample run with a cap of one frame on an input of two frames. -/
def sample_config_capped : ClientConfig :=
  { width := 2, height := 2, limit_numframes := 1,
    input := [1, 2, 3, 4, 5, 6, 7, 8, 9, 10, 11, 12] }

/-- A run on 2 x 1 frames, whose size is not a multiple of 4, with a cap of one
frame: the input holds four frames of `2*1*3/2 = 3` bytes. -/
def odd_config : ClientConfig :=
  { width := 2, height := 1, limit_numframes := 1,
    input := [1, 2, 3, 4, 5, 6, 7, 8, 9, 10, 11, 12] }

/-- A run with both dimensions zero, a cap of one frame and an empty input. -/
def zero_config : ClientConfig :=
  { width := 0, height := 0, limit_numframes := 1, input := [] }

/-- The schedule that takes the client from the top of its loop to the point
where it has read a frame and is about to copy it into the raw segment. -/
def sample_to_copy : List Actor := [Actor.client, Actor.client]

/-- The schedule that takes the system from just after a raw-segment write
through the whole exchange of that frame to the point just before the next
raw-segment write. -/
def sample_one_frame : List Actor :=
  [Actor.client, Actor.client,
   Actor.server, Actor.server, Actor.server, Actor.server, Actor.server, Actor.server,
   Actor.server, Actor.server, Actor.server,
   Actor.client, Actor.client, Actor.client, Actor.client, Actor.client]

/-- The schedule that takes the system from its start to the point where the
client has left its spin for frame 0 and is about to read the result segment. -/
def sample_to_result : List Actor :=
  [Actor.client, Actor.client, Actor.client, Actor.client, Actor.client,
   Actor.server, Actor.server, Actor.server, Actor.server, Actor.server, Actor.server,
   Actor.server, Actor.server, Actor.server,
   Actor.client]

/-- Every counter of `a` is at most the same counter of `b`. -/
def History.le (a b : History) : Prop :=
  a.raw_writes ≤ b.raw_writes ∧ a.raw_dmas ≤ b.raw_dmas ∧ a.done_sent ≤ b.done_sent ∧
  a.quit_sent ≤ b.quit_sent ∧ a.results_read ≤ b.results_read ∧ a.done_seen ≤ b.done_seen ∧
  a.acks ≤ b.acks ∧ a.raw_reads ≤ b.raw_reads ∧ a.encodes ≤ b.encodes ∧
  a.results_copied ≤ b.results_copied ∧ a.result_dmas ≤ b.result_dmas ∧
  a.done_replied ≤ b.done_replied

/-- The client has not got hold of any frame: it is at the top of its loop, at
the read, or on its way out, and nothing has been written. -/
structure NoFrame (s : System) : Prop where
  pc : s.cpc = ClientPc.set_invalid ∨ s.cpc = ClientPc.read_frame ∨
    s.cpc = ClientPc.send_quit ∨ s.cpc = ClientPc.finished
  results : s.hist.results_read = 0
  writes : s.hist.raw_writes = 0
  written : s.written = []

/-- The server's share of the joint state is the same in `s` and `t`: its
program point, codec state, scratch image, both result segments (only the
server writes them) and the counters of its own events. -/
structure SameServer (s t : System) : Prop where
  spc : t.spc = s.spc
  scm : t.scm = s.scm
  simage : t.simage = s.simage
  server_result : t.server_result = s.server_result
  client_result : t.client_result = s.client_result
  done_seen : t.hist.done_seen = s.hist.done_seen
  acks : t.hist.acks = s.hist.acks
  raw_reads : t.hist.raw_reads = s.hist.raw_reads
  encodes : t.hist.encodes = s.hist.encodes
  results_copied : t.hist.results_copied = s.hist.results_copied
  result_dmas : t.hist.result_dmas = s.hist.result_dmas
  done_replied : t.hist.done_replied = s.hist.done_replied

/-- The schedule of the capped sample run up to the point where the client has
sent `CMD_QUIT` after its only frame and the server has left its spin. -/
def sample_to_quit : List Actor :=
  sample_to_result ++ [Actor.client, Actor.client, Actor.client, Actor.server]

/-- Modelled from the spec: the number of colour components, `COLOR_COMPONENTS`
of `c63.h`. -/
abbrev COLOR_COMPONENTS : Nat := 3

/-- The sizes that the C implementation of the two nodes fixes and the sources
do not: `sizeof` of an object pointer and of `struct macroblock` (declared in
`c63.h`). Both nodes are taken to agree on them. -/
structure Abi where
  sizeof_pointer : Nat
  sizeof_macroblock : Nat
  deriving DecidableEq, Repr

/-- Pointers of 8 bytes and macroblocks of 8 bytes (an `int` and two `int8_t`,
padded), as on the 64-bit nodes. -/
def lp64 : Abi := { sizeof_pointer := 8, sizeof_macroblock := 8 }

/-- The call `memcpy(seg + off, src, n)` into a mapped segment of `size` bytes,
the segment being a byte-addressed memory: `none` when the copy would leave the
segment or the source array. -/
def memcpy_to_segment (seg : Nat → Nat) (size off : Nat) (src : List Nat) (n : Nat) :
    Option (Nat → Nat) :=
  if off + n ≤ size ∧ n ≤ src.length then
    some (fun a => if off ≤ a ∧ a < off + n then src.getD (a - off) 0 else seg a)
  else none

/-- The call `memcpy(dst, seg + off, n)` out of a mapped segment of `size`
bytes: `none` when the copy would leave the segment or the destination array. -/
def memcpy_from_segment (dst : List Nat) (seg : Nat → Nat) (size off n : Nat) :
    Option (List Nat) :=
  if off + n ≤ size ∧ n ≤ dst.length then
    some ((List.range n).map (fun i => seg (off + i)) ++ dst.drop n)
  else none

/-- The DMA transfer `SCIStartDmaTransfer` with both offsets 0, followed by
`SCIWaitForDMAQueue`, taken as an exact copy of the first `size` bytes of the
local segment into the remote segment. -/
def SCIStartDmaTransfer (local_segment remote_segment : Nat → Nat) (size : Nat) : Nat → Nat :=
  fun a => if a < size then local_segment a else remote_segment a

/-- The offsets of the members `Y`, `U`, `V` of `struct img_segment`. Each
member is declared as an array of `padw[c]*padh[c]` pointers (the product
formed in 32 bits), so it occupies that many times the size of a pointer. -/
def offsetof_img_segment (abi : Abi) (cm : c63_common) (c : Nat) : Nat :=
  if c = Y_COMPONENT then 0
  else if c = U_COMPONENT then abi.sizeof_pointer * plane_size cm Y_COMPONENT
  else abi.sizeof_pointer * plane_size cm Y_COMPONENT
    + abi.sizeof_pointer * plane_size cm U_COMPONENT

/-- The value of `sizeof(struct img_segment)`. -/
def sizeof_img_segment (abi : Abi) (cm : c63_common) : Nat :=
  abi.sizeof_pointer * plane_size cm Y_COMPONENT
    + abi.sizeof_pointer * plane_size cm U_COMPONENT
    + abi.sizeof_pointer * plane_size cm V_COMPONENT

/-- The three `memcpy` calls of the client into its raw segment (`c63enc.c`,
lines 503-505). -/
def client_copy_raw (abi : Abi) (cm : c63_common) (image : yuv_t) (seg : Nat → Nat) :
    Option (Nat → Nat) :=
  (memcpy_to_segment seg (sizeof_img_segment abi cm) (offsetof_img_segment abi cm Y_COMPONENT)
    image.Y (plane_size cm Y_COMPONENT)).bind fun seg =>
  (memcpy_to_segment seg (sizeof_img_segment abi cm) (offsetof_img_segment abi cm U_COMPONENT)
    image.U (plane_size cm U_COMPONENT)).bind fun seg =>
  memcpy_to_segment seg (sizeof_img_segment abi cm) (offsetof_img_segment abi cm V_COMPONENT)
    image.V (plane_size cm V_COMPONENT)

/-- The three `memcpy` calls of the server out of its raw segment into its
scratch image (`c63server.c`, lines 416-420). -/
def server_copy_raw (abi : Abi) (cm : c63_common) (seg : Nat → Nat) (image : yuv_t) :
    Option yuv_t :=
  (memcpy_from_segment image.Y seg (sizeof_img_segment abi cm)
    (offsetof_img_segment abi cm Y_COMPONENT) (plane_size cm Y_COMPONENT)).bind fun y =>
  (memcpy_from_segment image.U seg (sizeof_img_segment abi cm)
    (offsetof_img_segment abi cm U_COMPONENT) (plane_size cm U_COMPONENT)).bind fun u =>
  (memcpy_from_segment image.V seg (sizeof_img_segment abi cm)
    (offsetof_img_segment abi cm V_COMPONENT) (plane_size cm V_COMPONENT)).bind fun v =>
  some { Y := y, U := u, V := v }

/-- The way of one raw frame from the client's image to the server's scratch
image: the client's copies into its segment, the DMA transfer of
`sizeof(struct img_segment)` bytes as the client computes it, the server's
copies out of its segment. -/
def raw_shuttle (abi : Abi) (ccm scm : c63_common) (image : yuv_t)
    (client_seg server_seg : Nat → Nat) (scratch : yuv_t) : Option yuv_t :=
  (client_copy_raw abi ccm image client_seg).bind fun seg =>
  server_copy_raw abi scm (SCIStartDmaTransfer seg server_seg (sizeof_img_segment abi ccm))
    scratch

/-- The state of the joint system after the schedule `l` from the start. -/
def reach (E : Externals) (T : Tables) (cfg : ClientConfig) (l : List Actor) : System :=
  exec E cfg (System.start T cfg) l

/-- The geometry of two codec states is the same. -/
structure SameGeometry (a b : c63_common) : Prop where
  padw : a.padw = b.padw
  padh : a.padh = b.padh
  ypw : a.ypw = b.ypw
  yph : a.yph = b.yph
  upw : a.upw = b.upw
  uph : a.uph = b.uph
  vpw : a.vpw = b.vpw
  vph : a.vph = b.vph
  mb_cols : a.mb_cols = b.mb_cols
  mb_rows : a.mb_rows = b.mb_rows
/-- A raw image of the padded size of the sample run, 16 x 16 luma and 8 x 8
chroma samples. -/
def sample_image : yuv_t :=
  { Y := List.range 256, U := List.range 64, V := (List.range 64).map (fun i => 255 - i) }
/-- An instance of the external units for evaluating the model: every unit
returns empty planes. -/
def sample_externals : Externals :=
  { create_frame := fun _ image =>
      { orig := image, recons := ⟨[], [], []⟩, predicted := ⟨[], [], []⟩,
        residuals := ⟨[], [], []⟩, mbs := fun _ => [], keyframe := 0 },
    c63_motion_estimate := fun _ _ => [],
    c63_motion_compensate := fun _ => ⟨[], [], []⟩,
    dct_quantize := fun _ _ _ _ out _ => out,
    dequantize_idct := fun _ _ _ _ out _ => out }

/-- The state of the sample run after the schedule `l`. -/
def sample_run (l : List Actor) : System :=
  exec sample_externals sample_config (System.start sample_tables sample_config) l

/-- The sample run at the point where the client is about to copy frame 0 into
its raw segment. -/
def sample_at_copy : System :=
  reach sample_externals sample_tables sample_config sample_to_copy

/-- The arrays of a `struct frame` that travel in the result segment, each as
the bytes of its object representation: `sizeof(struct macroblock)` bytes for
every macroblock of `mbs[c]`, two bytes for every 16-bit coefficient. -/
structure frame_arrays where
  keyframe : Int
  mbs : Nat → List Nat
  Ydct : List Nat
  Udct : List Nat
  Vdct : List Nat

/-- A mapped `struct result_img_segment`: the member `keyframe` at its start
and, from the member `mbs` on, the rest as a byte-addressed memory. -/
structure result_memory where
  keyframe : Int
  bytes : Nat → Nat

/-- The offset of `mbs[c]` from the member `mbs`, which is declared as
`COLOR_COMPONENTS` rows of `mb_rows*mb_cols` pointers (every such product is
formed in 32 bits). -/
def offsetof_mbs (abi : Abi) (cm : c63_common) (c : Nat) : Nat :=
  c * (abi.sizeof_pointer * (luma_mb_count cm))

/-- The offset of the member `Ydct` from the member `mbs`. -/
def offsetof_Ydct (abi : Abi) (cm : c63_common) : Nat :=
  COLOR_COMPONENTS * (abi.sizeof_pointer * (luma_mb_count cm))

/-- The offset of the member `Udct`; `Ydct` is declared as `ypw*yph` pointers. -/
def offsetof_Udct (abi : Abi) (cm : c63_common) : Nat :=
  offsetof_Ydct abi cm + abi.sizeof_pointer * (count32 cm.ypw cm.yph)

/-- The offset of the member `Vdct`; `Udct` is declared as `upw*uph` pointers. -/
def offsetof_Vdct (abi : Abi) (cm : c63_common) : Nat :=
  offsetof_Udct abi cm + abi.sizeof_pointer * (count32 cm.upw cm.uph)

/-- The size of `struct result_img_segment` from the member `mbs` on; `Vdct`
is declared as `vpw*vph` pointers. -/
def sizeof_result_arrays (abi : Abi) (cm : c63_common) : Nat :=
  offsetof_Vdct abi cm + abi.sizeof_pointer * (count32 cm.vpw cm.vph)

/-- The arrays of a frame have the sizes that their allocation gives them
(`c63enc.c`, lines 475-484, for the client; `create_frame` for the server):
`mb_rows*mb_cols` macroblocks for `Y`, `mb_rows/2*mb_cols/2` for `U` and `V`,
and `ypw*yph`, `upw*uph`, `vpw*vph` 16-bit coefficients, each count as the code
forms it in 32 bits. -/
structure FrameAllocated (abi : Abi) (cm : c63_common) (f : frame_arrays) : Prop where
  mbs_Y : (f.mbs Y_COMPONENT).length = luma_mb_count cm * abi.sizeof_macroblock
  mbs_U : (f.mbs U_COMPONENT).length = chroma_mb_count cm * abi.sizeof_macroblock
  mbs_V : (f.mbs V_COMPONENT).length = chroma_mb_count cm * abi.sizeof_macroblock
  Ydct : f.Ydct.length = count32 cm.ypw cm.yph * 2
  Udct : f.Udct.length = count32 cm.upw cm.uph * 2
  Vdct : f.Vdct.length = count32 cm.vpw cm.vph * 2

/-- The server's copy of its current frame into its result segment
(`c63server.c`, lines 426-442): the assignment of `keyframe` and six `memcpy`
calls, `sizeof(int16_t)` being 2. -/
def server_copy_result (abi : Abi) (cm : c63_common) (f : frame_arrays) (seg : result_memory) :
    Option result_memory :=
  (memcpy_to_segment seg.bytes (sizeof_result_arrays abi cm) (offsetof_mbs abi cm Y_COMPONENT)
    (f.mbs Y_COMPONENT) (luma_mb_count cm * abi.sizeof_macroblock)).bind fun b =>
  (memcpy_to_segment b (sizeof_result_arrays abi cm) (offsetof_mbs abi cm U_COMPONENT)
    (f.mbs U_COMPONENT) (chroma_mb_count cm * abi.sizeof_macroblock)).bind fun b =>
  (memcpy_to_segment b (sizeof_result_arrays abi cm) (offsetof_mbs abi cm V_COMPONENT)
    (f.mbs V_COMPONENT) (chroma_mb_count cm * abi.sizeof_macroblock)).bind fun b =>
  (memcpy_to_segment b (sizeof_result_arrays abi cm) (offsetof_Ydct abi cm)
    f.Ydct (count32 cm.ypw cm.yph * 2)).bind fun b =>
  (memcpy_to_segment b (sizeof_result_arrays abi cm) (offsetof_Udct abi cm)
    f.Udct (count32 cm.upw cm.uph * 2)).bind fun b =>
  (memcpy_to_segment b (sizeof_result_arrays abi cm) (offsetof_Vdct abi cm)
    f.Vdct (count32 cm.vpw cm.vph * 2)).bind fun b =>
  some { keyframe := f.keyframe, bytes := b }

/-- The client's deserialisation of its result segment into its current frame
(`c63enc.c`, lines 546-556). -/
def client_copy_result (abi : Abi) (cm : c63_common) (seg : result_memory) (f : frame_arrays) :
    Option frame_arrays :=
  (memcpy_from_segment (f.mbs Y_COMPONENT) seg.bytes (sizeof_result_arrays abi cm)
    (offsetof_mbs abi cm Y_COMPONENT)
    (luma_mb_count cm * abi.sizeof_macroblock)).bind fun m0 =>
  (memcpy_from_segment (f.mbs U_COMPONENT) seg.bytes (sizeof_result_arrays abi cm)
    (offsetof_mbs abi cm U_COMPONENT) (chroma_mb_count cm * abi.sizeof_macroblock)).bind fun m1 =>
  (memcpy_from_segment (f.mbs V_COMPONENT) seg.bytes (sizeof_result_arrays abi cm)
    (offsetof_mbs abi cm V_COMPONENT) (chroma_mb_count cm * abi.sizeof_macroblock)).bind fun m2 =>
  (memcpy_from_segment f.Ydct seg.bytes (sizeof_result_arrays abi cm) (offsetof_Ydct abi cm)
    (count32 cm.ypw cm.yph * 2)).bind fun d0 =>
  (memcpy_from_segment f.Udct seg.bytes (sizeof_result_arrays abi cm) (offsetof_Udct abi cm)
    (count32 cm.upw cm.uph * 2)).bind fun d1 =>
  (memcpy_from_segment f.Vdct seg.bytes (sizeof_result_arrays abi cm) (offsetof_Vdct abi cm)
    (count32 cm.vpw cm.vph * 2)).bind fun d2 =>
  some { keyframe := seg.keyframe,
         mbs := fun c => if c = Y_COMPONENT then m0 else if c = U_COMPONENT then m1
           else if c = V_COMPONENT then m2 else f.mbs c,
         Ydct := d0, Udct := d1, Vdct := d2 }

/-- The DMA transfer of the whole result segment, the member `keyframe` and
the arrays behind it. -/
def result_dma (abi : Abi) (cm : c63_common) (local_segment remote_segment : result_memory) :
    result_memory :=
  { keyframe := local_segment.keyframe,
    bytes := SCIStartDmaTransfer local_segment.bytes remote_segment.bytes
      (sizeof_result_arrays abi cm) }

/-- The way of one encoded frame from the server's current frame to the
client's: the server's copies into its result segment, the DMA transfer of the
segment as the server sizes it, the client's copies out of its segment. -/
def result_shuttle (abi : Abi) (scm ccm : c63_common) (f : frame_arrays)
    (server_seg client_seg : result_memory) (g : frame_arrays) : Option frame_arrays :=
  (server_copy_result abi scm f server_seg).bind fun seg =>
  client_copy_result abi ccm (result_dma abi scm seg client_seg) g
/-- The arrays of the current frame that the client allocates before its loop
(`c63enc.c`, lines 471-484), zeroed by `calloc`; `keyframe` is not initialised
there and is given as 0. -/
def client_frame_arrays (abi : Abi) (cm : c63_common) : frame_arrays :=
  { keyframe := 0,
    mbs := fun c =>
      if c = Y_COMPONENT then List.replicate (luma_mb_count cm * abi.sizeof_macroblock) 0
      else if c = U_COMPONENT then List.replicate (chroma_mb_count cm * abi.sizeof_macroblock) 0
      else if c = V_COMPONENT then List.replicate (chroma_mb_count cm * abi.sizeof_macroblock) 0
      else [],
    Ydct := List.replicate (count32 cm.ypw cm.yph * 2) 0,
    Udct := List.replicate (count32 cm.upw cm.uph * 2) 0,
    Vdct := List.replicate (count32 cm.vpw cm.vph * 2) 0 }

/-- An encoded frame of the sample geometry (padded to 16 x 16, so 2 x 2 luma
macroblocks and 1 chroma macroblock) with macroblocks of `size` bytes: a key
frame whose arrays hold bytes that tell the arrays apart. -/
def sample_frame_arrays (size : Nat) : frame_arrays :=
  { keyframe := 1,
    mbs := fun c =>
      if c = Y_COMPONENT then (List.range (4 * size)).map (fun i => 1 + i)
      else if c = U_COMPONENT then (List.range size).map (fun i => 101 + i)
      else if c = V_COMPONENT then (List.range size).map (fun i => 201 + i)
      else [],
    Ydct := (List.range 512).map (fun i => i % 256),
    Udct := (List.range 128).map (fun i => 128 + i),
    Vdct := (List.range 128).map (fun i => 255 - i) }

/-- Nodes with pointers of 4 bytes and the same macroblock of 8 bytes. -/
def ilp32 : Abi := { sizeof_pointer := 4, sizeof_macroblock := 8 }

/-- Sizes with a pointer of one byte, smaller than a 16-bit coefficient. -/
def narrow_abi : Abi := { sizeof_pointer := 1, sizeof_macroblock := 1 }

/-- A result segment that holds zeros. -/
def zero_result_memory : result_memory := { keyframe := 0, bytes := fun _ => 0 }

/-- The sample run at the point where the client has left its spin for frame 0
and is about to read the result segment. -/
def sample_at_result : System :=
  reach sample_externals sample_tables sample_config sample_to_result

/-- A frame seen as the contents of a result segment: its keyframe flag, its
macroblock arrays and its residuals. -/
def frame.as_result (f : frame) : result_img_segment :=
  { keyframe := f.keyframe, mbs := f.mbs, Ydct := f.residuals.Ydct,
    Udct := f.residuals.Udct, Vdct := f.residuals.Vdct }

/-- An instance of the external units that leaves marks, for evaluating the
model on arrays that are not empty: `create_frame` gives arrays of the sizes
of the geometry, every macroblock marked with the number of the frame and the
first luma sample of the image, every coefficient with the number of the
frame; `dct_quantize` adds the first sample of its input plane to every
coefficient; the other units leave their outputs as they are. -/
def marking_externals : Externals :=
  { create_frame := fun cm image =>
      { orig := image, recons := zero_image cm, predicted := zero_image cm,
        residuals := { Ydct := List.replicate (count32 cm.ypw cm.yph) (cm.framenum + 10),
                       Udct := List.replicate (count32 cm.upw cm.uph) (cm.framenum + 20),
                       Vdct := List.replicate (count32 cm.vpw cm.vph) (cm.framenum + 30) },
        mbs := fun c =>
          if c = Y_COMPONENT then
            List.replicate (luma_mb_count cm) ⟨1, cm.framenum + 1, image.Y.headD 0⟩
          else List.replicate (chroma_mb_count cm) ⟨1, cm.framenum + 1, c⟩,
        keyframe := 0 },
    c63_motion_estimate := fun cm c => (cm.curframe.map (fun f => f.mbs c)).getD [],
    c63_motion_compensate := fun cm => zero_image cm,
    dct_quantize := fun input _ _ _ out _ => out.map (fun v => v + input.headD 0),
    dequantize_idct := fun _ _ _ _ out _ => out }

/-- The marked sample run at the point where the client has left its spin for
frame 0 and is about to read the result segment. -/
def marked_at_result : System :=
  reach marking_externals sample_tables sample_config sample_to_result

end C63

/-! # Theorems -/

namespace C63

/-! ## Arithmetic of the geometry -/

/-- A product below `2^31` is formed exactly in 32 bits. -/
theorem mul32_small (a b : Nat) (h : a * b < 2 ^ 31) : mul32 a b = ((a * b : Nat) : Int) := by
  unfold mul32 int_of_uint32
  have h1 : a * b % 2 ^ 32 = a * b := Nat.mod_eq_of_lt (by omega)
  rw [h1, if_pos h]

/-- The conversion to `size_t` keeps a value that is not negative and below
`2^64`. -/
theorem size_t_of_int_small (n : Nat) (h : n < 2 ^ 64) : size_t_of_int (n : Int) = n := by
  unfold size_t_of_int
  have h1 : (n : Int) % 2 ^ 64 = (n : Int) := Int.emod_eq_of_lt (by omega) (by exact_mod_cast h)
  rw [h1]
  exact Int.toNat_ofNat n

/-- A product below `2^31` passed as a count is the exact product. -/
theorem count32_small (a b : Nat) (h : a * b < 2 ^ 31) : count32 a b = a * b := by
  unfold count32
  rw [mul32_small a b h]
  exact size_t_of_int_small _ (by omega)

/-- Integers up to `2^24` are exactly representable in single precision. -/
theorem f32_of_nat_small (n : Nat) (h : n ≤ 2 ^ 24) : f32_of_nat n = n := by
  rcases Nat.lt_or_ge n (2 ^ 24) with h1 | h1
  · have hs : f32_shift n = 0 := by
      unfold f32_shift
      rw [if_pos h1]
    simp [f32_of_nat, hs, Nat.mod_one]
  · have : n = 2 ^ 24 := le_antisymm h h1
    subst this
    decide

/-- The conversion to `float` is exact on `0 .. 2^24`. -/
theorem f32_of_int_small (z : Int) (h0 : 0 ≤ z) (h : z ≤ 2 ^ 24) : f32_of_int z = z := by
  unfold f32_of_int
  rw [if_pos h0, f32_of_nat_small _ (by omega)]
  omega

/-- The rational ceiling `ceil(a/16)` in integer arithmetic. -/
theorem spec_ceil_sixteen (a : Int) : spec_ceil a 16 = (a + 15) / 16 := by
  unfold spec_ceil
  rw [Int.ceil_eq_iff]
  have h1 : a ≤ 16 * ((a + 15) / 16) := by omega
  have h2 : 16 * ((a + 15) / 16) < a + 16 := by omega
  have h1q : (a : ℚ) ≤ 16 * (((a + 15) / 16 : Int) : ℚ) := by exact_mod_cast h1
  have h2q : (16 : ℚ) * (((a + 15) / 16 : Int) : ℚ) < (a : ℚ) + 16 := by exact_mod_cast h2
  constructor
  · rw [lt_div_iff₀ (by norm_num)]
    push_cast
    linarith
  · rw [div_le_iff₀ (by norm_num)]
    push_cast
    linarith

/-- The padded dimension computed by `init_c63_enc` for a raw dimension in `1 .. 2^24`. -/
theorem pad_value (w k : Int) (h0 : 0 < w) (h : w ≤ 2 ^ 24) (hk : k = 8 ∨ k = 16) :
    (to_uint32 (ceil_div (f32_of_int w) 16 * k) : Int) = (w + 15) / 16 * k := by
  rw [f32_of_int_small w (le_of_lt h0) h]
  unfold to_uint32 ceil_div
  rcases hk with rfl | rfl <;> omega

/-- The rational `floor(e / 2.5)` in integer arithmetic. -/
theorem spec_quant_floor_25 (e : Nat) : spec_quant_floor e 25 = ((e * 10 / 25 : Nat) : Int) := by
  unfold spec_quant_floor
  rw [Int.floor_eq_iff]
  have h1 : 25 * (e * 10 / 25) ≤ e * 10 := by omega
  have h2 : e * 10 < 25 * (e * 10 / 25) + 25 := by omega
  generalize e * 10 / 25 = q at h1 h2
  have h1q : (25 : ℚ) * (q : ℚ) ≤ (e : ℚ) * 10 := by exact_mod_cast h1
  have h2q : (e : ℚ) * 10 < 25 * (q : ℚ) + 25 := by exact_mod_cast h2
  simp only [Int.cast_natCast, Nat.cast_ofNat]
  constructor
  · rw [le_div_iff₀ (by norm_num)]
    linarith
  · rw [div_lt_iff₀ (by norm_num)]
    linarith

/-- For `qp = 25` the scaled entry fits in 8 bits, so the store does not wrap. -/
theorem quant_scale_25 (e : Fin 256) : quant_scale e.val 25 = e.val * 10 / 25 := by
  unfold quant_scale
  have := e.isLt
  omega

/-! ## C4, C5: frame geometry -/

/-- C4 (as amended): for every width and height in `1 .. 2^24`, the range in
which the conversion of the `int` to `float` is exact, `init_c63_enc` gives
`ypw = padw[Y] = ceil(width/16)*16` and `yph = padh[Y] = ceil(height/16)*16`,
both multiples of 16, at least the raw dimensions, with `mb_cols*8 = ypw` and
`mb_rows*8 = yph`. -/
theorem init_c63_enc_luma_geometry (T : Tables) (width height : Int)
    (hw : 0 < width) (hw24 : width ≤ 2 ^ 24) (hh : 0 < height) (hh24 : height ≤ 2 ^ 24) :
    ((init_c63_enc T width height).ypw : Int) = spec_ceil width 16 * 16 ∧
    ((init_c63_enc T width height).yph : Int) = spec_ceil height 16 * 16 ∧
    (init_c63_enc T width height).padw Y_COMPONENT = (init_c63_enc T width height).ypw ∧
    (init_c63_enc T width height).padh Y_COMPONENT = (init_c63_enc T width height).yph ∧
    (init_c63_enc T width height).ypw % 16 = 0 ∧
    (init_c63_enc T width height).yph % 16 = 0 ∧
    width ≤ ((init_c63_enc T width height).ypw : Int) ∧
    height ≤ ((init_c63_enc T width height).yph : Int) ∧
    (init_c63_enc T width height).mb_cols * 8 = (init_c63_enc T width height).ypw ∧
    (init_c63_enc T width height).mb_rows * 8 = (init_c63_enc T width height).yph := by
  have hy := pad_value width 16 hw hw24 (Or.inr rfl)
  have hx := pad_value height 16 hh hh24 (Or.inr rfl)
  rw [spec_ceil_sixteen, spec_ceil_sixteen]
  simp only [init_c63_enc, set_at, c63_common_zero]
  refine ⟨hy, hx, ?_, ?_, ?_, ?_, ?_, ?_, ?_, ?_⟩
  · simp
  · simp
  · omega
  · omega
  · omega
  · omega
  · omega
  · omega

/-- Witness for C4 at a CIF frame, 352 x 288. -/
theorem init_c63_enc_luma_geometry_witness :
    ((init_c63_enc sample_tables 352 288).ypw : Int) = spec_ceil 352 16 * 16 ∧
    ((init_c63_enc sample_tables 352 288).yph : Int) = spec_ceil 288 16 * 16 ∧
    (init_c63_enc sample_tables 352 288).padw Y_COMPONENT = (init_c63_enc sample_tables 352 288).ypw ∧
    (init_c63_enc sample_tables 352 288).padh Y_COMPONENT = (init_c63_enc sample_tables 352 288).yph ∧
    (init_c63_enc sample_tables 352 288).ypw % 16 = 0 ∧
    (init_c63_enc sample_tables 352 288).yph % 16 = 0 ∧
    (352 : Int) ≤ ((init_c63_enc sample_tables 352 288).ypw : Int) ∧
    (288 : Int) ≤ ((init_c63_enc sample_tables 352 288).yph : Int) ∧
    (init_c63_enc sample_tables 352 288).mb_cols * 8 = (init_c63_enc sample_tables 352 288).ypw ∧
    (init_c63_enc sample_tables 352 288).mb_rows * 8 = (init_c63_enc sample_tables 352 288).yph :=
  init_c63_enc_luma_geometry sample_tables 352 288 (by decide) (by decide) (by decide) (by decide)

/-- C4 fails as stated: a width of `2^24 + 1` is rounded to `2^24` by the
conversion to `float`, so `ypw` is `16777216`, which is neither
`ceil(width/16)*16 = 16777232` nor at least the width. -/
theorem init_c63_enc_luma_geometry_counterexample :
    (init_c63_enc sample_tables 16777217 16).ypw = 16777216 ∧
    spec_ceil 16777217 16 * 16 = 16777232 ∧
    ¬ ((16777217 : Int) ≤ ((init_c63_enc sample_tables 16777217 16).ypw : Int)) := by
  refine ⟨by decide, ?_, by decide⟩
  rw [spec_ceil_sixteen]
  decide

/-- C5 (as amended): for every width and height in `1 .. 2^24`, the range in
which the conversion of the `int` to `float` is exact, `init_c63_enc` gives
`upw = vpw = ceil(width/16)*8` and `uph = vph = ceil(height/16)*8` (stored in
`padw`/`padh` as well), each a multiple of 8 and exactly half of the
corresponding luma padded dimension. -/
theorem init_c63_enc_chroma_geometry (T : Tables) (width height : Int)
    (hw : 0 < width) (hw24 : width ≤ 2 ^ 24) (hh : 0 < height) (hh24 : height ≤ 2 ^ 24) :
    ((init_c63_enc T width height).upw : Int) = spec_ceil width 16 * 8 ∧
    ((init_c63_enc T width height).vpw : Int) = spec_ceil width 16 * 8 ∧
    ((init_c63_enc T width height).uph : Int) = spec_ceil height 16 * 8 ∧
    ((init_c63_enc T width height).vph : Int) = spec_ceil height 16 * 8 ∧
    (init_c63_enc T width height).padw U_COMPONENT = (init_c63_enc T width height).upw ∧
    (init_c63_enc T width height).padw V_COMPONENT = (init_c63_enc T width height).vpw ∧
    (init_c63_enc T width height).padh U_COMPONENT = (init_c63_enc T width height).uph ∧
    (init_c63_enc T width height).padh V_COMPONENT = (init_c63_enc T width height).vph ∧
    (init_c63_enc T width height).upw % 8 = 0 ∧
    (init_c63_enc T width height).uph % 8 = 0 ∧
    2 * (init_c63_enc T width height).upw = (init_c63_enc T width height).ypw ∧
    2 * (init_c63_enc T width height).uph = (init_c63_enc T width height).yph := by
  have hy := pad_value width 16 hw hw24 (Or.inr rfl)
  have hx := pad_value height 16 hh hh24 (Or.inr rfl)
  have hu := pad_value width 8 hw hw24 (Or.inl rfl)
  have hv := pad_value height 8 hh hh24 (Or.inl rfl)
  have h28 : (2 : Int) * 8 = 16 := by norm_num
  rw [spec_ceil_sixteen, spec_ceil_sixteen]
  simp only [init_c63_enc, set_at, c63_common_zero, UX, UY, VX, VY, YX, YY, mul_one, h28]
  refine ⟨hu, hu, hv, hv, ?_, ?_, ?_, ?_, ?_, ?_, ?_, ?_⟩
  · simp
  · simp
  · simp
  · simp
  · omega
  · omega
  · omega
  · omega

/-- Witness for C5 at a CIF frame, 352 x 288. -/
theorem init_c63_enc_chroma_geometry_witness :
    ((init_c63_enc sample_tables 352 288).upw : Int) = spec_ceil 352 16 * 8 ∧
    ((init_c63_enc sample_tables 352 288).vpw : Int) = spec_ceil 352 16 * 8 ∧
    ((init_c63_enc sample_tables 352 288).uph : Int) = spec_ceil 288 16 * 8 ∧
    ((init_c63_enc sample_tables 352 288).vph : Int) = spec_ceil 288 16 * 8 ∧
    (init_c63_enc sample_tables 352 288).padw U_COMPONENT = (init_c63_enc sample_tables 352 288).upw ∧
    (init_c63_enc sample_tables 352 288).padw V_COMPONENT = (init_c63_enc sample_tables 352 288).vpw ∧
    (init_c63_enc sample_tables 352 288).padh U_COMPONENT = (init_c63_enc sample_tables 352 288).uph ∧
    (init_c63_enc sample_tables 352 288).padh V_COMPONENT = (init_c63_enc sample_tables 352 288).vph ∧
    (init_c63_enc sample_tables 352 288).upw % 8 = 0 ∧
    (init_c63_enc sample_tables 352 288).uph % 8 = 0 ∧
    2 * (init_c63_enc sample_tables 352 288).upw = (init_c63_enc sample_tables 352 288).ypw ∧
    2 * (init_c63_enc sample_tables 352 288).uph = (init_c63_enc sample_tables 352 288).yph :=
  init_c63_enc_chroma_geometry sample_tables 352 288 (by decide) (by decide) (by decide)
    (by decide)

/-- C5 fails as stated: for a height of `2^24 + 1` the conversion to `float`
gives `2^24`, so `uph = vph = 8388608` where `ceil(height/16)*8 = 8388616`. -/
theorem init_c63_enc_chroma_geometry_counterexample :
    (init_c63_enc sample_tables 16 16777217).uph = 8388608 ∧
    (init_c63_enc sample_tables 16 16777217).vph = 8388608 ∧
    spec_ceil 16777217 16 * 8 = 8388616 := by
  refine ⟨by decide, by decide, ?_⟩
  rw [spec_ceil_sixteen]
  decide

/-! ## C7, C8: quantisation tables and initial state -/

/-- C7 (as amended): for the `qp = 25` that `init_c63_enc` sets and every
default table entry `e` (0..255), the value stored in `quanttbl[c][i]` is
`e / (qp/10)` truncated toward zero, `floor(e / 2.5)`, for each of the three
components; it is at most 102, so the 8-bit store never clamps or wraps. -/
theorem init_c63_enc_quanttbl_truncates (T : Tables) (width height : Int) (i : Fin 64) :
    ((init_c63_enc T width height).quanttbl Y_COMPONENT i.val : Int) =
      spec_quant_floor (T.yquanttbl_def i).val (init_c63_enc T width height).qp ∧
    ((init_c63_enc T width height).quanttbl U_COMPONENT i.val : Int) =
      spec_quant_floor (T.uvquanttbl_def i).val (init_c63_enc T width height).qp ∧
    ((init_c63_enc T width height).quanttbl V_COMPONENT i.val : Int) =
      spec_quant_floor (T.uvquanttbl_def i).val (init_c63_enc T width height).qp ∧
    (init_c63_enc T width height).quanttbl Y_COMPONENT i.val ≤ 102 ∧
    (init_c63_enc T width height).quanttbl U_COMPONENT i.val ≤ 102 ∧
    (init_c63_enc T width height).quanttbl V_COMPONENT i.val ≤ 102 := by
  have hy := (T.yquanttbl_def i).isLt
  have hu := (T.uvquanttbl_def i).isLt
  simp only [init_c63_enc, init_quanttbl, c63_common_zero, i.isLt, dite_true, spec_quant_floor_25,
    quant_scale_25, Y_COMPONENT, U_COMPONENT, V_COMPONENT]
  simp only [if_true, if_false, Fin.eta, Nat.one_ne_zero, OfNat.ofNat_ne_zero, OfNat.ofNat_ne_one]
  refine ⟨trivial, trivial, trivial, ?_, ?_, ?_⟩ <;> omega

/-- C7 fails as stated: the default entry 12 (luma index 8 of the sample
tables) is stored as 4, the truncation of 4.8, where rounding to nearest
gives 5. -/
theorem init_c63_enc_quanttbl_counterexample :
    (sample_tables.yquanttbl_def 8).val = 12 ∧
    (init_c63_enc sample_tables 16 16).qp = 25 ∧
    (init_c63_enc sample_tables 16 16).quanttbl Y_COMPONENT 8 = 4 ∧
    spec_quant_round 12 25 = 5 := by
  refine ⟨by decide, by decide, by decide, ?_⟩
  unfold spec_quant_round
  norm_num [round_eq]

/-- C8: for every width and height, the state returned by `init_c63_enc` has
`qp = 25`, `me_search_range = 16`, `keyframe_interval = 100`, `framenum = 0`,
`frames_since_keyframe = 0`, no reference frame and no current frame, and holds
the given width and height unchanged. -/
theorem init_c63_enc_initial_state (T : Tables) (width height : Int) :
    (init_c63_enc T width height).qp = 25 ∧
    (init_c63_enc T width height).me_search_range = 16 ∧
    (init_c63_enc T width height).keyframe_interval = 100 ∧
    (init_c63_enc T width height).framenum = 0 ∧
    (init_c63_enc T width height).frames_since_keyframe = 0 ∧
    (init_c63_enc T width height).refframe = none ∧
    (init_c63_enc T width height).curframe = none ∧
    (init_c63_enc T width height).width = width ∧
    (init_c63_enc T width height).height = height :=
  ⟨rfl, rfl, rfl, rfl, rfl, rfl, rfl, rfl, rfl⟩

/-! ## C1: keyframe cadence -/

/-- The effect of `c63_encode_image` on the counters and on the keyframe flag. -/
theorem c63_encode_image_counters (E : Externals) (cm : c63_common) (image : yuv_t) :
    (c63_encode_image E cm image).framenum = cm.framenum ∧
    (c63_encode_image E cm image).keyframe_interval = cm.keyframe_interval ∧
    (c63_encode_image E cm image).frames_since_keyframe =
      (if cm.framenum = 0 ∨ cm.frames_since_keyframe = cm.keyframe_interval then 0
       else cm.frames_since_keyframe) ∧
    (c63_encode_image E cm image).curframe.map frame.keyframe =
      some (if cm.framenum = 0 ∨ cm.frames_since_keyframe = cm.keyframe_interval then 1
            else 0) := by
  by_cases h : cm.framenum = 0 ∨ cm.frames_since_keyframe = cm.keyframe_interval
  · simp [c63_encode_image, c63_encode_image_traced, h]
  · simp [c63_encode_image, c63_encode_image_traced, h]

/-- The counters of the server after `n` passes of its loop body. -/
theorem server_after_counters (E : Externals) (T : Tables) (width height : Int)
    (images : Nat → yuv_t) (n : Nat) :
    (server_after E T width height images n).framenum = (n : Int) ∧
    (server_after E T width height images n).keyframe_interval = 100 ∧
    (server_after E T width height images n).frames_since_keyframe =
      (if n = 0 then 0 else (((n - 1) % 100 + 1 : Nat) : Int)) := by
  induction n with
  | zero => exact ⟨rfl, rfl, rfl⟩
  | succ k ih =>
    obtain ⟨h1, h2, h3⟩ := ih
    obtain ⟨e1, e2, e3, -⟩ :=
      c63_encode_image_counters E (server_after E T width height images k) (images k)
    simp only [server_after, server_frame, server_increment, e1, e2, e3, h1, h2, h3]
    refine ⟨by push_cast; ring, trivial, ?_⟩
    rcases Nat.eq_zero_or_pos k with hk | hk
    · subst hk
      simp
    · have hk0 : k ≠ 0 := by omega
      have hkz : ¬ ((k : Int) = 0) := by omega
      simp only [hk0, hkz, if_false, Nat.succ_ne_zero, false_or, Nat.add_sub_cancel]
      split_ifs with hc
      · omega
      · omega

/-- C1: starting from the state returned by `init_c63_enc` and iterating the
server loop body (`c63_encode_image`, then `++framenum` and
`++frames_since_keyframe`), frame number `n` is given `keyframe = 1` exactly
when `n` is a multiple of the keyframe interval 100 and `keyframe = 0`
otherwise; so frame 0 and frame 100 are keyframes and frames 1..99 are not. -/
theorem keyframe_cadence (E : Externals) (T : Tables) (width height : Int)
    (images : Nat → yuv_t) (n : Nat) :
    (server_after E T width height images n).keyframe_interval = 100 ∧
    (nth_keyframe E T width height images n = some 1 ↔ n % 100 = 0) ∧
    (nth_keyframe E T width height images n = some 0 ↔ n % 100 ≠ 0) ∧
    nth_keyframe E T width height images 0 = some 1 ∧
    nth_keyframe E T width height images 100 = some 1 ∧
    (∀ k : Fin 99, nth_keyframe E T width height images (k.val + 1) = some 0) := by
  have key : ∀ m : Nat, nth_keyframe E T width height images m =
      some (if m % 100 = 0 then 1 else 0) := by
    intro m
    obtain ⟨h1, h2, h3⟩ := server_after_counters E T width height images m
    obtain ⟨-, -, -, e4⟩ :=
      c63_encode_image_counters E (server_after E T width height images m) (images m)
    unfold nth_keyframe
    rw [e4, h1, h2, h3]
    congr 1
    rcases Nat.eq_zero_or_pos m with hm | hm
    · subst hm
      simp
    · have hm0 : m ≠ 0 := by omega
      have hmz : ¬ ((m : Int) = 0) := by omega
      simp only [hm0, hmz, if_false, false_or]
      split_ifs with ha hb hb
      · rfl
      · omega
      · omega
      · rfl
  refine ⟨(server_after_counters E T width height images n).2.1, ?_, ?_, ?_, ?_, ?_⟩
  · rw [key]
    split_ifs with h <;> simp [h]
  · rw [key]
    split_ifs with h <;> simp [h]
  · rw [key]
    rfl
  · rw [key]
    rfl
  · intro k
    rw [key]
    have hk := k.isLt
    have : (k.val + 1) % 100 ≠ 0 := by omega
    simp [this]

/-! ## The protocol invariant holds in every reachable state -/

/-- The invariant holds when both processes enter their loops. -/
theorem inv_start (T : Tables) (cfg : ClientConfig) : Inv (System.start T cfg) := by
  constructor <;>
    simp [System.start, System.pending, ClientPc.after_raw_write, ClientPc.after_raw_dma,
      ClientPc.after_signal, ServerPc.past, ServerPc.stage, client_cell_ok, handshake_packet]

/-- Every client step preserves the invariant. -/
theorem inv_client_step (cfg : ClientConfig) (s : System) (h : Inv s) :
    Inv (client_step cfg s) := by
  have h0 := h
  obtain ⟨h1, h2, h3, h4, h5, h6, h7, h8, h9, h10, h11, h12, h13, h14, h15, h16, h17, h18⟩ := h
  unfold client_step
  cases hc : s.cpc <;>
    simp only [System.pending, ClientPc.after_raw_write, ClientPc.after_raw_dma,
      ClientPc.after_signal, client_cell_ok, hc] at h1 h2 h3 h10 h11 h12 h13 h14 h15 h16 <;>
    simp only []
  case set_invalid =>
    constructor <;> simp [System.pending, ClientPc.after_raw_write, ClientPc.after_raw_dma,
      ClientPc.after_signal, client_cell_ok, *]
    simp_all
  case read_frame =>
    cases hr : (read_yuv cfg.width cfg.height s.infile s.ccm).1 <;> simp only [] <;>
    constructor <;> simp [System.pending, ClientPc.after_raw_write, ClientPc.after_raw_dma,
      ClientPc.after_signal, client_cell_ok, *] <;> simp_all
  case copy_raw =>
    cases hi : s.image
    · simp [hi] at h16
    · simp only []
      constructor <;> simp [System.pending, ClientPc.after_raw_write, ClientPc.after_raw_dma,
        ClientPc.after_signal, client_cell_ok, *]
      simp_all
  case dma_raw =>
    constructor <;> simp [System.pending, ClientPc.after_raw_write, ClientPc.after_raw_dma,
      ClientPc.after_signal, client_cell_ok, *]
    simp_all
  case signal_done =>
    constructor <;> simp [System.pending, ClientPc.after_raw_write, ClientPc.after_raw_dma,
      ClientPc.after_signal, client_cell_ok, server_cell_busy, *]
    simp_all
  case wait_done =>
    by_cases hd : s.client_cell.cmd = Cmd.CMD_DONE
    · simp only [hd, ne_eq, not_true_eq_false, if_false]
      constructor <;> simp [System.pending, ClientPc.after_raw_write, ClientPc.after_raw_dma,
        ClientPc.after_signal, client_cell_ok, server_cell_busy, *]
      simp_all
    · simp only [hd, ne_eq, not_false_eq_true, if_true]
      exact h0
  case copy_result =>
    cases hf : s.ccm.curframe
    · exact absurd hf h17
    · simp only []
      constructor <;> simp [System.pending, ClientPc.after_raw_write, ClientPc.after_raw_dma,
        ClientPc.after_signal, client_cell_ok, *]
      simp_all
  case write_frame =>
    by_cases hl : cfg.limit_numframes ≠ 0 ∧ s.numframes + 1 ≥ cfg.limit_numframes
    · simp only [hl, and_self, if_true]
      constructor <;> simp [System.pending, ClientPc.after_raw_write, ClientPc.after_raw_dma,
        ClientPc.after_signal, client_cell_ok, *]
      simp_all
    · simp only [hl, if_false]
      constructor <;> simp [System.pending, ClientPc.after_raw_write, ClientPc.after_raw_dma,
        ClientPc.after_signal, client_cell_ok, *]
      simp_all
  case send_quit =>
    constructor <;> simp [System.pending, ClientPc.after_raw_write, ClientPc.after_raw_dma,
      ClientPc.after_signal, client_cell_ok, *]
    simp_all
  case finished =>
    exact h0

/-- The two values of `pending`, with what each says about the client. -/
theorem pending_cases (s : System) :
    (s.pending = 0 ∧ ¬ (s.cpc = ClientPc.wait_done ∧ s.client_cell.cmd ≠ Cmd.CMD_DONE)) ∨
    (s.pending = 1 ∧ s.cpc = ClientPc.wait_done ∧ s.client_cell.cmd ≠ Cmd.CMD_DONE) := by
  unfold System.pending
  split_ifs with h
  · exact Or.inr ⟨rfl, h⟩
  · exact Or.inl ⟨rfl, h⟩

/-- After `c63_encode_image` there is a current frame. -/
theorem c63_encode_image_curframe (E : Externals) (cm : c63_common) (image : yuv_t) :
    (c63_encode_image E cm image).curframe ≠ none := by
  simp [c63_encode_image, c63_encode_image_traced]

/-- Every server step preserves the invariant. -/
theorem inv_server_step (E : Externals) (s : System) (h : Inv s) :
    Inv (server_step E s) := by
  have h0 := h
  obtain ⟨h1, h2, h3, h4, h5, h6, h7, h8, h9, h10, h11, h12, h13, h14, h15, h16, h17, h18⟩ := h
  unfold server_step
  cases hc : s.spc <;>
    simp only [ServerPc.past, ServerPc.stage, server_cell_busy, hc] at h4 h5 h6 h7 h8 h9 h11 h12 h15 h18 <;>
    simp only []
  case wait_cmd =>
    by_cases hd : s.server_cell.cmd = Cmd.CMD_INVALID
    · simp only [hd, if_true]
      exact h0
    · simp only [hd, if_false]
      rcases pending_cases s with ⟨hp, hq⟩ | ⟨hp, hq1, hq2⟩ <;>
        simp only [hp] at h10 h11 h12 <;>
        constructor <;>
        simp [ServerPc.past, ServerPc.stage, server_cell_busy, System.pending,
          c63_encode_image_curframe, *] <;>
        simp_all
  case test_quit =>
    by_cases hd : s.server_cell.cmd = Cmd.CMD_QUIT
    · simp only [hd, if_true]
      rcases pending_cases s with ⟨hp, hq⟩ | ⟨hp, hq1, hq2⟩ <;>
        simp only [hp] at h10 h11 h12 <;>
        constructor <;>
        simp [ServerPc.past, ServerPc.stage, server_cell_busy, System.pending,
          c63_encode_image_curframe, *] <;>
        simp_all
    · simp only [hd, if_false]
      rcases pending_cases s with ⟨hp, hq⟩ | ⟨hp, hq1, hq2⟩ <;>
        simp only [hp] at h10 h11 h12 <;>
        constructor <;>
        simp [ServerPc.past, ServerPc.stage, server_cell_busy, System.pending,
          c63_encode_image_curframe, *] <;>
        simp_all
  case ack =>
    rcases pending_cases s with ⟨hp, hq⟩ | ⟨hp, hq1, hq2⟩ <;>
      simp only [hp] at h10 h11 h12 <;>
      constructor <;>
      simp [ServerPc.past, ServerPc.stage, server_cell_busy, System.pending,
          c63_encode_image_curframe, *] <;>
      simp_all
  case copy_raw =>
    rcases pending_cases s with ⟨hp, hq⟩ | ⟨hp, hq1, hq2⟩ <;>
      simp only [hp] at h10 h11 h12 <;>
      constructor <;>
      simp [ServerPc.past, ServerPc.stage, server_cell_busy, System.pending,
          c63_encode_image_curframe, *] <;>
      simp_all
  case encode =>
    rcases pending_cases s with ⟨hp, hq⟩ | ⟨hp, hq1, hq2⟩ <;>
      simp only [hp] at h10 h11 h12 <;>
      constructor <;>
      simp [ServerPc.past, ServerPc.stage, server_cell_busy, System.pending,
          c63_encode_image_curframe, *] <;>
      simp_all
  case dma_result =>
    rcases pending_cases s with ⟨hp, hq⟩ | ⟨hp, hq1, hq2⟩ <;>
      simp only [hp] at h10 h11 h12 <;>
      constructor <;>
      simp [ServerPc.past, ServerPc.stage, server_cell_busy, System.pending,
          c63_encode_image_curframe, *] <;>
      simp_all
  case increment =>
    rcases pending_cases s with ⟨hp, hq⟩ | ⟨hp, hq1, hq2⟩ <;>
      simp only [hp] at h10 h11 h12 <;>
      constructor <;>
      simp [ServerPc.past, ServerPc.stage, server_cell_busy, System.pending,
          c63_encode_image_curframe, *] <;>
      simp_all
  case signal_done =>
    rcases pending_cases s with ⟨hp, hq⟩ | ⟨hp, hq1, hq2⟩ <;>
      simp only [hp] at h10 h11 h12 <;>
      constructor <;>
      simp [ServerPc.past, ServerPc.stage, server_cell_busy, System.pending,
          c63_encode_image_curframe, *] <;>
      first | (simp_all; done) | simp [client_cell_ok]
  case copy_result =>
    cases hf : s.scm.curframe
    · simp only []
      exact h0
    · simp only []
      rcases pending_cases s with ⟨hp, hq⟩ | ⟨hp, hq1, hq2⟩ <;>
        simp only [hp] at h10 h11 h12 <;>
        constructor <;>
        simp [ServerPc.past, ServerPc.stage, server_cell_busy, System.pending,
          c63_encode_image_curframe, *] <;>
        simp_all
  case finished =>
    exact h0

/-- The invariant holds in every reachable state. -/
theorem inv_reachable (E : Externals) (T : Tables) (cfg : ClientConfig) (s : System)
    (h : Reachable E T cfg s) : Inv s := by
  induction h with
  | start => exact inv_start T cfg
  | client s _ ih => exact inv_client_step cfg s ih
  | server s _ ih => exact inv_server_step E s ih

/-- Running a schedule from a reachable state gives a reachable state. -/
theorem reachable_exec (E : Externals) (T : Tables) (cfg : ClientConfig) (l : List Actor)
    (s : System) (h : Reachable E T cfg s) : Reachable E T cfg (exec E cfg s l) := by
  induction l generalizing s with
  | nil => exact h
  | cons a l ih =>
    cases a
    · exact ih _ (Reachable.client s h)
    · exact ih _ (Reachable.server s h)

/-- Running two schedules one after the other. -/
theorem exec_append (E : Externals) (cfg : ClientConfig) (l1 l2 : List Actor) (s : System) :
    exec E cfg s (l1 ++ l2) = exec E cfg (exec E cfg s l1) l2 := by
  induction l1 generalizing s with
  | nil => rfl
  | cons a l ih => exact ih _

/-! ## Counters along an execution -/

/-- No client step decreases a history counter. -/
theorem client_step_hist_le (cfg : ClientConfig) (s : System) :
    s.hist.le (client_step cfg s).hist := by
  unfold client_step
  cases hc : s.cpc <;> simp only []
  case read_frame =>
    cases hr : (read_yuv cfg.width cfg.height s.infile s.ccm).1 <;> simp [History.le]
  case copy_raw =>
    cases hi : s.image <;> simp [History.le]
  case copy_result =>
    cases hf : s.ccm.curframe <;> simp [History.le]
  case wait_done =>
    split_ifs <;> simp [History.le]
  case write_frame =>
    split_ifs <;> simp [History.le]
  all_goals simp [History.le]

/-- No server step decreases a history counter. -/
theorem server_step_hist_le (E : Externals) (s : System) :
    s.hist.le (server_step E s).hist := by
  unfold server_step
  cases hc : s.spc <;> simp only []
  case wait_cmd =>
    split_ifs <;> simp [History.le]
  case test_quit =>
    split_ifs <;> simp [History.le]
  case copy_result =>
    cases hf : s.scm.curframe <;> simp [History.le]
  all_goals simp [History.le]

/-- No schedule decreases a history counter. -/
theorem exec_hist_le (E : Externals) (cfg : ClientConfig) (l : List Actor) (s : System) :
    s.hist.le (exec E cfg s l).hist := by
  induction l generalizing s with
  | nil => simp [exec, History.le]
  | cons a l ih =>
    have h1 : s.hist.le (step E cfg a s).hist := by
      cases a
      · exact client_step_hist_le cfg s
      · exact server_step_hist_le E s
    have h2 := ih (step E cfg a s)
    simp only [exec]
    unfold History.le at *
    omega

/-- If a quantity differs before and after a schedule, some step of the schedule changes it. -/
theorem exec_counter_increase (E : Externals) (cfg : ClientConfig) (f : System → Nat)
    (l : List Actor) (s : System) (h : f (exec E cfg s l) ≠ f s) :
    ∃ l1 a l2, l = l1 ++ a :: l2 ∧
      f (step E cfg a (exec E cfg s l1)) ≠ f (exec E cfg s l1) := by
  induction l generalizing s with
  | nil => exact absurd rfl h
  | cons a l ih =>
    by_cases h0 : f (step E cfg a s) = f s
    · have h1 : f (exec E cfg (step E cfg a s) l) ≠ f (step E cfg a s) := by
        rw [h0]
        exact h
      obtain ⟨l1, b, l2, e, hb⟩ := ih _ h1
      exact ⟨a :: l1, b, l2, by rw [e]; rfl, hb⟩
    · exact ⟨[], a, l, rfl, h0⟩

/-- Only the acknowledging store of the server changes the ack count. -/
theorem acks_step (E : Externals) (cfg : ClientConfig) (a : Actor) (s : System)
    (h : (step E cfg a s).hist.acks ≠ s.hist.acks) :
    a = Actor.server ∧ s.spc = ServerPc.ack := by
  cases a
  · exfalso
    apply h
    simp only [step]
    unfold client_step
    cases hc : s.cpc <;> simp only []
    case read_frame =>
      cases hr : (read_yuv cfg.width cfg.height s.infile s.ccm).1 <;> rfl
    case copy_raw =>
      cases hi : s.image <;> rfl
    case copy_result =>
      cases hf : s.ccm.curframe <;> rfl
    case wait_done =>
      split_ifs <;> rfl
    case write_frame =>
      split_ifs <;> rfl
  · refine ⟨rfl, ?_⟩
    by_contra hne
    apply h
    simp only [step]
    unfold server_step
    cases hc : s.spc <;> simp only []
    case ack => exact absurd hc hne
    case wait_cmd =>
      split_ifs <;> rfl
    case test_quit =>
      split_ifs <;> rfl
    case copy_result =>
      cases hf : s.scm.curframe <;> rfl

/-- Only the quit test of the server, on a value other than `CMD_QUIT`, changes the count of observed `CMD_DONE`. -/
theorem done_seen_step (E : Externals) (cfg : ClientConfig) (a : Actor) (s : System)
    (h : (step E cfg a s).hist.done_seen ≠ s.hist.done_seen) :
    a = Actor.server ∧ s.spc = ServerPc.test_quit ∧ s.server_cell.cmd ≠ Cmd.CMD_QUIT := by
  cases a
  · exfalso
    apply h
    simp only [step]
    unfold client_step
    cases hc : s.cpc <;> simp only []
    case read_frame =>
      cases hr : (read_yuv cfg.width cfg.height s.infile s.ccm).1 <;> rfl
    case copy_raw =>
      cases hi : s.image <;> rfl
    case copy_result =>
      cases hf : s.ccm.curframe <;> rfl
    case wait_done =>
      split_ifs <;> rfl
    case write_frame =>
      split_ifs <;> rfl
  · refine ⟨rfl, ?_⟩
    by_contra hne
    apply h
    simp only [step]
    unfold server_step
    cases hc : s.spc <;> simp only []
    case test_quit =>
      by_cases hq : s.server_cell.cmd = Cmd.CMD_QUIT
      · simp [hq]
      · exact absurd ⟨hc, hq⟩ hne
    case wait_cmd =>
      split_ifs <;> rfl
    case copy_result =>
      cases hf : s.scm.curframe <;> rfl

/-! ## C2: the raw segment is handed over one frame at a time -/

/-- C2: take any interleaving of the client and server loops from the start
state and any two raw-segment writes of the client in it (the client step at
`copy_raw` after the schedule `l1`, and the next step at `copy_raw` after the
further schedule `l2`). Then in between, inside `l2`, the server first reads
`CMD_DONE` from its local command cell at its quit test and later executes the
acknowledging store, which leaves that cell at `CMD_INVALID`. Moreover, in
every reachable state the client has written at most one frame more into the
raw segment than it has read results for: at most one frame is in flight. -/
theorem raw_writes_separated (E : Externals) (T : Tables) (cfg : ClientConfig)
    (l1 l2 : List Actor)
    (h1 : (exec E cfg (System.start T cfg) l1).cpc = ClientPc.copy_raw)
    (h2 : (exec E cfg (System.start T cfg) (l1 ++ Actor.client :: l2)).cpc = ClientPc.copy_raw) :
    (∃ la lb lc, l2 = la ++ Actor.server :: (lb ++ Actor.server :: lc) ∧
      (exec E cfg (System.start T cfg) (l1 ++ Actor.client :: la)).spc = ServerPc.test_quit ∧
      (exec E cfg (System.start T cfg) (l1 ++ Actor.client :: la)).server_cell.cmd
        = Cmd.CMD_DONE ∧
      (exec E cfg (System.start T cfg)
        (l1 ++ Actor.client :: (la ++ Actor.server :: lb))).spc = ServerPc.ack ∧
      (server_step E (exec E cfg (System.start T cfg)
        (l1 ++ Actor.client :: (la ++ Actor.server :: lb)))).server_cell.cmd
        = Cmd.CMD_INVALID) ∧
    (∀ l : List Actor,
      (exec E cfg (System.start T cfg) l).hist.raw_writes
        ≤ (exec E cfg (System.start T cfg) l).hist.results_read + 1) := by
  constructor
  swap
  · intro l
    have hI := inv_reachable E T cfg _ (reachable_exec E T cfg l _ Reachable.start)
    have := hI.raw_writes
    have hb : (exec E cfg (System.start T cfg) l).cpc.after_raw_write ≤ 1 := by
      cases (exec E cfg (System.start T cfg) l).cpc <;> simp [ClientPc.after_raw_write]
    omega
  -- the state at the first write, the state after it, the state at the second write
  set A := exec E cfg (System.start T cfg) l1 with hA
  have hAr : Reachable E T cfg A := reachable_exec E T cfg l1 _ Reachable.start
  have hAI := inv_reachable E T cfg A hAr
  have eB : ∀ l, exec E cfg (System.start T cfg) (l1 ++ Actor.client :: l)
      = exec E cfg (client_step cfg A) l := by
    intro l
    rw [exec_append]
    rfl
  rw [eB] at h2
  simp only [eB]
  set A1 := client_step cfg A with hA1
  have hA1r : Reachable E T cfg A1 := Reachable.client A hAr
  have hA1I := inv_reachable E T cfg A1 hA1r
  have hBI := inv_reachable E T cfg _ (reachable_exec E T cfg l2 _ hA1r)
  -- counters at the first write
  have hi := hAI.img h1
  have hA1cpc : A1.cpc = ClientPc.dma_raw ∧ A1.hist.raw_writes = A.hist.raw_writes + 1 ∧
      A1.spc = A.spc ∧ A1.hist.acks = A.hist.acks ∧ A1.hist.done_seen = A.hist.done_seen ∧
      A1.hist.done_replied = A.hist.done_replied := by
    rw [hA1]
    unfold client_step
    simp only [h1]
    cases hi' : A.image
    · exact absurd hi' hi
    · exact ⟨rfl, rfl, rfl, rfl, rfl, rfl⟩
  obtain ⟨c1, c2, c3, c4, c5, c6⟩ := hA1cpc
  have pA : A.pending = 0 := by simp [System.pending, h1]
  have idleA := hAI.idle pA (by simp [h1])
  have pB : (exec E cfg A1 l2).pending = 0 := by simp [System.pending, h2]
  have idleB := hBI.idle pB (by simp [h2])
  have mono := exec_hist_le E cfg l2 A1
  have hacks : (exec E cfg A1 l2).hist.acks ≠ A1.hist.acks := by
    have a1 := hAI.raw_writes
    have a2 := hAI.done_sent
    have a3 := hAI.cross
    have a4 := hAI.acks
    have b1 := hBI.raw_writes
    have b2 := hBI.done_sent
    have b3 := hBI.cross
    have b4 := hBI.acks
    simp only [h1, h2, pA, pB, idleA.1, idleB.1, ClientPc.after_raw_write, ClientPc.after_signal,
      ServerPc.past, ServerPc.stage] at a1 a2 a3 a4 b1 b2 b3 b4
    have := mono.1
    simp at a4 b4
    omega
  obtain ⟨x, a, lc, e2, hstep⟩ :=
    exec_counter_increase E cfg (fun s => s.hist.acks) l2 A1 hacks
  obtain ⟨ha, hspc⟩ := acks_step E cfg a _ hstep
  subst ha
  have hSr : Reachable E T cfg (exec E cfg A1 x) := reachable_exec E T cfg x _ hA1r
  have hSI := inv_reachable E T cfg _ hSr
  have monoS := exec_hist_le E cfg x A1
  have hseen : (exec E cfg A1 x).hist.done_seen ≠ A1.hist.done_seen := by
    have a4 := hAI.done_seen
    have s4 := hSI.done_seen
    simp only [hspc, idleA.1, ServerPc.past, ServerPc.stage] at a4 s4
    have := monoS.2.2.2.2.2.2.2.2.2.2.2
    simp at a4 s4
    omega
  obtain ⟨la, b, lb, e3, hstep2⟩ :=
    exec_counter_increase E cfg (fun s => s.hist.done_seen) x A1 hseen
  obtain ⟨hb, hspc2, hnq⟩ := done_seen_step E cfg b _ hstep2
  subst hb
  have hTI := inv_reachable E T cfg _ (reachable_exec E T cfg la _ hA1r)
  refine ⟨la, lb, lc, by rw [e2, e3]; simp, hspc2, ?_, by rw [← e3]; exact hspc, ?_⟩
  · rcases pending_cases (exec E cfg A1 la) with ⟨hp, -⟩ | ⟨hp, -, -⟩
    · have hfin : (exec E cfg A1 la).cpc = ClientPc.finished := by
        by_contra hne
        have := (hTI.idle hp hne).1
        rw [hspc2] at this
        exact absurd this (by decide)
      exact absurd (hTI.fin hfin).1 hnq
    · have := hTI.busy hp
      rw [hspc2] at this
      exact this
  · rw [← e3]
    unfold server_step
    simp only [hspc]

/-- Witness for C2: the two-frame sample run, from the write of frame 0 to the
write of frame 1. -/
theorem raw_writes_separated_witness :
    (exec sample_externals sample_config (System.start sample_tables sample_config)
      sample_to_copy).cpc = ClientPc.copy_raw ∧
    (exec sample_externals sample_config (System.start sample_tables sample_config)
      (sample_to_copy ++ Actor.client :: sample_one_frame)).cpc = ClientPc.copy_raw ∧
    (∃ la lb lc, sample_one_frame = la ++ Actor.server :: (lb ++ Actor.server :: lc) ∧
      (exec sample_externals sample_config (System.start sample_tables sample_config)
        (sample_to_copy ++ Actor.client :: la)).spc = ServerPc.test_quit ∧
      (exec sample_externals sample_config (System.start sample_tables sample_config)
        (sample_to_copy ++ Actor.client :: la)).server_cell.cmd = Cmd.CMD_DONE ∧
      (exec sample_externals sample_config (System.start sample_tables sample_config)
        (sample_to_copy ++ Actor.client :: (la ++ Actor.server :: lb))).spc = ServerPc.ack ∧
      (server_step sample_externals (exec sample_externals sample_config
        (System.start sample_tables sample_config)
        (sample_to_copy ++ Actor.client :: (la ++ Actor.server :: lb)))).server_cell.cmd
        = Cmd.CMD_INVALID) ∧
    (∀ l : List Actor,
      (exec sample_externals sample_config (System.start sample_tables sample_config)
        l).hist.raw_writes
        ≤ (exec sample_externals sample_config (System.start sample_tables sample_config)
        l).hist.results_read + 1) :=
  ⟨by decide, by decide,
    raw_writes_separated sample_externals sample_tables sample_config sample_to_copy
      sample_one_frame (by decide) (by decide)⟩

/-! ## The geometry along an execution -/

/-- The encoder step leaves the geometry alone. -/
theorem c63_encode_image_geometry (E : Externals) (cm : c63_common) (image : yuv_t) :
    SameGeometry (c63_encode_image E cm image) cm := by
  unfold c63_encode_image c63_encode_image_traced
  constructor <;> (simp only []; split_ifs <;> rfl)

/-- Having the same geometry is transitive. -/
theorem SameGeometry.trans {a b c : c63_common} (h1 : SameGeometry a b)
    (h2 : SameGeometry b c) : SameGeometry a c :=
  ⟨h1.padw.trans h2.padw, h1.padh.trans h2.padh, h1.ypw.trans h2.ypw, h1.yph.trans h2.yph,
    h1.upw.trans h2.upw, h1.uph.trans h2.uph, h1.vpw.trans h2.vpw, h1.vph.trans h2.vph,
    h1.mb_cols.trans h2.mb_cols, h1.mb_rows.trans h2.mb_rows⟩

/-- Having the same geometry is reflexive. -/
theorem SameGeometry.refl (a : c63_common) : SameGeometry a a :=
  ⟨rfl, rfl, rfl, rfl, rfl, rfl, rfl, rfl, rfl, rfl⟩

/-- Having the same geometry is symmetric. -/
theorem SameGeometry.symm {a b : c63_common} (h : SameGeometry a b) : SameGeometry b a :=
  ⟨h.padw.symm, h.padh.symm, h.ypw.symm, h.yph.symm, h.upw.symm, h.uph.symm, h.vpw.symm,
    h.vph.symm, h.mb_cols.symm, h.mb_rows.symm⟩

/-- A client step leaves the geometry of both codec states alone. -/
theorem client_step_geometry (cfg : ClientConfig) (s : System) :
    SameGeometry (client_step cfg s).ccm s.ccm ∧ SameGeometry (client_step cfg s).scm s.scm := by
  unfold client_step
  cases hc : s.cpc <;> simp only []
  case read_frame =>
    cases hr : (read_yuv cfg.width cfg.height s.infile s.ccm).1 <;>
      exact ⟨SameGeometry.refl _, SameGeometry.refl _⟩
  case copy_raw =>
    cases hi : s.image <;> exact ⟨SameGeometry.refl _, SameGeometry.refl _⟩
  case copy_result =>
    cases hf : s.ccm.curframe
    · exact ⟨SameGeometry.refl _, SameGeometry.refl _⟩
    · exact ⟨⟨rfl, rfl, rfl, rfl, rfl, rfl, rfl, rfl, rfl, rfl⟩, SameGeometry.refl _⟩
  case wait_done =>
    split_ifs <;> exact ⟨SameGeometry.refl _, SameGeometry.refl _⟩
  case write_frame =>
    split_ifs <;> exact ⟨SameGeometry.refl _, SameGeometry.refl _⟩
  all_goals exact ⟨SameGeometry.refl _, SameGeometry.refl _⟩

/-- A server step leaves the geometry of both codec states alone. -/
theorem server_step_geometry (E : Externals) (s : System) :
    SameGeometry (server_step E s).ccm s.ccm ∧ SameGeometry (server_step E s).scm s.scm := by
  unfold server_step
  cases hc : s.spc <;> simp only []
  case wait_cmd =>
    split_ifs <;> exact ⟨SameGeometry.refl _, SameGeometry.refl _⟩
  case test_quit =>
    split_ifs <;> exact ⟨SameGeometry.refl _, SameGeometry.refl _⟩
  case encode =>
    exact ⟨SameGeometry.refl _, c63_encode_image_geometry E s.scm s.simage⟩
  case copy_result =>
    cases hf : s.scm.curframe <;> exact ⟨SameGeometry.refl _, SameGeometry.refl _⟩
  case increment =>
    exact ⟨SameGeometry.refl _, ⟨rfl, rfl, rfl, rfl, rfl, rfl, rfl, rfl, rfl, rfl⟩⟩
  all_goals exact ⟨SameGeometry.refl _, SameGeometry.refl _⟩

/-- No schedule changes the geometry of either codec state. -/
theorem exec_geometry (E : Externals) (cfg : ClientConfig) (l : List Actor) :
    ∀ s : System, SameGeometry (exec E cfg s l).ccm s.ccm ∧
      SameGeometry (exec E cfg s l).scm s.scm := by
  induction l with
  | nil =>
    intro s
    exact ⟨SameGeometry.refl _, SameGeometry.refl _⟩
  | cons a l ih =>
    intro s
    have h1 := ih (step E cfg a s)
    have h2 : SameGeometry (step E cfg a s).ccm s.ccm ∧
        SameGeometry (step E cfg a s).scm s.scm := by
      cases a
      · exact client_step_geometry cfg s
      · exact server_step_geometry E s
    exact ⟨h1.1.trans h2.1, h1.2.trans h2.2⟩

/-- In every state that the two programs reach, the server's codec state has
the geometry of the client's. -/
theorem reach_geometry (E : Externals) (T : Tables) (cfg : ClientConfig) (l : List Actor) :
    SameGeometry (reach E T cfg l).scm (reach E T cfg l).ccm := by
  have h := exec_geometry E cfg l (System.start T cfg)
  have h0 : SameGeometry (System.start T cfg).scm (System.start T cfg).ccm :=
    ⟨rfl, rfl, rfl, rfl, rfl, rfl, rfl, rfl, rfl, rfl⟩
  exact (h.2.trans h0).trans h.1.symm


/-- The counts of the copies depend on the geometry only. -/
theorem SameGeometry.counts {a b : c63_common} (h : SameGeometry a b) :
    luma_mb_count a = luma_mb_count b ∧ chroma_mb_count a = chroma_mb_count b ∧
    count32 a.ypw a.yph = count32 b.ypw b.yph ∧ count32 a.upw a.uph = count32 b.upw b.uph ∧
    count32 a.vpw a.vph = count32 b.vpw b.vph ∧ ∀ c, plane_size a c = plane_size b c := by
  unfold luma_mb_count chroma_mb_count chroma_mb_expr plane_size
  rw [h.mb_rows, h.mb_cols, h.ypw, h.yph, h.upw, h.uph, h.vpw, h.vph, h.padw, h.padh]
  exact ⟨rfl, rfl, rfl, rfl, rfl, fun _ => rfl⟩

/-! ## C3: the result segment is valid when the client's spin ends -/

/-- What `memcpy(dst, src, n)` leaves at the start of `dst`: the first `n`
entries of `src`. -/
theorem memcpy_prefix {α : Type} (dst src : List α) (n : Nat) :
    src.take n <+: memcpy dst src n :=
  List.prefix_append _ _

/-- A list of at most `n` entries at the start of `src` is at the start of
the target of `memcpy(dst, src, n)`. -/
theorem prefix_memcpy {α : Type} (a dst src : List α) (n : Nat) (h : a <+: src)
    (hl : a.length ≤ n) : a <+: memcpy dst src n :=
  (List.prefix_take_iff.mpr ⟨h, hl⟩).trans (List.prefix_append _ _)

/-- A copy for a codec state is a copy for every codec state of the same
geometry. -/
theorem Copied.geometry {a b : c63_common} {f : frame} {r : result_img_segment}
    (h : Copied a f r) (hg : SameGeometry a b) : Copied b f r := by
  obtain ⟨c1, c2, c3, c4, c5, -⟩ := hg.counts
  obtain ⟨h1, h2, h3, h4, h5, h6, h7⟩ := h
  rw [c1] at h2
  rw [c2] at h3 h4
  rw [c3] at h5
  rw [c4] at h6
  rw [c5] at h7
  exact ⟨h1, h2, h3, h4, h5, h6, h7⟩

/-- The data invariant holds at the start. -/
theorem data_start (T : Tables) (cfg : ClientConfig) : DataInv (System.start T cfg) := by
  constructor <;> simp [System.start, init_c63_enc, c63_common_zero, ServerPc.past,
    ServerPc.stage]

/-- Every client step preserves the data invariant. -/
theorem data_client_step (cfg : ClientConfig) (s : System) (h : DataInv s) :
    DataInv (client_step cfg s) := by
  obtain ⟨d1, d2, d3, d4⟩ := h
  unfold client_step
  cases hc : s.cpc <;> simp only []
  case read_frame =>
    cases hr : (read_yuv cfg.width cfg.height s.infile s.ccm).1 <;> exact ⟨d1, d2, d3, d4⟩
  case copy_raw =>
    cases hi : s.image <;> exact ⟨d1, d2, d3, d4⟩
  case copy_result =>
    cases hf : s.ccm.curframe <;> exact ⟨d1, d2, d3, d4⟩
  case wait_done =>
    split_ifs <;> exact ⟨d1, d2, d3, d4⟩
  case write_frame =>
    split_ifs <;> exact ⟨d1, d2, d3, d4⟩
  all_goals exact ⟨d1, d2, d3, d4⟩

/-- Every server step preserves the data invariant. -/
theorem data_server_step (E : Externals) (s : System) (hI : Inv s) (h : DataInv s) :
    DataInv (server_step E s) := by
  obtain ⟨d1, d2, d3, d4⟩ := h
  have i7 := hI.encodes
  have i8 := hI.results_copied
  have i9 := hI.result_dmas
  unfold server_step
  cases hc : s.spc <;>
    simp only [hc, ServerPc.past, ServerPc.stage] at i7 i8 i9 d4 <;> simp only []
  case wait_cmd =>
    split_ifs
    · exact ⟨d1, d2, d3, by simpa [hc, ServerPc.past, ServerPc.stage] using d4⟩
    · exact ⟨d1, d2, d3, by simpa [hc, ServerPc.past, ServerPc.stage] using d4⟩
  case test_quit =>
    split_ifs
    · exact ⟨d1, d2, d3, by simpa [hc, ServerPc.past, ServerPc.stage] using d4⟩
    · exact ⟨d1, d2, d3, by simpa [hc, ServerPc.past, ServerPc.stage] using d4⟩
  case ack =>
    exact ⟨d1, d2, d3, by simpa [hc, ServerPc.past, ServerPc.stage] using d4⟩
  case copy_raw =>
    exact ⟨d1, d2, d3, by simpa [hc, ServerPc.past, ServerPc.stage] using d4⟩
  case copy_result =>
    cases hf : s.scm.curframe
    · exact ⟨d1, d2, d3, by simpa [hc, ServerPc.past, ServerPc.stage] using d4⟩
    · rename_i f
      refine ⟨?_, ?_, ?_, by simpa [hc, ServerPc.past, ServerPc.stage] using d4⟩
      · intro h1 h2
        simp at h1 i8 i9
        omega
      · intro _ _
        simp [hf]
      · intro _ _
        refine ⟨f, hf, rfl, ?_, ?_, ?_, ?_, ?_, ?_⟩
        · simp only [Y_COMPONENT, if_true]
          exact memcpy_prefix _ _ _
        · simp only [U_COMPONENT, Y_COMPONENT, one_ne_zero, if_false, if_true]
          exact memcpy_prefix _ _ _
        · simp only [V_COMPONENT, U_COMPONENT, Y_COMPONENT, OfNat.ofNat_ne_zero,
            OfNat.ofNat_ne_one, if_false, if_true]
          exact memcpy_prefix _ _ _
        · exact memcpy_prefix _ _ _
        · exact memcpy_prefix _ _ _
        · exact memcpy_prefix _ _ _
  case encode =>
    refine ⟨d1, ?_, ?_, ?_⟩
    · intro h1 h2
      simp at h1 i7 i8
      omega
    · intro h1 h2
      simp at h1 i7 i8
      omega
    · rw [(c63_encode_image_counters E s.scm s.simage).1]
      simpa [ServerPc.past, ServerPc.stage] using d4
  case dma_result =>
    refine ⟨?_, d2, d3, by simpa [hc, ServerPc.past, ServerPc.stage] using d4⟩
    intro _ _
    rfl
  case increment =>
    refine ⟨d1, ?_, ?_, ?_⟩
    · simpa [server_increment] using d2
    · intro h1 h2
      obtain ⟨f, hf, hcp⟩ := d3 h1 h2
      exact ⟨f, hf, hcp.geometry ⟨rfl, rfl, rfl, rfl, rfl, rfl, rfl, rfl, rfl, rfl⟩⟩
    · simp only [server_increment, ServerPc.past, ServerPc.stage]
      rw [d4]
      norm_num
  case signal_done =>
    refine ⟨d1, d2, d3, ?_⟩
    simp only [ServerPc.past, ServerPc.stage]
    rw [d4]
    norm_num
  case finished =>
    exact ⟨d1, d2, d3, by simpa [hc, ServerPc.past, ServerPc.stage] using d4⟩

/-- The data invariant holds in every reachable state. -/
theorem data_reachable (E : Externals) (T : Tables) (cfg : ClientConfig) (s : System)
    (h : Reachable E T cfg s) : DataInv s := by
  induction h with
  | start => exact data_start T cfg
  | client s _ ih => exact data_client_step cfg s ih
  | server s hs ih => exact data_server_step E s (inv_reachable E T cfg s hs) ih

/-- C3: in every interleaving of the two loops from the start state, when the
client has left its spin for frame `n` (it has read `n` results so far and is
about to read the result segment), the server has copied `n + 1` results into
its result segment, `n + 1` result DMA waits have returned, the server has
replied `n + 1` times and is back at its own spin; the client's result segment
equals the server's, which carries the keyframe flag of the server's current
frame. That current frame `f` is frame `n` (the server's `framenum`, raised
after each frame, is `n + 1`), and the client's result segment holds its copy:
the keyframe flag of `f` and, at the start of each array, the macroblocks of
`mbs[Y]`, `mbs[U]`, `mbs[V]` and the coefficients of `Ydct`, `Udct`, `Vdct` of
`f`, as many as the server's `memcpy` calls move. The client's read, its next
step, puts the same flag, macroblocks and coefficients into its own current
frame `g`. A stale `CMD_DONE` cannot end the spin: whenever the client is about
to signal the server its own cell holds `CMD_INVALID`, and whenever it is at
the spin and its cell holds `CMD_DONE`, the server has replied as often as the
client has submitted. -/
theorem result_valid_when_spin_ends (E : Externals) (T : Tables) (cfg : ClientConfig)
    (l : List Actor)
    (h : (exec E cfg (System.start T cfg) l).cpc = ClientPc.copy_result) :
    ((exec E cfg (System.start T cfg) l).hist.encodes
        = (exec E cfg (System.start T cfg) l).hist.results_read + 1 ∧
      (exec E cfg (System.start T cfg) l).hist.results_copied
        = (exec E cfg (System.start T cfg) l).hist.results_read + 1 ∧
      (exec E cfg (System.start T cfg) l).hist.result_dmas
        = (exec E cfg (System.start T cfg) l).hist.results_read + 1 ∧
      (exec E cfg (System.start T cfg) l).hist.done_replied
        = (exec E cfg (System.start T cfg) l).hist.results_read + 1 ∧
      (exec E cfg (System.start T cfg) l).hist.done_sent
        = (exec E cfg (System.start T cfg) l).hist.results_read + 1 ∧
      (exec E cfg (System.start T cfg) l).spc = ServerPc.wait_cmd ∧
      (exec E cfg (System.start T cfg) l).client_result
        = (exec E cfg (System.start T cfg) l).server_result ∧
      (exec E cfg (System.start T cfg) l).scm.curframe.map frame.keyframe
        = some (exec E cfg (System.start T cfg) l).client_result.keyframe) ∧
    (∃ f g, (exec E cfg (System.start T cfg) l).scm.curframe = some f ∧
      (exec E cfg (System.start T cfg) l).scm.framenum
        = (((exec E cfg (System.start T cfg) l).hist.results_read + 1 : Nat) : Int) ∧
      Copied (exec E cfg (System.start T cfg) l).scm f
        (exec E cfg (System.start T cfg) l).client_result ∧
      (client_step cfg (exec E cfg (System.start T cfg) l)).ccm.curframe = some g ∧
      (client_step cfg (exec E cfg (System.start T cfg) l)).cpc = ClientPc.write_frame ∧
      Copied (exec E cfg (System.start T cfg) l).scm f g.as_result) ∧
    (∀ k : List Actor,
      ((exec E cfg (System.start T cfg) k).cpc = ClientPc.signal_done →
        (exec E cfg (System.start T cfg) k).client_cell.cmd = Cmd.CMD_INVALID) ∧
      ((exec E cfg (System.start T cfg) k).cpc = ClientPc.wait_done →
        (exec E cfg (System.start T cfg) k).client_cell.cmd = Cmd.CMD_DONE →
        (exec E cfg (System.start T cfg) k).hist.done_replied
          = (exec E cfg (System.start T cfg) k).hist.done_sent)) := by
  have hr := reachable_exec E T cfg l _ Reachable.start
  have hI := inv_reachable E T cfg _ hr
  have hD := data_reachable E T cfg _ hr
  have hG : SameGeometry (exec E cfg (System.start T cfg) l).scm
      (exec E cfg (System.start T cfg) l).ccm := reach_geometry E T cfg l
  generalize exec E cfg (System.start T cfg) l = s at h hI hD hG
  have p : s.pending = 0 := by simp [System.pending, h]
  have idle := hI.idle p (by simp [h])
  have a3 := hI.done_sent
  have a7 := hI.encodes
  have a8 := hI.results_copied
  have a9 := hI.result_dmas
  have a10 := hI.cross
  simp only [h, p, idle.1, ClientPc.after_signal, ServerPc.past, ServerPc.stage] at a3 a7 a8 a9 a10
  simp at a7 a8 a9 a10
  have e1 : s.client_result = s.server_result := hD.segments (by omega) (by omega)
  have e2 := hD.flag (by omega) (by omega)
  refine ⟨⟨by omega, by omega, by omega, by omega, by omega, idle.1, e1, ?_⟩, ?_, ?_⟩
  · rw [e1]
    exact e2
  · obtain ⟨f, hf, hcp⟩ := hD.content (by omega) (by omega)
    rw [← e1] at hcp
    obtain ⟨g0, hg0⟩ := Option.ne_none_iff_exists'.mp hI.ccur
    obtain ⟨c1, c2, c3, c4, c5, -⟩ := hG.counts
    have hn := hD.framenum
    rw [idle.1] at hn
    simp only [ServerPc.past, ServerPc.stage] at hn
    norm_num at hn
    have hstep : ∃ g, (client_step cfg s).ccm.curframe = some g ∧
        (client_step cfg s).cpc = ClientPc.write_frame ∧
        g.keyframe = s.client_result.keyframe ∧
        g.mbs Y_COMPONENT = memcpy (g0.mbs Y_COMPONENT) (s.client_result.mbs Y_COMPONENT)
          (luma_mb_count s.ccm) ∧
        g.mbs U_COMPONENT = memcpy (g0.mbs U_COMPONENT) (s.client_result.mbs U_COMPONENT)
          (chroma_mb_count s.ccm) ∧
        g.mbs V_COMPONENT = memcpy (g0.mbs V_COMPONENT) (s.client_result.mbs V_COMPONENT)
          (chroma_mb_count s.ccm) ∧
        g.residuals.Ydct = memcpy g0.residuals.Ydct s.client_result.Ydct
          (count32 s.ccm.ypw s.ccm.yph) ∧
        g.residuals.Udct = memcpy g0.residuals.Udct s.client_result.Udct
          (count32 s.ccm.upw s.ccm.uph) ∧
        g.residuals.Vdct = memcpy g0.residuals.Vdct s.client_result.Vdct
          (count32 s.ccm.vpw s.ccm.vph) := by
      unfold client_step
      simp only [h, hg0]
      refine ⟨_, rfl, ?_⟩
      simp [Y_COMPONENT, U_COMPONENT, V_COMPONENT]
    obtain ⟨g, hg, hpc, k0, k1, k2, k3, k4, k5, k6⟩ := hstep
    refine ⟨f, g, hf, ?_, hcp, hg, hpc, ?_⟩
    · omega
    · refine ⟨?_, ?_, ?_, ?_, ?_, ?_, ?_⟩
      · exact k0.trans hcp.keyframe
      · show _ <+: g.mbs Y_COMPONENT
        rw [k1, ← c1]
        exact prefix_memcpy _ _ _ _ hcp.mbs_Y (List.length_take_le _ _)
      · show _ <+: g.mbs U_COMPONENT
        rw [k2, ← c2]
        exact prefix_memcpy _ _ _ _ hcp.mbs_U (List.length_take_le _ _)
      · show _ <+: g.mbs V_COMPONENT
        rw [k3, ← c2]
        exact prefix_memcpy _ _ _ _ hcp.mbs_V (List.length_take_le _ _)
      · show _ <+: g.residuals.Ydct
        rw [k4, ← c3]
        exact prefix_memcpy _ _ _ _ hcp.Ydct (List.length_take_le _ _)
      · show _ <+: g.residuals.Udct
        rw [k5, ← c4]
        exact prefix_memcpy _ _ _ _ hcp.Udct (List.length_take_le _ _)
      · show _ <+: g.residuals.Vdct
        rw [k6, ← c5]
        exact prefix_memcpy _ _ _ _ hcp.Vdct (List.length_take_le _ _)
  · intro k
    have hI := inv_reachable E T cfg _ (reachable_exec E T cfg k _ Reachable.start)
    generalize exec E cfg (System.start T cfg) k = s at hI
    constructor
    · intro hc
      have := hI.ccell
      rw [hc] at this
      exact this
    · intro hc hd
      have p : s.pending = 0 := by simp [System.pending, hc, hd]
      have := hI.cross
      omega

set_option maxRecDepth 100000 in
/-- Witness for C3: the marked sample run up to the point where the client has
left its spin for frame 0. The client's result segment holds the keyframe
flag 1, the four luma macroblocks and the one macroblock of each chroma
component that the server built for frame 0 (in front of the zeros that the
segment held before), and its 256 + 64 + 64 coefficients. -/
theorem result_valid_when_spin_ends_witness :
    marked_at_result.cpc = ClientPc.copy_result ∧
    (marked_at_result.client_result.keyframe = 1 ∧
      marked_at_result.client_result.mbs Y_COMPONENT
        = [⟨1, 1, 1⟩, ⟨1, 1, 1⟩, ⟨1, 1, 1⟩, ⟨1, 1, 1⟩] ∧
      marked_at_result.client_result.mbs U_COMPONENT
        = [⟨1, 1, 1⟩, ⟨0, 0, 0⟩, ⟨0, 0, 0⟩, ⟨0, 0, 0⟩] ∧
      marked_at_result.client_result.mbs V_COMPONENT
        = [⟨1, 1, 2⟩, ⟨0, 0, 0⟩, ⟨0, 0, 0⟩, ⟨0, 0, 0⟩] ∧
      marked_at_result.client_result.Ydct = List.replicate 256 11 ∧
      marked_at_result.client_result.Udct = List.replicate 64 25 ∧
      marked_at_result.client_result.Vdct = List.replicate 64 36) ∧
    ∃ f g, marked_at_result.scm.curframe = some f ∧
      marked_at_result.scm.framenum = ((marked_at_result.hist.results_read + 1 : Nat) : Int) ∧
      Copied marked_at_result.scm f marked_at_result.client_result ∧
      (client_step sample_config marked_at_result).ccm.curframe = some g ∧
      (client_step sample_config marked_at_result).cpc = ClientPc.write_frame ∧
      Copied marked_at_result.scm f g.as_result :=
  ⟨by decide, ⟨by decide, by decide, by decide, by decide, by decide, by decide, by decide⟩,
    (result_valid_when_spin_ends marking_externals sample_tables sample_config sample_to_result
      (by decide)).2.1⟩

/-! ## The reader on complete and incomplete frames -/

/-- On a stream that still holds a whole frame, `read_yuv` returns an image and advances by one frame. -/
theorem read_yuv_full (width height : Nat) (cm : c63_common) (file : FILE)
    (hdiv : width * height % 2 ^ 32 % 4 = 0) (he : file.eof = false)
    (hlen : file.pos + frame_bytes width height ≤ file.data.length) :
    ∃ img, read_yuv width height file cm
      = (some img, { file with pos := file.pos + frame_bytes width height }) := by
  unfold frame_bytes at hlen
  unfold read_yuv fread frame_bytes
  generalize width * height % 2 ^ 32 = P at hdiv hlen
  have h1 : P ≤ file.data.length - file.pos := by omega
  have h2 : P / 4 ≤ file.data.length - (file.pos + P) := by omega
  have h3 : P / 4 ≤ file.data.length - (file.pos + P + P / 4) := by omega
  simp only [h1, h2, h3, if_true, he]
  simp only [List.length_take, List.length_drop]
  have e1 : min P (file.data.length - file.pos) = P := by omega
  have e2 : min (P / 4) (file.data.length - (file.pos + P)) = P / 4 := by omega
  have e3 : min (P / 4) (file.data.length - (file.pos + P + P / 4)) = P / 4 := by omega
  rw [e1, e2, e3]
  have e4 : ¬ (2 * (0 + P + P / 4 + P / 4) ≠ 3 * P) := by omega
  simp only [e4, if_false, Bool.false_eq_true]
  have e5 : file.pos + P + P / 4 + P / 4 = file.pos + (P + 2 * (P / 4)) := by omega
  rw [e5]
  exact ⟨_, rfl⟩

/-- The end-of-file indicator, once set, stays set. -/
theorem fread_eof (n : Nat) (file : FILE) (h : file.eof = true) : (fread n file).2.eof = true := by
  unfold fread
  split_ifs <;> simp [h]

/-- A request larger than what is left sets the end-of-file indicator. -/
theorem fread_short (n : Nat) (file : FILE) (h : file.data.length - file.pos < n) :
    (fread n file).2.eof = true := by
  unfold fread
  have : ¬ (n ≤ file.data.length - file.pos) := by omega
  simp [this]

/-- A request that can be met advances the position and nothing else. -/
theorem fread_pos (n : Nat) (file : FILE) (h : n ≤ file.data.length - file.pos) :
    (fread n file).2.pos = file.pos + n ∧ (fread n file).2.data = file.data := by
  unfold fread
  simp [h]

/-- If the indicator is set after the three reads, `read_yuv` returns `NULL`. -/
theorem read_yuv_eof (width height : Nat) (cm : c63_common) (file : FILE)
    (he : (fread (width * height % 2 ^ 32 / 4) (fread (width * height % 2 ^ 32 / 4)
      (fread (width * height % 2 ^ 32) file).2).2).2.eof = true) :
    (read_yuv width height file cm).1 = none := by
  unfold read_yuv
  simp only [he, if_true]

/-- On a stream that holds less than a whole frame, `read_yuv` returns `NULL`. -/
theorem read_yuv_short (width height : Nat) (cm : c63_common) (file : FILE)
    (hpos : file.pos ≤ file.data.length)
    (hlen : file.data.length < file.pos + frame_bytes width height) :
    (read_yuv width height file cm).1 = none := by
  apply read_yuv_eof
  unfold frame_bytes at hlen
  generalize width * height % 2 ^ 32 = P at hlen
  by_cases h1 : P ≤ file.data.length - file.pos
  · obtain ⟨p1, d1⟩ := fread_pos P file h1
    by_cases h2 : P / 4 ≤ (fread P file).2.data.length - (fread P file).2.pos
    · obtain ⟨p2, d2⟩ := fread_pos (P / 4) _ h2
      apply fread_short
      rw [p2, d2, p1, d1]
      omega
    · apply fread_eof
      apply fread_short
      omega
  · apply fread_eof
    apply fread_eof
    apply fread_short
    omega

/-! ## The client's reading and counting invariant -/

/-- The reading invariant holds at the start. -/
theorem file_start (T : Tables) (cfg : ClientConfig) (m : Nat)
    (hlim : 0 ≤ cfg.limit_numframes) : FileInv cfg m (System.start T cfg) := by
  constructor <;>
    simp [System.start, ClientPc.holds_frame, ClientPc.before_count, ClientPc.looping]
  intro h
  omega

/-- Every client step preserves the reading invariant. -/
theorem file_client_step (cfg : ClientConfig) (m r : Nat) (s : System)
    (hdiv : cfg.width * cfg.height % 2 ^ 32 % 4 = 0)
    (hlen : cfg.input.length = m * frame_bytes cfg.width cfg.height + r)
    (hr : r < frame_bytes cfg.width cfg.height)
    (hI : Inv s) (h : FileInv cfg m s) : FileInv cfg m (client_step cfg s) := by
  have h0 := h
  obtain ⟨f1, f2, f3, f4, f5⟩ := h
  have i1 := hI.raw_writes
  have i3 := hI.done_sent
  unfold client_step
  cases hc : s.cpc <;>
    simp only [hc, ClientPc.holds_frame, ClientPc.before_count, ClientPc.looping,
      ClientPc.after_raw_write, ClientPc.after_signal, forall_true_left, not_true_eq_false,
      not_false_eq_true, false_implies, implies_true, add_zero, Nat.cast_zero, Nat.cast_one]
      at f1 f2 f3 f4 f5 i1 i3 <;>
    simp only []
  case set_invalid =>
    constructor <;>
      simp only [ClientPc.holds_frame, ClientPc.before_count, ClientPc.looping, forall_true_left,
        not_true_eq_false, false_implies, add_zero, Nat.cast_zero] <;>
      assumption
  case dma_raw =>
    constructor <;>
      simp only [ClientPc.holds_frame, ClientPc.before_count, ClientPc.looping, forall_true_left,
        not_true_eq_false, false_implies, add_zero, Nat.cast_zero] <;>
      assumption
  case signal_done =>
    constructor <;>
      simp only [ClientPc.holds_frame, ClientPc.before_count, ClientPc.looping, forall_true_left,
        not_true_eq_false, false_implies, add_zero, Nat.cast_zero] <;>
      assumption
  case send_quit =>
    constructor <;>
      simp only [ClientPc.holds_frame, ClientPc.before_count, ClientPc.looping, forall_true_left,
        not_true_eq_false, not_false_eq_true, false_implies, implies_true, add_zero,
        Nat.cast_zero] <;>
      assumption
  case finished => exact h0
  case wait_done =>
    split_ifs
    · exact h0
    · constructor <;>
      simp only [hc, ClientPc.holds_frame, ClientPc.before_count, ClientPc.looping, forall_true_left,
        not_true_eq_false, false_implies, add_zero, Nat.cast_zero] <;>
      assumption
  case copy_raw =>
    cases hi : s.image
    · exact h0
    · simp only []
      constructor <;>
      simp only [ClientPc.holds_frame, ClientPc.before_count, ClientPc.looping, forall_true_left,
        not_true_eq_false, false_implies, add_zero, Nat.cast_zero] <;>
      assumption
  case copy_result =>
    cases hf : s.ccm.curframe
    · exact h0
    · simp only []
      constructor <;>
      simp only [ClientPc.holds_frame, ClientPc.before_count, ClientPc.looping, forall_true_left,
        not_true_eq_false, false_implies, add_zero, Nat.cast_zero, Nat.cast_one, Nat.cast_add] <;>
      first | assumption | omega
  case write_frame =>
    have hrr : s.hist.results_read ≤ m := by omega
    by_cases hl : cfg.limit_numframes ≠ 0 ∧ s.numframes + 1 ≥ cfg.limit_numframes
    · rw [if_pos hl]
      have hlt := f4 hl.1
      have := hl.2
      constructor <;>
      simp only [ClientPc.holds_frame, ClientPc.before_count, ClientPc.looping, forall_true_left,
        not_true_eq_false, not_false_eq_true, false_implies, implies_true, add_zero,
        Nat.cast_zero, frames_submitted, hl.1, if_false] <;>
      first | assumption | omega
    · rw [if_neg hl]
      constructor <;>
      simp only [ClientPc.holds_frame, ClientPc.before_count, ClientPc.looping, forall_true_left,
        not_true_eq_false, not_false_eq_true, false_implies, implies_true, add_zero,
        Nat.cast_zero] <;>
      first | assumption | omega
  case read_frame =>
    rcases Nat.lt_or_ge s.hist.raw_writes m with hj | hj
    · have hpos : s.infile.pos + frame_bytes cfg.width cfg.height ≤ s.infile.data.length := by
        rw [f1]
        simp only [hlen]
        have : (s.hist.raw_writes + 1) * frame_bytes cfg.width cfg.height
            ≤ m * frame_bytes cfg.width cfg.height := Nat.mul_le_mul_right _ hj
        rw [Nat.add_mul, Nat.one_mul] at this
        omega
      obtain ⟨img, himg⟩ := read_yuv_full cfg.width cfg.height s.ccm s.infile hdiv
        (by rw [f1]) hpos
      rw [himg]
      simp only []
      constructor <;>
      simp only [ClientPc.holds_frame, ClientPc.before_count, ClientPc.looping, forall_true_left,
        not_true_eq_false, not_false_eq_true, false_implies, implies_true, add_zero,
        Nat.cast_zero] <;>
      first | assumption | omega | skip
      · rw [f1]
        simp only [Nat.add_mul, Nat.one_mul]
    · have hjm : s.hist.raw_writes = m := by omega
      have hnone := read_yuv_short cfg.width cfg.height s.ccm s.infile
        (by rw [f1]; simp only [hlen, hjm]; omega) (by rw [f1]; simp only [hlen, hjm]; omega)
      rw [hnone]
      simp only []
      constructor <;>
      simp only [ClientPc.holds_frame, ClientPc.before_count, ClientPc.looping, forall_true_left,
        not_true_eq_false, not_false_eq_true, false_implies, implies_true, add_zero,
        Nat.cast_zero, frames_submitted] <;>
      first | assumption | omega | skip
      · split_ifs with hz
        · omega
        · have := f4 hz
          omega

/-! ## Progress: the process whose turn it is always advances -/

/-- Every server step preserves the reading invariant. -/
theorem file_server_step (E : Externals) (cfg : ClientConfig) (m : Nat) (s : System)
    (h : FileInv cfg m s) : FileInv cfg m (server_step E s) := by
  obtain ⟨f1, f2, f3, f4, f5⟩ := h
  unfold server_step
  cases hc : s.spc <;> simp only []
  case wait_cmd =>
    split_ifs <;> exact ⟨f1, f2, f3, f4, f5⟩
  case test_quit =>
    split_ifs <;> exact ⟨f1, f2, f3, f4, f5⟩
  case copy_result =>
    cases hf : s.scm.curframe <;> exact ⟨f1, f2, f3, f4, f5⟩
  all_goals exact ⟨f1, f2, f3, f4, f5⟩

/-- Both invariants are preserved along every schedule. -/
theorem file_exec (E : Externals) (cfg : ClientConfig) (m r : Nat)
    (hdiv : cfg.width * cfg.height % 2 ^ 32 % 4 = 0)
    (hlen : cfg.input.length = m * frame_bytes cfg.width cfg.height + r)
    (hr : r < frame_bytes cfg.width cfg.height)
    (l : List Actor) (s : System) (hI : Inv s) (h : FileInv cfg m s) :
    Inv (exec E cfg s l) ∧ FileInv cfg m (exec E cfg s l) := by
  induction l generalizing s with
  | nil => exact ⟨hI, h⟩
  | cons a l ih =>
    cases a
    · exact ih _ (inv_client_step cfg s hI) (file_client_step cfg m r s hdiv hlen hr hI h)
    · exact ih _ (inv_server_step E s hI) (file_server_step E cfg m s h)

/-- Outside the final state, a step of the process whose turn it is decreases the measure. -/
theorem progress (E : Externals) (cfg : ClientConfig) (m : Nat) (s : System) (hI : Inv s)
    (hb : s.hist.results_read + s.cpc.after_signal ≤ m) (hn : ¬ s.final) :
    (step E cfg s.turn s).measure m < s.measure m := by
  obtain ⟨h1, h2, h3, h4, h5, h6, h7, h8, h9, h10, h11, h12, h13, h14, h15, h16, h17, h18⟩ := hI
  unfold System.measure System.rank System.turn
  cases hc : s.cpc <;>
    simp [hc, System.final, System.pending, ClientPc.after_signal, client_cell_ok]
      at hb hn h11 h12 h13 h15 h16 <;>
    simp only [step]
  case set_invalid => simp [client_step, hc]
  case dma_raw => simp [client_step, hc]
  case signal_done => simp [client_step, hc, h13, h11.1, ServerPc.stage]
  case send_quit => simp [client_step, hc, h11.1]
  case read_frame =>
    unfold client_step
    simp only [hc]
    cases hr : (read_yuv cfg.width cfg.height s.infile s.ccm).1 <;> simp
  case copy_raw =>
    unfold client_step
    simp only [hc]
    cases hi : s.image
    · exact absurd hi h16
    · simp
  case copy_result =>
    unfold client_step
    simp only [hc]
    cases hf : s.ccm.curframe
    · exact absurd hf h17
    · simp
      omega
  case write_frame =>
    unfold client_step
    simp only [hc]
    split_ifs <;> simp
  case wait_done =>
    by_cases hd : s.client_cell.cmd = Cmd.CMD_DONE
    · simp [hd, step, client_step, hc]
    · simp only [hd, if_false, step]
      have hbusy := h12 hd
      unfold server_step
      cases hs : s.spc with
      | wait_cmd =>
        simp only [hs, server_cell_busy] at hbusy
        simp [hbusy, hc, hd, ServerPc.stage]
      | test_quit =>
        simp only [hs, server_cell_busy] at hbusy
        simp [hbusy, hc, hd, ServerPc.stage]
      | copy_result =>
        cases hf : s.scm.curframe
        · exact absurd hf (h18 hs)
        · simp [hc, hd, ServerPc.stage]
      | signal_done => simp [hc, ServerPc.stage]
      | finished =>
        simp only [hs, server_cell_busy] at hbusy
      | ack => simp [hc, hd, ServerPc.stage]
      | copy_raw => simp [hc, hd, ServerPc.stage]
      | encode => simp [hc, hd, ServerPc.stage]
      | dma_result => simp [hc, hd, ServerPc.stage]
      | increment => simp [hc, hd, ServerPc.stage]
  case finished =>
    unfold server_step
    obtain ⟨hq, hsp⟩ := h15
    rcases hsp with hs | hs | hs
    · simp [hs, hq, hc]
    · simp [hs, hq, hc]
    · exact absurd hs hn

/-! ## Termination and frame counts -/

/-- The client never has more frames submitted than the input holds. -/
theorem submitted_bound (cfg : ClientConfig) (m : Nat) (s : System) (hI : Inv s)
    (hF : FileInv cfg m s) : s.hist.results_read + s.cpc.after_signal ≤ m := by
  have h1 := hI.raw_writes
  have h2 := hF.reads
  have : s.cpc.after_signal ≤ s.cpc.after_raw_write := by
    cases s.cpc <;> simp [ClientPc.after_signal, ClientPc.after_raw_write]
  omega

/-- The fair schedule brings both processes out of their loops. -/
theorem fair_run_finishes (E : Externals) (cfg : ClientConfig) (m r : Nat)
    (hdiv : cfg.width * cfg.height % 2 ^ 32 % 4 = 0)
    (hlen : cfg.input.length = m * frame_bytes cfg.width cfg.height + r)
    (hr : r < frame_bytes cfg.width cfg.height) :
    ∀ (k : Nat) (s : System), s.measure m ≤ k → Inv s → FileInv cfg m s →
      ∃ n, (exec E cfg s (fair_schedule E cfg n s)).final := by
  intro k
  induction k with
  | zero =>
    intro s hk hI hF
    by_cases hfin : s.final
    · exact ⟨0, hfin⟩
    · have := progress E cfg m s hI (submitted_bound cfg m s hI hF) hfin
      omega
  | succ k ih =>
    intro s hk hI hF
    by_cases hfin : s.final
    · exact ⟨0, hfin⟩
    · have hlt := progress E cfg m s hI (submitted_bound cfg m s hI hF) hfin
      have hI' : Inv (step E cfg s.turn s) := by
        cases s.turn
        · exact inv_client_step cfg s hI
        · exact inv_server_step E s hI
      have hF' : FileInv cfg m (step E cfg s.turn s) := by
        cases s.turn
        · exact file_client_step cfg m r s hdiv hlen hr hI hF
        · exact file_server_step E cfg m s hF
      obtain ⟨n, hn⟩ := ih (step E cfg s.turn s) (by omega) hI' hF'
      exact ⟨n + 1, hn⟩

/-- What the reading invariant says about the number of frames submitted. -/
theorem client_counts (cfg : ClientConfig) (m : Nat) (s : System) (hI : Inv s)
    (hF : FileInv cfg m s) (hlim : 0 ≤ cfg.limit_numframes) :
    s.hist.done_sent ≤ frames_submitted cfg.limit_numframes m ∧
    s.hist.raw_writes ≤ frames_submitted cfg.limit_numframes m ∧
    s.hist.quit_sent ≤ 1 ∧
    (s.cpc = ClientPc.send_quit →
      s.hist.done_sent = frames_submitted cfg.limit_numframes m ∧ s.hist.quit_sent = 0) ∧
    (s.cpc = ClientPc.finished →
      s.hist.done_sent = frames_submitted cfg.limit_numframes m ∧
      s.hist.raw_writes = frames_submitted cfg.limit_numframes m ∧
      s.hist.quit_sent = 1) := by
  have i1 := hI.raw_writes
  have i3 := hI.done_sent
  have i14 := hI.quit
  obtain ⟨f1, f2, f3, f4, f5⟩ := hF
  unfold frames_submitted at *
  by_cases hz : cfg.limit_numframes = 0 <;>
    cases hc : s.cpc <;>
    simp [hc, hz, ClientPc.after_raw_write, ClientPc.after_signal, ClientPc.holds_frame,
      ClientPc.before_count, ClientPc.looping] at i1 i3 i14 f2 f3 f4 f5 ⊢ <;>
    omega

/-! ## C9: end of stream with an incomplete frame -/

/-- The outcome of `k + 1` calls of `read_yuv` on a stream of `k` frames and a remainder. -/
theorem read_yuv_calls_flags (width height : Nat) (cm : c63_common) (data : List Nat) (r : Nat)
    (hdiv : width * height % 2 ^ 32 % 4 = 0) (hr : r < frame_bytes width height) :
    ∀ (k p : Nat), data.length = p + k * frame_bytes width height + r →
      (read_yuv_calls width height cm (k + 1) { data := data, pos := p, eof := false }).1.map
        Option.isSome = List.replicate k true ++ [false] := by
  intro k
  induction k with
  | zero =>
    intro p hlen
    have hnone := read_yuv_short width height cm { data := data, pos := p, eof := false }
      (by simp only; omega) (by simp only; omega)
    simp [read_yuv_calls, hnone]
  | succ k ih =>
    intro p hlen
    have hlen2 : data.length = (p + frame_bytes width height) + k * frame_bytes width height + r := by
      rw [hlen, Nat.add_mul, Nat.one_mul]
      omega
    obtain ⟨img, himg⟩ := read_yuv_full width height cm { data := data, pos := p, eof := false }
      hdiv rfl (by simp only; omega)
    have := ih (p + frame_bytes width height) hlen2
    rw [read_yuv_calls]
    simp only [himg, List.map_cons, Option.isSome_some, List.replicate_succ, List.cons_append]
    rw [this]

/-- Both invariants hold after every schedule from the start state. -/
theorem start_invariants (T : Tables) (cfg : ClientConfig) (m r : Nat)
    (hdiv : cfg.width * cfg.height % 2 ^ 32 % 4 = 0)
    (hlen : cfg.input.length = m * frame_bytes cfg.width cfg.height + r)
    (hr : r < frame_bytes cfg.width cfg.height)
    (hlim : 0 ≤ cfg.limit_numframes) (E : Externals) (l : List Actor) :
    Inv (exec E cfg (System.start T cfg) l) ∧ FileInv cfg m (exec E cfg (System.start T cfg) l) :=
  file_exec E cfg m r hdiv hlen hr l _ (inv_start T cfg) (file_start T cfg m hlim)

/-- Every schedule from the start state can be continued to the final state. -/
theorem can_finish (E : Externals) (T : Tables) (cfg : ClientConfig) (m r : Nat)
    (hdiv : cfg.width * cfg.height % 2 ^ 32 % 4 = 0)
    (hlen : cfg.input.length = m * frame_bytes cfg.width cfg.height + r)
    (hr : r < frame_bytes cfg.width cfg.height)
    (hlim : 0 ≤ cfg.limit_numframes) (l : List Actor) :
    ∃ k, (exec E cfg (System.start T cfg) (l ++ k)).final := by
  obtain ⟨hI, hF⟩ := start_invariants T cfg m r hdiv hlen hr hlim E l
  obtain ⟨n, hn⟩ := fair_run_finishes E cfg m r hdiv hlen hr _ _ (le_refl _) hI hF
  exact ⟨_, by rw [exec_append]; exact hn⟩

/-- C9: let the input hold `m` complete frames followed by `r` bytes, fewer than
one frame, where a frame is `width*height*3/2` bytes (the product taken in
`uint32_t` as the reader does) and `width*height` is divisible by 4, and let
there be no frame cap. Then `read_yuv` returns an image on each of the first
`m` calls and `NULL` on call `m + 1`. In every interleaving with the server the
client writes at most `m` frames into the raw segment, submits at most `m`
frames and writes `CMD_QUIT` at most once; once it has left its loop it has
submitted exactly `m` frames (the incomplete one was never copied) and written
`CMD_QUIT` exactly once. Every interleaving can be continued until both
processes have left their loops. -/
theorem eof_after_incomplete_frame (E : Externals) (T : Tables) (cfg : ClientConfig)
    (m r : Nat) (cm : c63_common)
    (hdiv : cfg.width * cfg.height % 2 ^ 32 % 4 = 0)
    (hlen : cfg.input.length = m * frame_bytes cfg.width cfg.height + r)
    (hr : r < frame_bytes cfg.width cfg.height)
    (hcap : cfg.limit_numframes = 0) :
    2 * frame_bytes cfg.width cfg.height = 3 * (cfg.width * cfg.height % 2 ^ 32) ∧
    (read_yuv_calls cfg.width cfg.height cm (m + 1)
      { data := cfg.input, pos := 0, eof := false }).1.map Option.isSome
      = List.replicate m true ++ [false] ∧
    (∀ l : List Actor,
      (exec E cfg (System.start T cfg) l).hist.raw_writes ≤ m ∧
      (exec E cfg (System.start T cfg) l).hist.done_sent ≤ m ∧
      (exec E cfg (System.start T cfg) l).hist.quit_sent ≤ 1 ∧
      ((exec E cfg (System.start T cfg) l).cpc = ClientPc.finished →
        (exec E cfg (System.start T cfg) l).hist.raw_writes = m ∧
        (exec E cfg (System.start T cfg) l).hist.done_sent = m ∧
        (exec E cfg (System.start T cfg) l).hist.quit_sent = 1)) ∧
    (∀ l : List Actor, ∃ k, (exec E cfg (System.start T cfg) (l ++ k)).final) := by
  have hlim : 0 ≤ cfg.limit_numframes := by omega
  refine ⟨?_, ?_, ?_, ?_⟩
  · unfold frame_bytes
    omega
  · exact read_yuv_calls_flags cfg.width cfg.height cm cfg.input r hdiv hr m 0 (by omega)
  · intro l
    obtain ⟨hI, hF⟩ := start_invariants T cfg m r hdiv hlen hr hlim E l
    have hc := client_counts cfg m _ hI hF hlim
    simp only [frames_submitted, hcap, if_true] at hc
    exact ⟨hc.2.1, hc.1, hc.2.2.1, fun h => ⟨(hc.2.2.2.2 h).2.1, (hc.2.2.2.2 h).1,
      (hc.2.2.2.2 h).2.2⟩⟩
  · exact can_finish E T cfg m r hdiv hlen hr hlim

/-- Witness for C9: 2 x 2 frames of 6 bytes, an input of 15 bytes (two frames
and half a frame). -/
theorem eof_after_incomplete_frame_witness :
    (sample_config_short.width * sample_config_short.height % 2 ^ 32 % 4 = 0 ∧
     sample_config_short.input.length
       = 2 * frame_bytes sample_config_short.width sample_config_short.height + 3 ∧
     3 < frame_bytes sample_config_short.width sample_config_short.height ∧
     sample_config_short.limit_numframes = 0) ∧
    (2 * frame_bytes sample_config_short.width sample_config_short.height
       = 3 * (sample_config_short.width * sample_config_short.height % 2 ^ 32) ∧
     (read_yuv_calls sample_config_short.width sample_config_short.height
       (init_c63_enc sample_tables 2 2) (2 + 1)
       { data := sample_config_short.input, pos := 0, eof := false }).1.map Option.isSome
       = List.replicate 2 true ++ [false] ∧
     (∀ l : List Actor,
       (exec sample_externals sample_config_short
         (System.start sample_tables sample_config_short) l).hist.raw_writes ≤ 2 ∧
       (exec sample_externals sample_config_short
         (System.start sample_tables sample_config_short) l).hist.done_sent ≤ 2 ∧
       (exec sample_externals sample_config_short
         (System.start sample_tables sample_config_short) l).hist.quit_sent ≤ 1 ∧
       ((exec sample_externals sample_config_short
         (System.start sample_tables sample_config_short) l).cpc = ClientPc.finished →
         (exec sample_externals sample_config_short
           (System.start sample_tables sample_config_short) l).hist.raw_writes = 2 ∧
         (exec sample_externals sample_config_short
           (System.start sample_tables sample_config_short) l).hist.done_sent = 2 ∧
         (exec sample_externals sample_config_short
           (System.start sample_tables sample_config_short) l).hist.quit_sent = 1)) ∧
     (∀ l : List Actor, ∃ k, (exec sample_externals sample_config_short
       (System.start sample_tables sample_config_short) (l ++ k)).final)) :=
  ⟨⟨by decide, by decide, by decide, by decide⟩,
    eof_after_incomplete_frame sample_externals sample_tables sample_config_short 2 3
      (init_c63_enc sample_tables 2 2) (by decide) (by decide) (by decide) (by decide)⟩

/-! ## C10: the frame cap -/

/-- C10 (as amended): let `width*height` (in `uint32_t`) be a multiple of 4 and
let the input hold `m` complete frames of `width*height*3/2 > 0` bytes each,
followed by fewer bytes than one frame. For every cap `f ≥ 1` the client
submits exactly `min(f, m)` frames before it writes `CMD_QUIT`, and with
`f = 0` it submits exactly `m`: in every interleaving with the server the
number submitted never exceeds that count, it equals that count when the client
is about to write `CMD_QUIT` and after it has done so, `CMD_QUIT` is written
once, and every interleaving can be continued until both processes have left
their loops. -/
theorem frame_cap (E : Externals) (T : Tables) (cfg : ClientConfig) (m r : Nat)
    (hdiv : cfg.width * cfg.height % 2 ^ 32 % 4 = 0)
    (hlen : cfg.input.length = m * frame_bytes cfg.width cfg.height + r)
    (hr : r < frame_bytes cfg.width cfg.height)
    (hcap : 0 ≤ cfg.limit_numframes) :
    (∀ l : List Actor,
      (exec E cfg (System.start T cfg) l).hist.done_sent
        ≤ (if cfg.limit_numframes = 0 then m else min cfg.limit_numframes.toNat m) ∧
      (exec E cfg (System.start T cfg) l).hist.quit_sent ≤ 1 ∧
      ((exec E cfg (System.start T cfg) l).cpc = ClientPc.send_quit →
        (exec E cfg (System.start T cfg) l).hist.done_sent
          = (if cfg.limit_numframes = 0 then m else min cfg.limit_numframes.toNat m) ∧
        (exec E cfg (System.start T cfg) l).hist.quit_sent = 0) ∧
      ((exec E cfg (System.start T cfg) l).cpc = ClientPc.finished →
        (exec E cfg (System.start T cfg) l).hist.done_sent
          = (if cfg.limit_numframes = 0 then m else min cfg.limit_numframes.toNat m) ∧
        (exec E cfg (System.start T cfg) l).hist.quit_sent = 1)) ∧
    (∀ l : List Actor, ∃ k, (exec E cfg (System.start T cfg) (l ++ k)).final) := by
  refine ⟨?_, can_finish E T cfg m r hdiv hlen hr hcap⟩
  intro l
  obtain ⟨hI, hF⟩ := start_invariants T cfg m r hdiv hlen hr hcap E l
  have hc := client_counts cfg m _ hI hF hcap
  unfold frames_submitted at hc
  exact ⟨hc.1, hc.2.2.1, hc.2.2.2.1, fun h => ⟨(hc.2.2.2.2 h).1, (hc.2.2.2.2 h).2.2⟩⟩

/-- Witness for C10: 2 x 2 frames, an input of two frames, a cap of one. -/
theorem frame_cap_witness :
    (sample_config_capped.width * sample_config_capped.height % 2 ^ 32 % 4 = 0 ∧
     sample_config_capped.input.length
       = 2 * frame_bytes sample_config_capped.width sample_config_capped.height + 0 ∧
     0 < frame_bytes sample_config_capped.width sample_config_capped.height ∧
     0 ≤ sample_config_capped.limit_numframes) ∧
    ((∀ l : List Actor,
      (exec sample_externals sample_config_capped
        (System.start sample_tables sample_config_capped) l).hist.done_sent
        ≤ (if sample_config_capped.limit_numframes = 0 then 2
           else min sample_config_capped.limit_numframes.toNat 2) ∧
      (exec sample_externals sample_config_capped
        (System.start sample_tables sample_config_capped) l).hist.quit_sent ≤ 1 ∧
      ((exec sample_externals sample_config_capped
        (System.start sample_tables sample_config_capped) l).cpc = ClientPc.send_quit →
        (exec sample_externals sample_config_capped
          (System.start sample_tables sample_config_capped) l).hist.done_sent
          = (if sample_config_capped.limit_numframes = 0 then 2
             else min sample_config_capped.limit_numframes.toNat 2) ∧
        (exec sample_externals sample_config_capped
          (System.start sample_tables sample_config_capped) l).hist.quit_sent = 0) ∧
      ((exec sample_externals sample_config_capped
        (System.start sample_tables sample_config_capped) l).cpc = ClientPc.finished →
        (exec sample_externals sample_config_capped
          (System.start sample_tables sample_config_capped) l).hist.done_sent
          = (if sample_config_capped.limit_numframes = 0 then 2
             else min sample_config_capped.limit_numframes.toNat 2) ∧
        (exec sample_externals sample_config_capped
          (System.start sample_tables sample_config_capped) l).hist.quit_sent = 1)) ∧
    (∀ l : List Actor, ∃ k, (exec sample_externals sample_config_capped
      (System.start sample_tables sample_config_capped) (l ++ k)).final)) :=
  ⟨⟨by decide, by decide, by decide, by decide⟩,
    frame_cap sample_externals sample_tables sample_config_capped 2 0
      (by decide) (by decide) (by decide) (by decide)⟩

/-- C10 fails as stated: for 2 x 1 frames, a cap of 1 and an input of 12 bytes
(four frames of `width*height*3/2 = 3` bytes), `read_yuv` takes 2 bytes, finds
the count different from `width*height*1.5` and returns `NULL`; the client
leaves its loop having submitted no frame, where `min(f, m) = min(1, 4) = 1`. -/
theorem frame_cap_counterexample :
    odd_config.limit_numframes = 1 ∧
    2 * odd_config.input.length = 4 * (3 * (odd_config.width * odd_config.height)) ∧
    (read_yuv odd_config.width odd_config.height { data := odd_config.input, pos := 0, eof := false }
      (init_c63_enc sample_tables 2 1)).1 = none ∧
    (exec sample_externals odd_config (System.start sample_tables odd_config)
      [Actor.client, Actor.client, Actor.client]).cpc = ClientPc.finished ∧
    (exec sample_externals odd_config (System.start sample_tables odd_config)
      [Actor.client, Actor.client, Actor.client]).hist.done_sent = 0 ∧
    (exec sample_externals odd_config (System.start sample_tables odd_config)
      [Actor.client, Actor.client, Actor.client]).hist.quit_sent = 1 := by
  refine ⟨by decide, by decide, by decide, by decide, by decide, by decide⟩

/-! ## C6: zero dimensions -/

/-- C6 (as amended): `init_c63_enc` does not validate its arguments. Called
with `width = 0` it returns a codec state whose padded widths and `mb_cols` are
0, called with `height = 0` one whose padded heights and `mb_rows` are 0, in
both cases with the usual parameters (`qp = 25`, `keyframe_interval = 100`).
The server does not check the dimensions of the handshake either: whatever
they are, once it has seen `CMD_DONE` it calls `init_c63_enc` on them and,
its transport calls succeeding, arrives at the top of its encoding loop. -/
theorem zero_dimensions_accepted (T : Tables) (width height : Int) :
    ((init_c63_enc T 0 height).width = 0 ∧
     (init_c63_enc T 0 height).ypw = 0 ∧
     (init_c63_enc T 0 height).upw = 0 ∧
     (init_c63_enc T 0 height).vpw = 0 ∧
     (init_c63_enc T 0 height).mb_cols = 0 ∧
     (init_c63_enc T 0 height).qp = 25 ∧
     (init_c63_enc T 0 height).keyframe_interval = 100) ∧
    ((init_c63_enc T width 0).height = 0 ∧
     (init_c63_enc T width 0).yph = 0 ∧
     (init_c63_enc T width 0).uph = 0 ∧
     (init_c63_enc T width 0).vph = 0 ∧
     (init_c63_enc T width 0).mb_rows = 0 ∧
     (init_c63_enc T width 0).qp = 25 ∧
     (init_c63_enc T width 0).keyframe_interval = 100) ∧
    server_startup T { cmd := Cmd.CMD_DONE, img_width := width, img_height := height }
      = some (ServerPc.wait_cmd, init_c63_enc T width height) := by
  refine ⟨⟨rfl, ?_, ?_, ?_, ?_, rfl, rfl⟩, ⟨rfl, ?_, ?_, ?_, ?_, rfl, rfl⟩, ?_⟩
  all_goals first
    | rfl
    | simp [server_startup]
    | (have h : to_uint32 (ceil_div (f32_of_int 0) 16 * 16) = 0 := by decide
       simp only [init_c63_enc, c63_common_zero, h])

/-- C6 fails as stated: `init_c63_enc(0, 0)` returns a codec state like any
other (all padded dimensions 0, `qp = 25`); nothing in the server looks at the
dimensions, so with its transport calls succeeding the server started on a
handshake with zero dimensions stands at the top of its encoding loop and, in
the run with zero dimensions, goes on to encode a frame. -/
theorem zero_dimensions_counterexample :
    (init_c63_enc sample_tables 0 0).ypw = 0 ∧
    (init_c63_enc sample_tables 0 0).yph = 0 ∧
    (init_c63_enc sample_tables 0 0).mb_cols = 0 ∧
    (init_c63_enc sample_tables 0 0).qp = 25 ∧
    (server_startup sample_tables { cmd := Cmd.CMD_DONE, img_width := 0, img_height := 0 }).map
      Prod.fst = some ServerPc.wait_cmd ∧
    (System.start sample_tables zero_config).spc = ServerPc.wait_cmd ∧
    (exec sample_externals zero_config (System.start sample_tables zero_config)
      sample_to_result).hist.encodes = 1 := by
  refine ⟨by decide, by decide, by decide, by decide, by decide, by decide, by decide⟩

/-! ## C14, C17: the reference-frame ring and the keyframe counter -/

/-- C17: in every codec state that the server reaches from the state of
`init_c63_enc` by iterating its loop body (`c63_encode_image`, then
`++framenum` and `++frames_since_keyframe`), at the point where the keyframe
test for frame `n` is made `frames_since_keyframe` lies between 0 and
`keyframe_interval` (it is 0 before frame 0 and `(n-1) % 100 + 1` before every
later frame), so the equality test is never stepped over, and `framenum` is
`n`, the number of frames encoded so far. -/
theorem keyframe_counter_bound (E : Externals) (T : Tables) (width height : Int)
    (images : Nat → yuv_t) (n : Nat) :
    0 ≤ (server_after E T width height images n).frames_since_keyframe ∧
    (server_after E T width height images n).frames_since_keyframe
      ≤ (server_after E T width height images n).keyframe_interval ∧
    (server_after E T width height images n).frames_since_keyframe
      = (if n = 0 then 0 else (((n - 1) % 100 + 1 : Nat) : Int)) ∧
    (server_after E T width height images n).framenum = (n : Int) := by
  obtain ⟨h1, h2, h3⟩ := server_after_counters E T width height images n
  rw [h2, h3]
  refine ⟨?_, ?_, rfl, h1⟩
  · split_ifs <;> omega
  · split_ifs <;> omega

/-- C14: `c63_encode_image` first releases the old reference frame, then makes
the previous current frame the reference frame and installs a frame made by
`create_frame` as the current frame; it changes no other field of the codec
state, except that `frames_since_keyframe` is reset to 0 on a keyframe.
In the run from the state of `init_c63_enc` there is no reference frame while
frame 0 is encoded, and the reference frame while frame `n + 1` is encoded is
the current frame that was built for frame `n`. -/
theorem reference_frame_ring (E : Externals) (cm : c63_common) (image : yuv_t)
    (T : Tables) (width height : Int) (images : Nat → yuv_t) (n : Nat) :
    ((c63_encode_image_traced E cm image).2.take 2 = [Call.destroy_frame, Call.create_frame] ∧
     (c63_encode_image E cm image).refframe = cm.curframe ∧
     (c63_encode_image E cm image).curframe.map frame.orig
       = some (E.create_frame { cm with refframe := cm.curframe } image).orig) ∧
    ((c63_encode_image E cm image).width = cm.width ∧
     (c63_encode_image E cm image).height = cm.height ∧
     (c63_encode_image E cm image).ypw = cm.ypw ∧
     (c63_encode_image E cm image).yph = cm.yph ∧
     (c63_encode_image E cm image).upw = cm.upw ∧
     (c63_encode_image E cm image).uph = cm.uph ∧
     (c63_encode_image E cm image).vpw = cm.vpw ∧
     (c63_encode_image E cm image).vph = cm.vph ∧
     (c63_encode_image E cm image).padw = cm.padw ∧
     (c63_encode_image E cm image).padh = cm.padh ∧
     (c63_encode_image E cm image).mb_cols = cm.mb_cols ∧
     (c63_encode_image E cm image).mb_rows = cm.mb_rows ∧
     (c63_encode_image E cm image).qp = cm.qp ∧
     (c63_encode_image E cm image).me_search_range = cm.me_search_range ∧
     (c63_encode_image E cm image).quanttbl = cm.quanttbl ∧
     (c63_encode_image E cm image).framenum = cm.framenum ∧
     (c63_encode_image E cm image).keyframe_interval = cm.keyframe_interval) ∧
    (c63_encode_image E cm image).frames_since_keyframe =
      (if cm.framenum = 0 ∨ cm.frames_since_keyframe = cm.keyframe_interval then 0
       else cm.frames_since_keyframe) ∧
    (c63_encode_image E (server_after E T width height images 0) (images 0)).refframe = none ∧
    (c63_encode_image E (server_after E T width height images (n + 1)) (images (n + 1))).refframe
      = (c63_encode_image E (server_after E T width height images n) (images n)).curframe := by
  refine ⟨?_, ?_, ?_, ?_, ?_⟩
  · by_cases h : cm.framenum = 0 ∨ cm.frames_since_keyframe = cm.keyframe_interval <;>
      simp [c63_encode_image, c63_encode_image_traced, h]
  · by_cases h : cm.framenum = 0 ∨ cm.frames_since_keyframe = cm.keyframe_interval <;>
      simp [c63_encode_image, c63_encode_image_traced, h]
  · exact (c63_encode_image_counters E cm image).2.2.1
  · rfl
  · have key : ∀ (c : c63_common) (i : yuv_t), (c63_encode_image E c i).refframe = c.curframe := by
      intro c i
      by_cases h : c.framenum = 0 ∨ c.frames_since_keyframe = c.keyframe_interval <;>
        simp [c63_encode_image, c63_encode_image_traced, h]
    rw [key]
    rfl

/-! ## C15: the motion stage -/

/-- The number of dropped bits is chosen so that 24 bits remain. -/
theorem f32_shift_spec (n : Nat) (h : n < 2 ^ 31) :
    n < 2 ^ (24 + f32_shift n) ∧ f32_shift n ≤ 7 := by
  unfold f32_shift
  split_ifs <;> constructor <;> norm_num <;> omega

/-- The conversion to `float` of a non-negative `int` is at most `2^31`. -/
theorem f32_of_nat_le (n : Nat) (h : n < 2 ^ 31) : f32_of_nat n ≤ 2 ^ 31 := by
  obtain ⟨h1, h2⟩ := f32_shift_spec n h
  have hq : n / 2 ^ f32_shift n < 2 ^ 24 := by
    rw [Nat.div_lt_iff_lt_mul (by positivity)]
    rw [← pow_add]
    exact h1
  have hle : (n / 2 ^ f32_shift n + 1) * 2 ^ f32_shift n ≤ 2 ^ 24 * 2 ^ f32_shift n :=
    Nat.mul_le_mul_right _ hq
  have hle2 : n / 2 ^ f32_shift n * 2 ^ f32_shift n ≤ 2 ^ 24 * 2 ^ f32_shift n :=
    Nat.mul_le_mul_right _ (le_of_lt hq)
  have hp : 2 ^ 24 * 2 ^ f32_shift n ≤ 2 ^ 31 := by
    rw [← pow_add]
    exact Nat.pow_le_pow_right (by norm_num) (by omega)
  unfold f32_of_nat
  simp only []
  split_ifs <;> omega

/-- The luma and chroma padded dimension that `init_c63_enc` computes from one
raw dimension in the range of a positive `int` are 16 and 8 times the same
number. -/
theorem pad_common (w : Int) (h0 : 0 < w) (h : w < 2 ^ 31) :
    ∃ x : Nat, to_uint32 (ceil_div (f32_of_int w) 16 * 16) = 16 * x ∧
      to_uint32 (ceil_div (f32_of_int w) 16 * 8) = 8 * x := by
  have hb := f32_of_nat_le w.toNat (by omega)
  unfold f32_of_int
  rw [if_pos (le_of_lt h0)]
  generalize f32_of_nat w.toNat = y at hb
  refine ⟨(y + 15) / 16, ?_, ?_⟩
  · unfold to_uint32 ceil_div
    omega
  · unfold to_uint32 ceil_div
    omega


/-- C16, amended: for every width and height of a positive `int` whose padded
luma dimensions are below `2^31` and for which the intermediate product
`(mb_rows/2) * mb_cols` is below `2^31` (all of them then fit the 32-bit `int`
of the fields), with the geometry of `init_c63_enc`, the expression
`cm->mb_rows/2 * cm->mb_cols/2`, evaluated from left to right as
`((mb_rows/2)*mb_cols)/2` with the product formed in 32 bits, has the value of
the exact expression, equals `(mb_rows/2)*(mb_cols/2)` and equals
`(uph/8)*(upw/8)` (and `(vph/8)*(vpw/8)`), the number of 8 x 8 blocks of a
padded chroma plane; these products formed in 32 bits give the same, and so
does the expression passed as an element count. -/
theorem chroma_macroblock_count (T : Tables) (width height : Int)
    (hw : 0 < width) (hw31 : width < 2 ^ 31) (hh : 0 < height) (hh31 : height < 2 ^ 31)
    (hypw : (init_c63_enc T width height).ypw < 2 ^ 31) (hyph : (init_c63_enc T width height).yph < 2 ^ 31)
    (hfit : (init_c63_enc T width height).mb_rows / 2 * (init_c63_enc T width height).mb_cols < 2 ^ 31) :
    (int_of_uint32 (init_c63_enc T width height).ypw = ((init_c63_enc T width height).ypw : Int) ∧
      int_of_uint32 (init_c63_enc T width height).yph = ((init_c63_enc T width height).yph : Int)) ∧
    chroma_mb_expr (init_c63_enc T width height)
      = (((init_c63_enc T width height).mb_rows / 2 * (init_c63_enc T width height).mb_cols / 2 : Nat) : Int) ∧
    chroma_mb_expr (init_c63_enc T width height)
      = ((((init_c63_enc T width height).mb_rows / 2) * ((init_c63_enc T width height).mb_cols / 2) : Nat) : Int) ∧
    chroma_mb_expr (init_c63_enc T width height)
      = ((((init_c63_enc T width height).uph / 8) * ((init_c63_enc T width height).upw / 8) : Nat) : Int) ∧
    chroma_mb_expr (init_c63_enc T width height)
      = ((((init_c63_enc T width height).vph / 8) * ((init_c63_enc T width height).vpw / 8) : Nat) : Int) ∧
    chroma_mb_expr (init_c63_enc T width height)
      = mul32 ((init_c63_enc T width height).mb_rows / 2) ((init_c63_enc T width height).mb_cols / 2) ∧
    chroma_mb_expr (init_c63_enc T width height)
      = mul32 ((init_c63_enc T width height).uph / 8) ((init_c63_enc T width height).upw / 8) ∧
    chroma_mb_count (init_c63_enc T width height)
      = ((init_c63_enc T width height).mb_rows / 2) * ((init_c63_enc T width height).mb_cols / 2) := by
  obtain ⟨x, hx16, hx8⟩ := pad_common width hw hw31
  obtain ⟨z, hz16, hz8⟩ := pad_common height hh hh31
  have h28 : (2 : Int) * 8 = 16 := by norm_num
  have e1 : (init_c63_enc T width height).mb_rows = 2 * z := by
    simp only [init_c63_enc, c63_common_zero, hz16]
    omega
  have e2 : (init_c63_enc T width height).mb_cols = 2 * x := by
    simp only [init_c63_enc, c63_common_zero, hx16]
    omega
  have e3 : (init_c63_enc T width height).upw = 8 * x := by
    simp only [init_c63_enc, c63_common_zero, UX, YX, mul_one, h28, hx8]
  have e4 : (init_c63_enc T width height).uph = 8 * z := by
    simp only [init_c63_enc, c63_common_zero, UY, YY, mul_one, h28, hz8]
  have e5 : (init_c63_enc T width height).vpw = 8 * x := by
    simp only [init_c63_enc, c63_common_zero, VX, YX, mul_one, h28, hx8]
  have e6 : (init_c63_enc T width height).vph = 8 * z := by
    simp only [init_c63_enc, c63_common_zero, VY, YY, mul_one, h28, hz8]
  have i1 : int_of_uint32 (init_c63_enc T width height).ypw = ((init_c63_enc T width height).ypw : Int) := by
    unfold int_of_uint32
    rw [Nat.mod_eq_of_lt (by omega), if_pos hypw]
  have i2 : int_of_uint32 (init_c63_enc T width height).yph = ((init_c63_enc T width height).yph : Int) := by
    unfold int_of_uint32
    rw [Nat.mod_eq_of_lt (by omega), if_pos hyph]
  refine ⟨⟨i1, i2⟩, ?_⟩
  have a1 : 2 * z / 2 = z := by omega
  have a2 : 2 * x / 2 = x := by omega
  have a3 : 8 * z / 8 = z := by omega
  have a4 : 8 * x / 8 = x := by omega
  have a5 : z * (2 * x) / 2 = z * x := by
    rw [Nat.mul_left_comm]
    exact Nat.mul_div_cancel_left _ (by norm_num)
  rw [e1, e2, a1] at hfit
  have hzx : z * x ≤ z * (2 * x) := Nat.mul_le_mul_left _ (by omega)
  have m1 : mul32 z (2 * x) = ((z * (2 * x) : Nat) : Int) := mul32_small _ _ hfit
  have m2 : mul32 z x = ((z * x : Nat) : Int) := mul32_small _ _ (by omega)
  have hexpr : chroma_mb_expr (init_c63_enc T width height) = ((z * x : Nat) : Int) := by
    unfold chroma_mb_expr
    rw [e1, e2, a1, m1]
    rw [← a5]
    exact (Int.ofNat_tdiv _ _).symm
  have hcount : chroma_mb_count (init_c63_enc T width height) = z * x := by
    unfold chroma_mb_count
    rw [hexpr]
    exact size_t_of_int_small _ (by omega)
  rw [hexpr, hcount, e1, e2, e3, e4, e5, e6, a1, a2, a3, a4, a5, m2]
  exact ⟨rfl, rfl, rfl, rfl, rfl, rfl, rfl⟩

/-- Witness for C16 at a CIF frame, 352 x 288: 18 x 22 = 396 chroma blocks. -/
theorem chroma_macroblock_count_witness :
    ((0 : Int) < 352 ∧ (352 : Int) < 2 ^ 31 ∧ (0 : Int) < 288 ∧ (288 : Int) < 2 ^ 31 ∧
      (init_c63_enc sample_tables 352 288).ypw < 2 ^ 31 ∧ (init_c63_enc sample_tables 352 288).yph < 2 ^ 31 ∧
      (init_c63_enc sample_tables 352 288).mb_rows / 2 * (init_c63_enc sample_tables 352 288).mb_cols < 2 ^ 31) ∧
    (chroma_mb_expr (init_c63_enc sample_tables 352 288)
      = (((init_c63_enc sample_tables 352 288).mb_rows / 2 * (init_c63_enc sample_tables 352 288).mb_cols / 2 : Nat) : Int) ∧
    chroma_mb_expr (init_c63_enc sample_tables 352 288)
      = ((((init_c63_enc sample_tables 352 288).mb_rows / 2) * ((init_c63_enc sample_tables 352 288).mb_cols / 2) : Nat) : Int) ∧
    chroma_mb_expr (init_c63_enc sample_tables 352 288)
      = ((((init_c63_enc sample_tables 352 288).uph / 8) * ((init_c63_enc sample_tables 352 288).upw / 8) : Nat) : Int) ∧
    chroma_mb_expr (init_c63_enc sample_tables 352 288) = 396) :=
  ⟨⟨by decide, by decide, by decide, by decide, by decide, by decide, by decide⟩,
    (chroma_macroblock_count sample_tables 352 288 (by decide) (by decide) (by decide)
      (by decide) (by decide) (by decide) (by decide)).2.1,
    (chroma_macroblock_count sample_tables 352 288 (by decide) (by decide) (by decide)
      (by decide) (by decide) (by decide) (by decide)).2.2.1,
    (chroma_macroblock_count sample_tables 352 288 (by decide) (by decide) (by decide)
      (by decide) (by decide) (by decide) (by decide)).2.2.2.1, by decide⟩

/-- Counterexample for C16 as stated. At 524288 x 1048576 the luma grid has
131072 x 65536 macroblocks, the intermediate product `(mb_rows/2) * mb_cols` is
`2^32`, which is 0 in 32 bits, so the expression `mb_rows/2 * mb_cols/2` gives
0, while the padded chroma plane has `(uph/8)*(upw/8) = 2^31` blocks of 8 x 8.
At 262144 x 1048576 the intermediate product is `2^31`, which is `-2^31` in the
32 bits of an `int`, and the expression gives -1073741824, while
`(mb_rows/2)*(mb_cols/2)` and `(uph/8)*(upw/8)` are 1073741824. -/
theorem chroma_macroblock_count_counterexample :
    ((init_c63_enc sample_tables 524288 1048576).mb_rows = 131072 ∧
      (init_c63_enc sample_tables 524288 1048576).mb_cols = 65536 ∧
      (init_c63_enc sample_tables 524288 1048576).mb_rows / 2 * (init_c63_enc sample_tables 524288 1048576).mb_cols = 2 ^ 32 ∧
      chroma_mb_expr (init_c63_enc sample_tables 524288 1048576) = 0 ∧
      ((init_c63_enc sample_tables 524288 1048576).mb_rows / 2) * ((init_c63_enc sample_tables 524288 1048576).mb_cols / 2) = 2 ^ 31 ∧
      ((init_c63_enc sample_tables 524288 1048576).uph / 8) * ((init_c63_enc sample_tables 524288 1048576).upw / 8) = 2 ^ 31) ∧
    ((init_c63_enc sample_tables 262144 1048576).mb_rows = 131072 ∧
      (init_c63_enc sample_tables 262144 1048576).mb_cols = 32768 ∧
      (init_c63_enc sample_tables 262144 1048576).mb_rows / 2 * (init_c63_enc sample_tables 262144 1048576).mb_cols = 2 ^ 31 ∧
      chroma_mb_expr (init_c63_enc sample_tables 262144 1048576) = -1073741824 ∧
      ((init_c63_enc sample_tables 262144 1048576).mb_rows / 2) * ((init_c63_enc sample_tables 262144 1048576).mb_cols / 2) = 1073741824 ∧
      ((init_c63_enc sample_tables 262144 1048576).uph / 8) * ((init_c63_enc sample_tables 262144 1048576).upw / 8) = 1073741824 ∧
      mul32 ((init_c63_enc sample_tables 262144 1048576).mb_rows / 2) ((init_c63_enc sample_tables 262144 1048576).mb_cols / 2) = 1073741824) := by
  decide

/-! ## C18: the read buffers -/

/-- For a raw dimension in `1 .. 2^24` the padded luma and chroma dimensions are
`16 x` and `8 x` with `w ≤ 16 x`. -/
theorem pad_covers (w : Nat) (h0 : 0 < w) (h : w ≤ 2 ^ 24) :
    ∃ x : Nat, w ≤ 16 * x ∧
      to_uint32 (ceil_div (f32_of_int (int_of_uint32 w)) 16 * 16) = 16 * x ∧
      to_uint32 (ceil_div (f32_of_int (int_of_uint32 w)) 16 * 8) = 8 * x := by
  have hi : int_of_uint32 w = (w : Int) := by
    unfold int_of_uint32
    have : w % 2 ^ 32 = w := Nat.mod_eq_of_lt (by omega)
    rw [this, if_pos (by omega)]
  rw [hi, f32_of_int_small (w : Int) (by omega) (by exact_mod_cast h)]
  refine ⟨(w + 15) / 16, by omega, ?_, ?_⟩
  · unfold to_uint32 ceil_div
    omega
  · unfold to_uint32 ceil_div
    omega

/-- In the ordinary range the buffers of `read_yuv` suffice: for every width and
height in `1 .. 2^24` (where the conversion of the `int` to `float` is exact)
whose padded luma plane has fewer than `2^31` samples (so that no product
leaves 32 bits), the counts that `read_yuv` passes to `fread` are at most the
sizes that it passes to `calloc`. -/
theorem read_buffers_suffice_in_range (T : Tables) (width height : Nat)
    (hw : 0 < width) (hw24 : width ≤ 2 ^ 24) (hh : 0 < height) (hh24 : height ≤ 2 ^ 24)
    (hfit : (init_c63_enc T (int_of_uint32 width) (int_of_uint32 height)).padw Y_COMPONENT
      * (init_c63_enc T (int_of_uint32 width) (int_of_uint32 height)).padh Y_COMPONENT < 2 ^ 31) :
    width * height % 2 ^ 32 ≤ plane_size (init_c63_enc T (int_of_uint32 width) (int_of_uint32 height)) Y_COMPONENT ∧
    width * height % 2 ^ 32 / 4 ≤ plane_size (init_c63_enc T (int_of_uint32 width) (int_of_uint32 height)) U_COMPONENT ∧
    width * height % 2 ^ 32 / 4 ≤ plane_size (init_c63_enc T (int_of_uint32 width) (int_of_uint32 height)) V_COMPONENT ∧
    width * height % 2 ^ 32 = width * height := by
  obtain ⟨x, hx, hx16, hx8⟩ := pad_covers width hw hw24
  obtain ⟨z, hz, hz16, hz8⟩ := pad_covers height hh hh24
  have h28 : (2 : Int) * 8 = 16 := by norm_num
  unfold plane_size
  simp only [init_c63_enc, c63_common_zero, set_at, UX, UY, VX, VY, YX, YY, mul_one, h28,
    hx16, hx8, hz16, hz8, Y_COMPONENT, U_COMPONENT, V_COMPONENT] at hfit ⊢
  simp only [if_true, if_false, Nat.one_ne_zero, OfNat.ofNat_ne_zero, OfNat.ofNat_ne_one,
    Nat.zero_ne_one, OfNat.zero_ne_ofNat, OfNat.one_ne_ofNat] at hfit ⊢
  have hprod : width * height ≤ 16 * x * (16 * z) := Nat.mul_le_mul hx hz
  have e : 16 * x * (16 * z) = 4 * (8 * x * (8 * z)) := by ring
  rw [count32_small _ _ hfit, count32_small (8 * x) (8 * z) (by omega)]
  generalize width * height = Q at hprod
  generalize 8 * x * (8 * z) = c at e
  rw [e] at hprod hfit
  generalize 16 * x * (16 * z) = b at e
  have m3 : Q % 2 ^ 32 = Q := Nat.mod_eq_of_lt (by omega)
  rw [e, m3]
  refine ⟨?_, ?_, ?_, rfl⟩ <;> omega

/-- What a successful `read_yuv` leaves in the luma plane: on a stream that
holds a whole frame, the plane starts with the `width*height` bytes read, and
its length is the larger of that count and the size of the buffer. -/
theorem read_yuv_stores (width height : Nat) (cm : c63_common) (file : FILE)
    (hdiv : width * height % 2 ^ 32 % 4 = 0) (he : file.eof = false)
    (hlen : file.pos + frame_bytes width height ≤ file.data.length) :
    ∃ img, (read_yuv width height file cm).1 = some img ∧
      img.Y = store (List.replicate (plane_size cm Y_COMPONENT) 0)
        ((file.data.drop file.pos).take (width * height % 2 ^ 32)) ∧
      img.Y.length = max (width * height % 2 ^ 32) (plane_size cm Y_COMPONENT) := by
  unfold frame_bytes at hlen
  unfold read_yuv fread store
  generalize width * height % 2 ^ 32 = P at hdiv hlen
  have h1 : P ≤ file.data.length - file.pos := by omega
  have h2 : P / 4 ≤ file.data.length - (file.pos + P) := by omega
  have h3 : P / 4 ≤ file.data.length - (file.pos + P + P / 4) := by omega
  simp only [h1, h2, h3, if_true, he]
  simp only [List.length_take, List.length_drop]
  have e1 : min P (file.data.length - file.pos) = P := by omega
  have e2 : min (P / 4) (file.data.length - (file.pos + P)) = P / 4 := by omega
  have e3 : min (P / 4) (file.data.length - (file.pos + P + P / 4)) = P / 4 := by omega
  rw [e1, e2, e3]
  have e4 : ¬ (2 * (0 + P + P / 4 + P / 4) ≠ 3 * P) := by omega
  simp only [e4, if_false, Bool.false_eq_true]
  refine ⟨_, rfl, rfl, ?_⟩
  simp only [List.length_append, List.length_take, List.length_drop, List.length_replicate]
  omega

/-- C18, the code at the failing input: for width 65535 and height 65536 the
padded luma plane is 65536 x 65536, the product `padw[Y]*padh[Y]` formed in 32
bits is 0, so `read_yuv` allocates 0 bytes for the plane, while it asks `fread`
for `width*height = 4294901760` bytes; on every stream that holds a whole frame
`read_yuv` returns an image whose luma plane has received those 4294901760
bytes. The same happens through the padding in single precision: for width
`2^24 + 1` and height 16 the plane has 268435456 bytes and receives
268435472. -/
theorem read_yuv_overrun :
    ((init_c63_enc sample_tables (int_of_uint32 65535) (int_of_uint32 65536)).padw Y_COMPONENT = 65536 ∧
      (init_c63_enc sample_tables (int_of_uint32 65535) (int_of_uint32 65536)).padh Y_COMPONENT = 65536 ∧
      plane_size (init_c63_enc sample_tables (int_of_uint32 65535) (int_of_uint32 65536)) Y_COMPONENT = 0 ∧
      65535 * 65536 % 2 ^ 32 = 4294901760 ∧
      ∀ file : FILE, file.eof = false →
        file.pos + frame_bytes 65535 65536 ≤ file.data.length →
        ∃ img, (read_yuv 65535 65536 file (init_c63_enc sample_tables (int_of_uint32 65535) (int_of_uint32 65536))).1 = some img ∧
          img.Y = (file.data.drop file.pos).take 4294901760 ∧
          img.Y.length = 4294901760) ∧
    ((init_c63_enc sample_tables (int_of_uint32 16777217) (int_of_uint32 16)).padw Y_COMPONENT = 16777216 ∧
      plane_size (init_c63_enc sample_tables (int_of_uint32 16777217) (int_of_uint32 16)) Y_COMPONENT = 268435456 ∧
      16777217 * 16 % 2 ^ 32 = 268435472 ∧
      ∀ file : FILE, file.eof = false →
        file.pos + frame_bytes 16777217 16 ≤ file.data.length →
        ∃ img, (read_yuv 16777217 16 file (init_c63_enc sample_tables (int_of_uint32 16777217) (int_of_uint32 16))).1 = some img ∧
          img.Y.length = 268435472) := by
  have pa : plane_size (init_c63_enc sample_tables (int_of_uint32 65535) (int_of_uint32 65536)) Y_COMPONENT = 0 := by decide
  have pb : plane_size (init_c63_enc sample_tables (int_of_uint32 16777217) (int_of_uint32 16)) Y_COMPONENT = 268435456 := by decide
  refine ⟨⟨by decide, by decide, pa, by decide, ?_⟩, ⟨by decide, pb, by decide, ?_⟩⟩
  · intro file he hlen
    obtain ⟨img, h1, h2, h3⟩ := read_yuv_stores 65535 65536 (init_c63_enc sample_tables (int_of_uint32 65535) (int_of_uint32 65536)) file (by decide) he hlen
    rw [pa] at h2 h3
    refine ⟨img, h1, ?_, ?_⟩
    · rw [h2]
      simp [store]
    · rw [h3]
      decide
  · intro file he hlen
    obtain ⟨img, h1, -, h3⟩ := read_yuv_stores 16777217 16 (init_c63_enc sample_tables (int_of_uint32 16777217) (int_of_uint32 16)) file (by decide) he hlen
    rw [pb] at h3
    refine ⟨img, h1, ?_⟩
    rw [h3]
    decide

/-! ## C19: frame sizes that are not a multiple of 4 -/

/-- A call of `fread` that leaves the end-of-file indicator clear found it clear
and delivered all the bytes asked for. -/
theorem fread_clear (n : Nat) (file : FILE) (h : (fread n file).2.eof = false) :
    file.eof = false ∧ (fread n file).1.length = n := by
  unfold fread at h ⊢
  by_cases hn : n ≤ file.data.length - file.pos
  · simp only [hn, if_true] at h ⊢
    refine ⟨h, ?_⟩
    simp only [List.length_take, List.length_drop]
    omega
  · simp [hn] at h

/-- Whatever the stream, `read_yuv` returns an image only if the three reads
delivered `3/2` times `width*height` bytes, which needs `width*height` to be a
multiple of 4. -/
theorem read_yuv_some (width height : Nat) (cm : c63_common) (file : FILE)
    (h : (read_yuv width height file cm).1 ≠ none) : width * height % 2 ^ 32 % 4 = 0 := by
  unfold read_yuv at h
  simp only [] at h
  generalize width * height % 2 ^ 32 = P at h ⊢
  by_cases he : (fread (P / 4) (fread (P / 4) (fread P file).2).2).2.eof = true
  · simp [he] at h
  · have he' : (fread (P / 4) (fread (P / 4) (fread P file).2).2).2.eof = false := by
      simpa using he
    obtain ⟨e2, l3⟩ := fread_clear _ _ he'
    obtain ⟨e1, l2⟩ := fread_clear _ _ e2
    obtain ⟨-, l1⟩ := fread_clear _ _ e1
    rw [he'] at h
    simp only [Bool.false_eq_true, if_false, l1, l2, l3] at h
    by_contra hne
    apply h
    rw [if_pos (by omega)]

/-- On a stream that holds a whole frame, `read_yuv` consumes
`width*height + 2*((width*height)/4)` bytes and returns an image exactly when
that count is `3/2` times `width*height`. -/
theorem read_yuv_long (width height : Nat) (cm : c63_common) (file : FILE)
    (he : file.eof = false)
    (hlen : file.pos + frame_bytes width height ≤ file.data.length) :
    (read_yuv width height file cm).2 = { file with pos := file.pos + frame_bytes width height } ∧
    ((read_yuv width height file cm).1 ≠ none ↔
      2 * frame_bytes width height = 3 * (width * height % 2 ^ 32)) := by
  unfold frame_bytes at hlen ⊢
  unfold read_yuv fread
  generalize width * height % 2 ^ 32 = P at hlen ⊢
  have h1 : P ≤ file.data.length - file.pos := by omega
  have h2 : P / 4 ≤ file.data.length - (file.pos + P) := by omega
  have h3 : P / 4 ≤ file.data.length - (file.pos + P + P / 4) := by omega
  simp only [h1, h2, h3, if_true, he]
  simp only [List.length_take, List.length_drop]
  have e1 : min P (file.data.length - file.pos) = P := by omega
  have e2 : min (P / 4) (file.data.length - (file.pos + P)) = P / 4 := by omega
  have e3 : min (P / 4) (file.data.length - (file.pos + P + P / 4)) = P / 4 := by omega
  rw [e1, e2, e3]
  have e5 : file.pos + P + P / 4 + P / 4 = file.pos + (P + 2 * (P / 4)) := by omega
  rw [e5]
  by_cases hd : 2 * (0 + P + P / 4 + P / 4) ≠ 3 * P
  · rw [if_neg (by simp), if_pos hd]
    refine ⟨rfl, ?_⟩
    constructor
    · intro hc
      exact absurd rfl hc
    · intro hc
      omega
  · rw [if_neg (by simp), if_neg hd]
    refine ⟨rfl, ?_⟩
    constructor
    · intro _
      omega
    · intro _
      simp

/-- Without a readable frame the client stays without a frame. -/
theorem no_frame_client_step (cfg : ClientConfig) (s : System)
    (hodd : cfg.width * cfg.height % 2 ^ 32 % 4 ≠ 0) (h : NoFrame s) :
    NoFrame (client_step cfg s) := by
  obtain ⟨hpc, h1, h2, h3⟩ := h
  unfold client_step
  rcases hpc with hc | hc | hc | hc
  · simp only [hc]
    exact ⟨Or.inr (Or.inl rfl), h1, h2, h3⟩
  · simp only [hc]
    have hn : (read_yuv cfg.width cfg.height s.infile s.ccm).1 = none := by
      by_contra hne
      exact hodd (read_yuv_some _ _ _ _ hne)
    rw [hn]
    exact ⟨Or.inr (Or.inr (Or.inl rfl)), h1, h2, h3⟩
  · simp only [hc]
    exact ⟨Or.inr (Or.inr (Or.inr rfl)), h1, h2, h3⟩
  · simp only [hc]
    exact ⟨Or.inr (Or.inr (Or.inr hc)), h1, h2, h3⟩

/-- Server steps do not give the client a frame. -/
theorem no_frame_server_step (E : Externals) (s : System) (h : NoFrame s) :
    NoFrame (server_step E s) := by
  obtain ⟨hpc, h1, h2, h3⟩ := h
  unfold server_step
  cases hc : s.spc <;> simp only []
  case wait_cmd =>
    split_ifs <;> exact ⟨hpc, h1, h2, h3⟩
  case test_quit =>
    split_ifs <;> exact ⟨hpc, h1, h2, h3⟩
  case copy_result =>
    cases hf : s.scm.curframe <;> exact ⟨hpc, h1, h2, h3⟩
  all_goals exact ⟨hpc, h1, h2, h3⟩

/-- Along every schedule the invariants hold when frames cannot be read. -/
theorem no_frame_exec (E : Externals) (cfg : ClientConfig)
    (hodd : cfg.width * cfg.height % 2 ^ 32 % 4 ≠ 0) (l : List Actor) (s : System)
    (hI : Inv s) (h : NoFrame s) : Inv (exec E cfg s l) ∧ NoFrame (exec E cfg s l) := by
  induction l generalizing s with
  | nil => exact ⟨hI, h⟩
  | cons a l ih =>
    cases a
    · exact ih _ (inv_client_step cfg s hI) (no_frame_client_step cfg s hodd h)
    · exact ih _ (inv_server_step E s hI) (no_frame_server_step E s h)

/-- When frames cannot be read, the fair schedule brings both processes out of
their loops. -/
theorem no_frame_finishes (E : Externals) (cfg : ClientConfig)
    (hodd : cfg.width * cfg.height % 2 ^ 32 % 4 ≠ 0) :
    ∀ (k : Nat) (s : System), s.measure 0 ≤ k → Inv s → NoFrame s →
      ∃ n, (exec E cfg s (fair_schedule E cfg n s)).final := by
  intro k
  induction k with
  | zero =>
    intro s hk hI hF
    by_cases hfin : s.final
    · exact ⟨0, hfin⟩
    · have hb : s.hist.results_read + s.cpc.after_signal ≤ 0 := by
        rw [hF.results]
        rcases hF.pc with hc | hc | hc | hc <;> simp [hc, ClientPc.after_signal]
      have := progress E cfg 0 s hI hb hfin
      omega
  | succ k ih =>
    intro s hk hI hF
    by_cases hfin : s.final
    · exact ⟨0, hfin⟩
    · have hb : s.hist.results_read + s.cpc.after_signal ≤ 0 := by
        rw [hF.results]
        rcases hF.pc with hc | hc | hc | hc <;> simp [hc, ClientPc.after_signal]
      have hlt := progress E cfg 0 s hI hb hfin
      have hI' : Inv (step E cfg s.turn s) := by
        cases s.turn
        · exact inv_client_step cfg s hI
        · exact inv_server_step E s hI
      have hF' : NoFrame (step E cfg s.turn s) := by
        cases s.turn
        · exact no_frame_client_step cfg s hodd hF
        · exact no_frame_server_step E s hF
      obtain ⟨n, hn⟩ := ih (step E cfg s.turn s) (by omega) hI' hF'
      exact ⟨n + 1, hn⟩

/-- What the two invariants say about the counters when no frame was read. -/
theorem no_frame_counts (s : System) (hI : Inv s) (h : NoFrame s) :
    s.hist.done_sent = 0 ∧ s.hist.done_replied = 0 ∧ s.hist.encodes = 0 := by
  obtain ⟨hpc, h1, h2, h3⟩ := h
  have i3 := hI.done_sent
  have i7 := hI.encodes
  have i10 := hI.cross
  have hp : s.pending = 0 := by
    unfold System.pending
    rcases hpc with hc | hc | hc | hc <;> simp [hc]
  have hs : s.cpc.after_signal = 0 := by
    rcases hpc with hc | hc | hc | hc <;> simp [hc, ClientPc.after_signal]
  have hst : s.spc.past 4 = 0 := by
    by_cases hf : s.cpc = ClientPc.finished
    · rcases (hI.fin hf).2 with hc | hc | hc <;> simp [hc, ServerPc.past, ServerPc.stage]
    · simp [(hI.idle hp hf).1, ServerPc.past, ServerPc.stage]
  omega

/-- C19: `read_yuv` reads `width*height + 2*((width*height)/4)` bytes (when the
stream holds that many, it consumes exactly those) and returns an image exactly
when that count is `3/2` times `width*height`. So when `width*height` is not
divisible by 4, `read_yuv` returns `NULL` on every stream, and in every
interleaving with the server the client writes no frame into the raw segment,
submits none, hands none to the writer, the server encodes none, and both
processes can always run on until they have left their loops. When
`width*height` is divisible by 4 and the stream (end-of-file indicator clear)
still holds one full frame and one more byte, `read_yuv` returns an image. -/
theorem frame_size_multiple_of_four (E : Externals) (T : Tables) (cfg : ClientConfig)
    (hodd : cfg.width * cfg.height % 4 ≠ 0) :
    (∀ (width height : Nat) (file : FILE) (cm : c63_common), file.eof = false →
      file.pos + (width * height % 2 ^ 32 + 2 * (width * height % 2 ^ 32 / 4))
        ≤ file.data.length →
      (read_yuv width height file cm).2.pos
        = file.pos + (width * height % 2 ^ 32 + 2 * (width * height % 2 ^ 32 / 4)) ∧
      ((read_yuv width height file cm).1 ≠ none ↔
        2 * (width * height % 2 ^ 32 + 2 * (width * height % 2 ^ 32 / 4))
          = 3 * (width * height % 2 ^ 32))) ∧
    (∀ (file : FILE) (cm : c63_common), (read_yuv cfg.width cfg.height file cm).1 = none) ∧
    (∀ l : List Actor,
      (exec E cfg (System.start T cfg) l).hist.raw_writes = 0 ∧
      (exec E cfg (System.start T cfg) l).hist.done_sent = 0 ∧
      (exec E cfg (System.start T cfg) l).hist.encodes = 0 ∧
      (exec E cfg (System.start T cfg) l).written = []) ∧
    (∀ l : List Actor, ∃ k, (exec E cfg (System.start T cfg) (l ++ k)).final) ∧
    (∀ (width height : Nat) (file : FILE) (cm : c63_common),
      width * height % 4 = 0 → file.eof = false →
      file.pos + (width * height % 2 ^ 32 + 2 * (width * height % 2 ^ 32 / 4)) + 1
        ≤ file.data.length →
      (read_yuv width height file cm).1 ≠ none) := by
  have hodd' : cfg.width * cfg.height % 2 ^ 32 % 4 ≠ 0 := by omega
  have hstart : NoFrame (System.start T cfg) := ⟨Or.inl rfl, rfl, rfl, rfl⟩
  refine ⟨?_, ?_, ?_, ?_, ?_⟩
  · intro width height file cm he hlen
    obtain ⟨h1, h2⟩ := read_yuv_long width height cm file he hlen
    rw [h1]
    exact ⟨rfl, h2⟩
  · intro file cm
    by_contra hne
    exact hodd' (read_yuv_some _ _ _ _ hne)
  · intro l
    obtain ⟨hI, hF⟩ := no_frame_exec E cfg hodd' l _ (inv_start T cfg) hstart
    obtain ⟨c1, -, c3⟩ := no_frame_counts _ hI hF
    exact ⟨hF.writes, c1, c3, hF.written⟩
  · intro l
    obtain ⟨hI, hF⟩ := no_frame_exec E cfg hodd' l _ (inv_start T cfg) hstart
    obtain ⟨n, hn⟩ := no_frame_finishes E cfg hodd' _ _ (le_refl _) hI hF
    exact ⟨_, by rw [exec_append]; exact hn⟩
  · intro width height file cm hdiv he hlen
    have hd : width * height % 2 ^ 32 % 4 = 0 := by omega
    obtain ⟨img, himg⟩ := read_yuv_full width height cm file hd he
      (by unfold frame_bytes; omega)
    rw [himg]
    simp

/-- Witness for C19: 2 x 1 frames, whose size 2 is not a multiple of 4. -/
theorem frame_size_multiple_of_four_witness :
    odd_config.width * odd_config.height % 4 ≠ 0 ∧
    ((∀ (width height : Nat) (file : FILE) (cm : c63_common), file.eof = false →
      file.pos + (width * height % 2 ^ 32 + 2 * (width * height % 2 ^ 32 / 4))
        ≤ file.data.length →
      (read_yuv width height file cm).2.pos
        = file.pos + (width * height % 2 ^ 32 + 2 * (width * height % 2 ^ 32 / 4)) ∧
      ((read_yuv width height file cm).1 ≠ none ↔
        2 * (width * height % 2 ^ 32 + 2 * (width * height % 2 ^ 32 / 4))
          = 3 * (width * height % 2 ^ 32))) ∧
    (∀ (file : FILE) (cm : c63_common),
      (read_yuv odd_config.width odd_config.height file cm).1 = none) ∧
    (∀ l : List Actor,
      (exec sample_externals odd_config (System.start sample_tables odd_config)
        l).hist.raw_writes = 0 ∧
      (exec sample_externals odd_config (System.start sample_tables odd_config)
        l).hist.done_sent = 0 ∧
      (exec sample_externals odd_config (System.start sample_tables odd_config)
        l).hist.encodes = 0 ∧
      (exec sample_externals odd_config (System.start sample_tables odd_config)
        l).written = []) ∧
    (∀ l : List Actor, ∃ k, (exec sample_externals odd_config
      (System.start sample_tables odd_config) (l ++ k)).final) ∧
    (∀ (width height : Nat) (file : FILE) (cm : c63_common),
      width * height % 4 = 0 → file.eof = false →
      file.pos + (width * height % 2 ^ 32 + 2 * (width * height % 2 ^ 32 / 4)) + 1
        ≤ file.data.length →
      (read_yuv width height file cm).1 ≠ none)) :=
  ⟨by decide, frame_size_multiple_of_four sample_externals sample_tables odd_config (by decide)⟩

/-! ## C11: shutdown on the server -/

/-- A client step leaves the server's share of the state alone. -/
theorem client_step_same_server (cfg : ClientConfig) (s : System) :
    SameServer s (client_step cfg s) := by
  unfold client_step
  cases hc : s.cpc <;> simp only []
  case read_frame =>
    cases hr : (read_yuv cfg.width cfg.height s.infile s.ccm).1 <;> constructor <;> rfl
  case copy_raw =>
    cases hi : s.image <;> constructor <;> rfl
  case copy_result =>
    cases hf : s.ccm.curframe <;> constructor <;> rfl
  case wait_done =>
    split_ifs <;> constructor <;> rfl
  case write_frame =>
    split_ifs <;> constructor <;> rfl
  all_goals constructor <;> rfl

/-- Once the server has left its loop, no schedule changes its share of the
state. -/
theorem finished_server_stays (E : Externals) (cfg : ClientConfig) (k : List Actor) :
    ∀ s : System, s.spc = ServerPc.finished → SameServer s (exec E cfg s k) := by
  induction k with
  | nil =>
    intro s _
    constructor <;> rfl
  | cons a k ih =>
    intro s hs
    cases a with
    | client =>
      have h1 := client_step_same_server cfg s
      have h2 := ih (client_step cfg s) (by rw [h1.spc]; exact hs)
      simp only [exec, step]
      constructor
      · rw [h2.spc, h1.spc]
      · rw [h2.scm, h1.scm]
      · rw [h2.simage, h1.simage]
      · rw [h2.server_result, h1.server_result]
      · rw [h2.client_result, h1.client_result]
      · rw [h2.done_seen, h1.done_seen]
      · rw [h2.acks, h1.acks]
      · rw [h2.raw_reads, h1.raw_reads]
      · rw [h2.encodes, h1.encodes]
      · rw [h2.results_copied, h1.results_copied]
      · rw [h2.result_dmas, h1.result_dmas]
      · rw [h2.done_replied, h1.done_replied]
    | server =>
      have h1 : server_step E s = s := by
        unfold server_step
        rw [hs]
      simp only [exec, step, h1]
      exact ih s hs

/-- C11: when the server, at the test at the top of its loop, reads `CMD_QUIT`
from its command cell, its next step leaves the loop, and whatever the two
processes do afterwards the server stays out of it: `c63_encode_image` is not
called again (the count of encodes stays), neither result segment is written
(their contents and the counts of result copies and result DMAs stay), the
codec state with `framenum` and `frames_since_keyframe` stays, and no
`CMD_DONE` is written to the client. The number of frames the server has
encoded, then and for ever after, equals the number of `CMD_DONE` commands
that it has observed, all of them before the `CMD_QUIT`: what the server
reads at that test is always `CMD_DONE` or `CMD_QUIT`, and each `CMD_DONE`
read there is counted. -/
theorem quit_stops_server (E : Externals) (T : Tables) (cfg : ClientConfig)
    (l k : List Actor)
    (hpc : (exec E cfg (System.start T cfg) l).spc = ServerPc.test_quit)
    (hq : (exec E cfg (System.start T cfg) l).server_cell.cmd = Cmd.CMD_QUIT) :
    (exec E cfg (System.start T cfg) (l ++ [Actor.server])).spc = ServerPc.finished ∧
    (exec E cfg (System.start T cfg) (l ++ Actor.server :: k)).spc = ServerPc.finished ∧
    (exec E cfg (System.start T cfg) (l ++ Actor.server :: k)).hist.encodes
      = (exec E cfg (System.start T cfg) l).hist.encodes ∧
    (exec E cfg (System.start T cfg) (l ++ Actor.server :: k)).hist.results_copied
      = (exec E cfg (System.start T cfg) l).hist.results_copied ∧
    (exec E cfg (System.start T cfg) (l ++ Actor.server :: k)).hist.result_dmas
      = (exec E cfg (System.start T cfg) l).hist.result_dmas ∧
    (exec E cfg (System.start T cfg) (l ++ Actor.server :: k)).server_result
      = (exec E cfg (System.start T cfg) l).server_result ∧
    (exec E cfg (System.start T cfg) (l ++ Actor.server :: k)).client_result
      = (exec E cfg (System.start T cfg) l).client_result ∧
    (exec E cfg (System.start T cfg) (l ++ Actor.server :: k)).scm
      = (exec E cfg (System.start T cfg) l).scm ∧
    (exec E cfg (System.start T cfg) (l ++ Actor.server :: k)).scm.framenum
      = (exec E cfg (System.start T cfg) l).scm.framenum ∧
    (exec E cfg (System.start T cfg) (l ++ Actor.server :: k)).scm.frames_since_keyframe
      = (exec E cfg (System.start T cfg) l).scm.frames_since_keyframe ∧
    (exec E cfg (System.start T cfg) (l ++ Actor.server :: k)).hist.done_replied
      = (exec E cfg (System.start T cfg) l).hist.done_replied ∧
    (exec E cfg (System.start T cfg) (l ++ Actor.server :: k)).hist.done_seen
      = (exec E cfg (System.start T cfg) l).hist.done_seen ∧
    (exec E cfg (System.start T cfg) l).hist.encodes
      = (exec E cfg (System.start T cfg) l).hist.done_seen ∧
    (exec E cfg (System.start T cfg) (l ++ Actor.server :: k)).hist.encodes
      = (exec E cfg (System.start T cfg) (l ++ Actor.server :: k)).hist.done_seen ∧
    (∀ m : List Actor, (exec E cfg (System.start T cfg) m).spc = ServerPc.test_quit →
      (exec E cfg (System.start T cfg) m).server_cell.cmd = Cmd.CMD_DONE ∨
      (exec E cfg (System.start T cfg) m).server_cell.cmd = Cmd.CMD_QUIT) := by
  have hobs : ∀ m : List Actor,
      (exec E cfg (System.start T cfg) m).spc = ServerPc.test_quit →
      (exec E cfg (System.start T cfg) m).server_cell.cmd = Cmd.CMD_DONE ∨
      (exec E cfg (System.start T cfg) m).server_cell.cmd = Cmd.CMD_QUIT := by
    intro m hm
    have hi : Inv (exec E cfg (System.start T cfg) m) :=
      inv_reachable E T cfg _ (reachable_exec E T cfg m _ Reachable.start)
    generalize exec E cfg (System.start T cfg) m = u at hm hi ⊢
    rcases pending_cases u with hp | hp
    · right
      by_cases hc : u.cpc = ClientPc.finished
      · exact (hi.fin hc).1
      · have h := (hi.idle hp.1 hc).1
        rw [hm] at h
        cases h
    · left
      have h := hi.busy hp.1
      rw [hm] at h
      exact h
  have hinv : Inv (exec E cfg (System.start T cfg) l) :=
    inv_reachable E T cfg _ (reachable_exec E T cfg l _ Reachable.start)
  rw [exec_append, exec_append]
  generalize exec E cfg (System.start T cfg) l = s at hpc hq hinv ⊢
  have hstep : server_step E s = { s with spc := ServerPc.finished } := by
    unfold server_step
    rw [hpc]
    simp only [hq, if_true]
  have hfin : (server_step E s).spc = ServerPc.finished := by rw [hstep]
  have hk := finished_server_stays E cfg k (server_step E s) hfin
  have henc : s.hist.encodes = s.hist.done_seen := by
    have h1 := hinv.encodes
    have h2 := hinv.done_seen
    rw [hpc] at h1 h2
    simp only [ServerPc.past, ServerPc.stage] at h1 h2
    norm_num at h1 h2
    omega
  simp only [exec, step]
  refine ⟨hfin, ?_, ?_, ?_, ?_, ?_, ?_, ?_, ?_, ?_, ?_, ?_, henc, ?_, hobs⟩
  · rw [hk.spc, hfin]
  · rw [hk.encodes, hstep]
  · rw [hk.results_copied, hstep]
  · rw [hk.result_dmas, hstep]
  · rw [hk.server_result, hstep]
  · rw [hk.client_result, hstep]
  · rw [hk.scm, hstep]
  · rw [hk.scm, hstep]
  · rw [hk.scm, hstep]
  · rw [hk.done_replied, hstep]
  · rw [hk.done_seen, hstep]
  · rw [hk.encodes, hk.done_seen, hstep]
    exact henc

/-- Witness for C11: the capped sample run; the client sends `CMD_QUIT` after
its only frame, the server reads it, and one frame has been encoded. -/
theorem quit_stops_server_witness :
    ((exec sample_externals sample_config_capped
        (System.start sample_tables sample_config_capped) sample_to_quit).spc
      = ServerPc.test_quit ∧
    (exec sample_externals sample_config_capped
        (System.start sample_tables sample_config_capped) sample_to_quit).server_cell.cmd
      = Cmd.CMD_QUIT ∧
    (exec sample_externals sample_config_capped
        (System.start sample_tables sample_config_capped) sample_to_quit).hist.encodes = 1) ∧
    (exec sample_externals sample_config_capped (System.start sample_tables sample_config_capped)
        (sample_to_quit ++ Actor.server :: [Actor.server, Actor.client, Actor.server])).hist.encodes
      = (exec sample_externals sample_config_capped
        (System.start sample_tables sample_config_capped)
        (sample_to_quit ++ Actor.server :: [Actor.server, Actor.client, Actor.server])).hist.done_seen :=
  ⟨⟨by decide, by decide, by decide⟩,
    (quit_stops_server sample_externals sample_tables sample_config_capped sample_to_quit
      [Actor.server, Actor.client, Actor.server] (by decide)
      (by decide)).2.2.2.2.2.2.2.2.2.2.2.2.2.1⟩

/-! ## C12: the raw frame shuttle -/

/-- Reading back a region that holds the bytes of a list gives the list. -/
theorem read_back (l : List Nat) (m : Nat → Nat) (off : Nat)
    (h : ∀ i, i < l.length → m (off + i) = l.getD i 0) :
    (List.range l.length).map (fun i => m (off + i)) = l := by
  apply List.ext_getElem
  · simp
  · intro i h1 h2
    simp only [List.getElem_map, List.getElem_range]
    rw [h i h2, List.getD_eq_getElem _ _ h2]

/-- The raw shuttle for two codec states of the same plane sizes. -/
theorem raw_shuttle_eq (abi : Abi) (ccm scm : c63_common) (image scratch : yuv_t)
    (client_seg server_seg : Nat → Nat) (hp : 1 ≤ abi.sizeof_pointer)
    (hw : scm.padw = ccm.padw) (hh : scm.padh = ccm.padh)
    (hY : image.Y.length = plane_size ccm Y_COMPONENT)
    (hU : image.U.length = plane_size ccm U_COMPONENT)
    (hV : image.V.length = plane_size ccm V_COMPONENT)
    (sY : scratch.Y.length = plane_size scm Y_COMPONENT)
    (sU : scratch.U.length = plane_size scm U_COMPONENT)
    (sV : scratch.V.length = plane_size scm V_COMPONENT) :
    raw_shuttle abi ccm scm image client_seg server_seg scratch = some image := by
  have hps : ∀ c, plane_size scm c = plane_size ccm c := by
    intro c
    unfold plane_size
    rw [hw, hh]
  have hoff : ∀ c, offsetof_img_segment abi scm c = offsetof_img_segment abi ccm c := by
    intro c
    unfold offsetof_img_segment
    simp only [hps]
  have hsz : sizeof_img_segment abi scm = sizeof_img_segment abi ccm := by
    unfold sizeof_img_segment
    simp only [hps]
  rw [hps] at sY sU sV
  have ha : plane_size ccm Y_COMPONENT ≤ abi.sizeof_pointer * plane_size ccm Y_COMPONENT :=
    Nat.le_mul_of_pos_left _ hp
  have hb : plane_size ccm U_COMPONENT ≤ abi.sizeof_pointer * plane_size ccm U_COMPONENT :=
    Nat.le_mul_of_pos_left _ hp
  have hc : plane_size ccm V_COMPONENT ≤ abi.sizeof_pointer * plane_size ccm V_COMPONENT :=
    Nat.le_mul_of_pos_left _ hp
  unfold raw_shuttle client_copy_raw server_copy_raw
  rw [hsz]
  simp only [hoff, hps]
  unfold memcpy_to_segment memcpy_from_segment SCIStartDmaTransfer sizeof_img_segment
    offsetof_img_segment
  generalize plane_size ccm Y_COMPONENT = a at *
  generalize plane_size ccm U_COMPONENT = b at *
  generalize plane_size ccm V_COMPONENT = c at *
  generalize abi.sizeof_pointer = p at *
  generalize hA : p * a = A at *
  generalize hB : p * b = B at *
  generalize hC : p * c = C at *
  have n10 : ((1 : Nat) = 0) = False := by simp
  have n20 : ((2 : Nat) = 0) = False := by simp
  have n21 : ((2 : Nat) = 1) = False := by simp
  simp only [U_COMPONENT, Y_COMPONENT, V_COMPONENT, if_true, if_false, n10, n20, n21, zero_add,
    Nat.sub_zero, Nat.zero_le, true_and]
  rw [if_pos ⟨by omega, by omega⟩, Option.some_bind, if_pos ⟨by omega, by omega⟩,
    Option.some_bind, if_pos ⟨by omega, by omega⟩, Option.some_bind,
    if_pos ⟨by omega, by omega⟩, Option.some_bind, if_pos ⟨by omega, by omega⟩,
    Option.some_bind, if_pos ⟨by omega, by omega⟩, Option.some_bind]
  rw [← sY, List.drop_length, ← sU, List.drop_length, ← sV, List.drop_length]
  simp only [List.append_nil]
  rw [sY, sU, sV]
  have eY : List.map (fun i => if i < A + B + C then
      (if A + B ≤ i ∧ i < A + B + c then image.V.getD (i - (A + B)) 0
        else if A ≤ i ∧ i < A + b then image.U.getD (i - A) 0
        else if i < a then image.Y.getD i 0 else client_seg i)
      else server_seg i) (List.range a) = image.Y := by
    have h := read_back image.Y (fun i => if i < A + B + C then
      (if A + B ≤ i ∧ i < A + B + c then image.V.getD (i - (A + B)) 0
        else if A ≤ i ∧ i < A + b then image.U.getD (i - A) 0
        else if i < a then image.Y.getD i 0 else client_seg i)
      else server_seg i) 0 (by
        intro i hi
        simp only [zero_add]
        rw [if_pos (by omega), if_neg (by omega), if_neg (by omega), if_pos (by omega)])
    simp only [zero_add] at h
    rw [hY] at h
    exact h
  have eU : List.map (fun i => if A + i < A + B + C then
      (if A + B ≤ A + i ∧ A + i < A + B + c then image.V.getD (A + i - (A + B)) 0
        else if A ≤ A + i ∧ A + i < A + b then image.U.getD (A + i - A) 0
        else if A + i < a then image.Y.getD (A + i) 0 else client_seg (A + i))
      else server_seg (A + i)) (List.range b) = image.U := by
    have h := read_back image.U (fun i => if i < A + B + C then
      (if A + B ≤ i ∧ i < A + B + c then image.V.getD (i - (A + B)) 0
        else if A ≤ i ∧ i < A + b then image.U.getD (i - A) 0
        else if i < a then image.Y.getD i 0 else client_seg i)
      else server_seg i) A (by
        intro i hi
        simp only []
        rw [if_pos (by omega), if_neg (by omega), if_pos (by omega), Nat.add_sub_cancel_left])
    rw [hU] at h
    exact h
  have eV : List.map (fun i => if A + B + i < A + B + C then
      (if A + B ≤ A + B + i ∧ A + B + i < A + B + c then image.V.getD (A + B + i - (A + B)) 0
        else if A ≤ A + B + i ∧ A + B + i < A + b then image.U.getD (A + B + i - A) 0
        else if A + B + i < a then image.Y.getD (A + B + i) 0 else client_seg (A + B + i))
      else server_seg (A + B + i)) (List.range c) = image.V := by
    have h := read_back image.V (fun i => if i < A + B + C then
      (if A + B ≤ i ∧ i < A + B + c then image.V.getD (i - (A + B)) 0
        else if A ≤ i ∧ i < A + b then image.U.getD (i - A) 0
        else if i < a then image.Y.getD i 0 else client_seg i)
      else server_seg i) (A + B) (by
        intro i hi
        simp only []
        rw [if_pos (by omega), if_pos (by omega), Nat.add_sub_cancel_left])
    rw [hV] at h
    exact h
  rw [eY, eU, eV]

/-- C12: in every state that the two programs reach, hence for every frame,
and whatever the two raw segments and the server's scratch image held before:
an image with planes of the sizes `padw[c]*padh[c]` (the products as the code
forms them, in 32 bits: the sizes of its buffers), copied by the client's three
`memcpy` calls into its raw segment, transferred by a DMA that copies the whole
segment, and copied by the server's three `memcpy` calls into its scratch
image (buffers of the sizes of the server's geometry), arrives byte for byte:
every copy stays inside its array and inside the segment, and the scratch
image equals the client's image. Inside the segment the region of `Y` starts
at offset 0, ends before the region of `U` starts, which ends before the
region of `V` starts, which ends inside the segment; the server uses the same
offsets and the same segment size. While a product `padw[c]*padh[c]` is below
`2^31`, the size is the exact product. A pointer is taken to occupy at least
one byte. -/
theorem raw_frame_round_trip (abi : Abi) (E : Externals) (T : Tables) (cfg : ClientConfig)
    (l : List Actor) (image scratch : yuv_t) (client_seg server_seg : Nat → Nat)
    (hp : 1 ≤ abi.sizeof_pointer)
    (hY : image.Y.length = plane_size (reach E T cfg l).ccm Y_COMPONENT)
    (hU : image.U.length = plane_size (reach E T cfg l).ccm U_COMPONENT)
    (hV : image.V.length = plane_size (reach E T cfg l).ccm V_COMPONENT)
    (sY : scratch.Y.length = plane_size (reach E T cfg l).scm Y_COMPONENT)
    (sU : scratch.U.length = plane_size (reach E T cfg l).scm U_COMPONENT)
    (sV : scratch.V.length = plane_size (reach E T cfg l).scm V_COMPONENT) :
    raw_shuttle abi (reach E T cfg l).ccm (reach E T cfg l).scm image client_seg server_seg
      scratch = some image ∧
    (offsetof_img_segment abi (reach E T cfg l).ccm Y_COMPONENT = 0 ∧
      offsetof_img_segment abi (reach E T cfg l).ccm Y_COMPONENT
          + plane_size (reach E T cfg l).ccm Y_COMPONENT
        ≤ offsetof_img_segment abi (reach E T cfg l).ccm U_COMPONENT ∧
      offsetof_img_segment abi (reach E T cfg l).ccm U_COMPONENT
          + plane_size (reach E T cfg l).ccm U_COMPONENT
        ≤ offsetof_img_segment abi (reach E T cfg l).ccm V_COMPONENT ∧
      offsetof_img_segment abi (reach E T cfg l).ccm V_COMPONENT
          + plane_size (reach E T cfg l).ccm V_COMPONENT
        ≤ sizeof_img_segment abi (reach E T cfg l).ccm) ∧
    (offsetof_img_segment abi (reach E T cfg l).scm Y_COMPONENT
        = offsetof_img_segment abi (reach E T cfg l).ccm Y_COMPONENT ∧
      offsetof_img_segment abi (reach E T cfg l).scm U_COMPONENT
        = offsetof_img_segment abi (reach E T cfg l).ccm U_COMPONENT ∧
      offsetof_img_segment abi (reach E T cfg l).scm V_COMPONENT
        = offsetof_img_segment abi (reach E T cfg l).ccm V_COMPONENT ∧
      sizeof_img_segment abi (reach E T cfg l).scm
        = sizeof_img_segment abi (reach E T cfg l).ccm) ∧
    (∀ c, (reach E T cfg l).ccm.padw c * (reach E T cfg l).ccm.padh c < 2 ^ 31 →
      plane_size (reach E T cfg l).ccm c = (reach E T cfg l).ccm.padw c * (reach E T cfg l).ccm.padh c) := by
  have hg := reach_geometry E T cfg l
  generalize (reach E T cfg l).ccm = ccm at *
  generalize (reach E T cfg l).scm = scm at *
  refine ⟨raw_shuttle_eq abi ccm scm image scratch client_seg server_seg hp hg.padw hg.padh
    hY hU hV sY sU sV, ?_, ?_, fun c hc => count32_small _ _ hc⟩
  · have ha : plane_size ccm Y_COMPONENT ≤ abi.sizeof_pointer * plane_size ccm Y_COMPONENT :=
      Nat.le_mul_of_pos_left _ hp
    have hb : plane_size ccm U_COMPONENT ≤ abi.sizeof_pointer * plane_size ccm U_COMPONENT :=
      Nat.le_mul_of_pos_left _ hp
    have hc : plane_size ccm V_COMPONENT ≤ abi.sizeof_pointer * plane_size ccm V_COMPONENT :=
      Nat.le_mul_of_pos_left _ hp
    unfold offsetof_img_segment sizeof_img_segment
    have n10 : ((1 : Nat) = 0) = False := by simp
    have n20 : ((2 : Nat) = 0) = False := by simp
    have n21 : ((2 : Nat) = 1) = False := by simp
    simp only [U_COMPONENT, Y_COMPONENT, V_COMPONENT, if_true, if_false, n10, n20, n21]
      at ha hb hc ⊢
    refine ⟨trivial, ?_, ?_, ?_⟩ <;> omega
  · unfold offsetof_img_segment sizeof_img_segment plane_size
    rw [hg.padw, hg.padh]
    exact ⟨rfl, rfl, rfl, rfl⟩

set_option maxRecDepth 100000 in
/-- Witness for C12: the sample run at the point where the client is about to
copy frame 0 into its raw segment, on nodes with 8-byte pointers, with a
16 x 16 image (256 luma and 64 + 64 chroma bytes) and segments and scratch
buffers that hold zeros. -/
theorem raw_frame_round_trip_witness :
    (1 ≤ lp64.sizeof_pointer ∧
      sample_image.Y.length = plane_size sample_at_copy.ccm Y_COMPONENT ∧
      sample_image.U.length = plane_size sample_at_copy.ccm U_COMPONENT ∧
      sample_image.V.length = plane_size sample_at_copy.ccm V_COMPONENT ∧
      (zero_image sample_at_copy.scm).Y.length = plane_size sample_at_copy.scm Y_COMPONENT ∧
      (zero_image sample_at_copy.scm).U.length = plane_size sample_at_copy.scm U_COMPONENT ∧
      (zero_image sample_at_copy.scm).V.length = plane_size sample_at_copy.scm V_COMPONENT) ∧
    raw_shuttle lp64 sample_at_copy.ccm sample_at_copy.scm sample_image (fun _ => 0) (fun _ => 0)
      (zero_image sample_at_copy.scm) = some sample_image ∧
    plane_size sample_at_copy.ccm Y_COMPONENT = 256 ∧
    plane_size sample_at_copy.ccm U_COMPONENT = 64 ∧
    plane_size sample_at_copy.ccm V_COMPONENT = 64 :=
  ⟨⟨by decide, by decide, by decide, by decide, by decide, by decide, by decide⟩,
    (raw_frame_round_trip lp64 sample_externals sample_tables sample_config sample_to_copy
      sample_image (zero_image sample_at_copy.scm) (fun _ => 0) (fun _ => 0) (by decide) (by decide)
      (by decide) (by decide) (by decide) (by decide) (by decide)).1,
    by decide, by decide, by decide⟩

/-! ## C13: the result frame shuttle -/

/-- What a copy into a segment leaves behind: the source bytes in its region,
every other byte as before. -/
theorem memcpy_to_segment_spec (seg : Nat → Nat) (size off : Nat) (src : List Nat) (n : Nat)
    (h1 : off + n ≤ size) (h2 : src.length = n) :
    ∃ out, memcpy_to_segment seg size off src n = some out ∧
      (∀ i, i < n → out (off + i) = src.getD i 0) ∧
      (∀ a, a < off ∨ off + n ≤ a → out a = seg a) := by
  refine ⟨_, if_pos ⟨h1, by omega⟩, ?_, ?_⟩
  · intro i hi
    rw [if_pos ⟨by omega, by omega⟩, Nat.add_sub_cancel_left]
  · intro a ha
    rw [if_neg (by omega)]

/-- A copy out of a segment region that holds the bytes of `src` into an array
of the same size gives `src`. -/
theorem memcpy_from_segment_spec (dst src : List Nat) (seg : Nat → Nat) (size off n : Nat)
    (h1 : off + n ≤ size) (h2 : dst.length = n) (h3 : src.length = n)
    (h : ∀ i, i < n → seg (off + i) = src.getD i 0) :
    memcpy_from_segment dst seg size off n = some src := by
  unfold memcpy_from_segment
  rw [if_pos ⟨h1, by omega⟩, ← h2, List.drop_length, List.append_nil, h2, ← h3]
  rw [read_back src seg off (by rw [h3]; exact h)]

/-- The result shuttle for two codec states of the same geometry. -/
theorem result_shuttle_eq (abi : Abi) (scm ccm : c63_common) (f g : frame_arrays)
    (server_seg client_seg : result_memory) (hg : SameGeometry scm ccm)
    (hmb : abi.sizeof_macroblock ≤ abi.sizeof_pointer) (hp2 : 2 ≤ abi.sizeof_pointer)
    (hle : chroma_mb_count scm ≤ luma_mb_count scm)
    (hf : FrameAllocated abi scm f) (hc : FrameAllocated abi ccm g) :
    ∃ out, result_shuttle abi scm ccm f server_seg client_seg g = some out ∧
      out.keyframe = f.keyframe ∧
      out.mbs Y_COMPONENT = f.mbs Y_COMPONENT ∧
      out.mbs U_COMPONENT = f.mbs U_COMPONENT ∧
      out.mbs V_COMPONENT = f.mbs V_COMPONENT ∧
      out.Ydct = f.Ydct ∧ out.Udct = f.Udct ∧ out.Vdct = f.Vdct := by
  have c1 : chroma_mb_count ccm = chroma_mb_count scm := by
    unfold chroma_mb_count chroma_mb_expr
    rw [hg.mb_rows, hg.mb_cols]
  have c2 : ∀ c, offsetof_mbs abi ccm c = offsetof_mbs abi scm c := by
    intro c
    unfold offsetof_mbs luma_mb_count
    rw [hg.mb_rows, hg.mb_cols]
  have c3 : offsetof_Ydct abi ccm = offsetof_Ydct abi scm := by
    unfold offsetof_Ydct luma_mb_count
    rw [hg.mb_rows, hg.mb_cols]
  have c4 : offsetof_Udct abi ccm = offsetof_Udct abi scm := by
    unfold offsetof_Udct
    rw [c3, hg.ypw, hg.yph]
  have c5 : offsetof_Vdct abi ccm = offsetof_Vdct abi scm := by
    unfold offsetof_Vdct
    rw [c4, hg.upw, hg.uph]
  have c6 : sizeof_result_arrays abi ccm = sizeof_result_arrays abi scm := by
    unfold sizeof_result_arrays
    rw [c5, hg.vpw, hg.vph]
  obtain ⟨g0, g1, g2, g3, g4, g5⟩ := hc
  obtain ⟨f0, f1, f2, f3, f4, f5⟩ := hf
  unfold luma_mb_count at g0 f0 hle
  rw [c1] at g1 g2
  rw [← hg.mb_rows, ← hg.mb_cols] at g0
  rw [← hg.ypw, ← hg.yph] at g3
  rw [← hg.upw, ← hg.uph] at g4
  rw [← hg.vpw, ← hg.vph] at g5
  unfold result_shuttle server_copy_result client_copy_result result_dma luma_mb_count
  simp only [c1, c2, c3, c4, c5, c6, ← hg.mb_rows, ← hg.mb_cols, ← hg.ypw, ← hg.yph, ← hg.upw,
    ← hg.uph, ← hg.vpw, ← hg.vph]
  have k0 := hle
  have o0 : offsetof_mbs abi scm Y_COMPONENT = 0 := by
    unfold offsetof_mbs luma_mb_count
    exact Nat.zero_mul _
  have o1 : offsetof_mbs abi scm U_COMPONENT
      = abi.sizeof_pointer * (count32 scm.mb_rows scm.mb_cols) := by
    unfold offsetof_mbs luma_mb_count
    exact Nat.one_mul _
  have o2 : offsetof_mbs abi scm V_COMPONENT
      = 2 * (abi.sizeof_pointer * (count32 scm.mb_rows scm.mb_cols)) := by rfl
  have o3 : offsetof_Ydct abi scm
      = 3 * (abi.sizeof_pointer * (count32 scm.mb_rows scm.mb_cols)) := by rfl
  have o4 : offsetof_Udct abi scm
      = offsetof_Ydct abi scm + abi.sizeof_pointer * (count32 scm.ypw scm.yph) := by rfl
  have o5 : offsetof_Vdct abi scm
      = offsetof_Udct abi scm + abi.sizeof_pointer * (count32 scm.upw scm.uph) := by rfl
  have o6 : sizeof_result_arrays abi scm
      = offsetof_Vdct abi scm + abi.sizeof_pointer * (count32 scm.vpw scm.vph) := by rfl
  have b0 : count32 scm.mb_rows scm.mb_cols * abi.sizeof_macroblock
      ≤ abi.sizeof_pointer * (count32 scm.mb_rows scm.mb_cols) := by
    rw [Nat.mul_comm abi.sizeof_pointer]
    exact Nat.mul_le_mul_left _ hmb
  have b1 : chroma_mb_count scm * abi.sizeof_macroblock
      ≤ abi.sizeof_pointer * (count32 scm.mb_rows scm.mb_cols) := by
    rw [Nat.mul_comm abi.sizeof_pointer]
    exact Nat.mul_le_mul k0 hmb
  have b3 : count32 scm.ypw scm.yph * 2 ≤ abi.sizeof_pointer * (count32 scm.ypw scm.yph) := by
    rw [Nat.mul_comm abi.sizeof_pointer]
    exact Nat.mul_le_mul_left _ hp2
  have b4 : count32 scm.upw scm.uph * 2 ≤ abi.sizeof_pointer * (count32 scm.upw scm.uph) := by
    rw [Nat.mul_comm abi.sizeof_pointer]
    exact Nat.mul_le_mul_left _ hp2
  have b5 : count32 scm.vpw scm.vph * 2 ≤ abi.sizeof_pointer * (count32 scm.vpw scm.vph) := by
    rw [Nat.mul_comm abi.sizeof_pointer]
    exact Nat.mul_le_mul_left _ hp2
  generalize offsetof_mbs abi scm Y_COMPONENT = O0 at *
  generalize offsetof_mbs abi scm U_COMPONENT = O1 at *
  generalize offsetof_mbs abi scm V_COMPONENT = O2 at *
  generalize offsetof_Ydct abi scm = O3 at *
  generalize offsetof_Udct abi scm = O4 at *
  generalize offsetof_Vdct abi scm = O5 at *
  generalize sizeof_result_arrays abi scm = SZ at *
  generalize count32 scm.mb_rows scm.mb_cols * abi.sizeof_macroblock = n0 at *
  generalize chroma_mb_count scm * abi.sizeof_macroblock = n1 at *
  generalize count32 scm.ypw scm.yph * 2 = n3 at *
  generalize count32 scm.upw scm.uph * 2 = n4 at *
  generalize count32 scm.vpw scm.vph * 2 = n5 at *
  generalize abi.sizeof_pointer * (count32 scm.mb_rows scm.mb_cols) = PN at *
  generalize abi.sizeof_pointer * (count32 scm.ypw scm.yph) = PA at *
  generalize abi.sizeof_pointer * (count32 scm.upw scm.uph) = PB at *
  generalize abi.sizeof_pointer * (count32 scm.vpw scm.vph) = PC at *
  obtain ⟨s0, e0, v0, -⟩ := memcpy_to_segment_spec server_seg.bytes SZ O0 (f.mbs Y_COMPONENT) n0
    (by omega) f0
  obtain ⟨s1, e1, v1, r1⟩ := memcpy_to_segment_spec s0 SZ O1 (f.mbs U_COMPONENT) n1
    (by omega) f1
  obtain ⟨s2, e2, v2, r2⟩ := memcpy_to_segment_spec s1 SZ O2 (f.mbs V_COMPONENT) n1
    (by omega) f2
  obtain ⟨s3, e3, v3, r3⟩ := memcpy_to_segment_spec s2 SZ O3 f.Ydct n3 (by omega) f3
  obtain ⟨s4, e4, v4, r4⟩ := memcpy_to_segment_spec s3 SZ O4 f.Udct n4 (by omega) f4
  obtain ⟨s5, e5, v5, r5⟩ := memcpy_to_segment_spec s4 SZ O5 f.Vdct n5 (by omega) f5
  rw [e0, Option.some_bind, e1, Option.some_bind, e2, Option.some_bind, e3, Option.some_bind,
    e4, Option.some_bind, e5, Option.some_bind, Option.some_bind]
  have d0 := memcpy_from_segment_spec (g.mbs Y_COMPONENT) (f.mbs Y_COMPONENT)
    (SCIStartDmaTransfer s5 client_seg.bytes SZ) SZ O0 n0 (by omega) g0 f0 (by
      intro i hi
      unfold SCIStartDmaTransfer
      rw [if_pos (by omega), r5 _ (by omega), r4 _ (by omega), r3 _ (by omega),
        r2 _ (by omega), r1 _ (by omega), v0 i hi])
  have d1 := memcpy_from_segment_spec (g.mbs U_COMPONENT) (f.mbs U_COMPONENT)
    (SCIStartDmaTransfer s5 client_seg.bytes SZ) SZ O1 n1 (by omega) g1 f1 (by
      intro i hi
      unfold SCIStartDmaTransfer
      rw [if_pos (by omega), r5 _ (by omega), r4 _ (by omega), r3 _ (by omega),
        r2 _ (by omega), v1 i hi])
  have d2 := memcpy_from_segment_spec (g.mbs V_COMPONENT) (f.mbs V_COMPONENT)
    (SCIStartDmaTransfer s5 client_seg.bytes SZ) SZ O2 n1 (by omega) g2 f2 (by
      intro i hi
      unfold SCIStartDmaTransfer
      rw [if_pos (by omega), r5 _ (by omega), r4 _ (by omega), r3 _ (by omega), v2 i hi])
  have d3 := memcpy_from_segment_spec g.Ydct f.Ydct
    (SCIStartDmaTransfer s5 client_seg.bytes SZ) SZ O3 n3 (by omega) g3 f3 (by
      intro i hi
      unfold SCIStartDmaTransfer
      rw [if_pos (by omega), r5 _ (by omega), r4 _ (by omega), v3 i hi])
  have d4 := memcpy_from_segment_spec g.Udct f.Udct
    (SCIStartDmaTransfer s5 client_seg.bytes SZ) SZ O4 n4 (by omega) g4 f4 (by
      intro i hi
      unfold SCIStartDmaTransfer
      rw [if_pos (by omega), r5 _ (by omega), v4 i hi])
  have d5 := memcpy_from_segment_spec g.Vdct f.Vdct
    (SCIStartDmaTransfer s5 client_seg.bytes SZ) SZ O5 n5 (by omega) g5 f5 (by
      intro i hi
      unfold SCIStartDmaTransfer
      rw [if_pos (by omega), v5 i hi])
  rw [d0, Option.some_bind, d1, Option.some_bind, d2, Option.some_bind, d3, Option.some_bind,
    d4, Option.some_bind, d5, Option.some_bind]
  refine ⟨_, rfl, rfl, ?_, ?_, ?_, rfl, rfl, rfl⟩
  · simp only [Y_COMPONENT, if_true]
  · simp only [U_COMPONENT, Y_COMPONENT, if_true, one_ne_zero, if_false]
  · simp only [V_COMPONENT, U_COMPONENT, Y_COMPONENT, if_true, OfNat.ofNat_ne_zero,
      OfNat.ofNat_ne_one, if_false]

/-- The arrays that the client allocates have the sizes of its geometry. -/
theorem client_frame_arrays_allocated (abi : Abi) (cm : c63_common) :
    FrameAllocated abi cm (client_frame_arrays abi cm) := by
  constructor <;> simp [client_frame_arrays]

/-- C13, amended: in every state that the two programs reach, hence for every
frame, and whatever the two result segments held before, on nodes that agree
on the sizes of types, with a macroblock no larger than a pointer and a
pointer of at least two bytes, and with a luma grid of fewer than `2^31`
macroblocks: a current frame of the server whose arrays have their allocated
sizes, copied by the server into its result segment (the `keyframe` member
and six `memcpy` calls), transferred by a DMA that copies the whole segment,
and copied by the client out of its result segment into its own current frame
(arrays of the allocated sizes of the client's geometry), arrives complete:
every copy stays inside its array and inside the segment, and the client's
frame has the server's `keyframe`, the server's macroblock arrays for `Y`, `U`
and `V` (every macroblock of the grids, `mb_rows*mb_cols` and
`(mb_rows/2)*mb_cols/2` of them) and the server's `Ydct`, `Udct` and `Vdct`,
byte for byte. The segment members are declared as arrays of pointers, which
makes room for the arrays of macroblocks and coefficients under these
conditions on the sizes. -/
theorem result_frame_round_trip (abi : Abi) (E : Externals) (T : Tables) (cfg : ClientConfig)
    (l : List Actor) (f g : frame_arrays) (server_seg client_seg : result_memory)
    (hmb : abi.sizeof_macroblock ≤ abi.sizeof_pointer) (hp2 : 2 ≤ abi.sizeof_pointer)
    (hgrid : (reach E T cfg l).scm.mb_rows * (reach E T cfg l).scm.mb_cols < 2 ^ 31)
    (hf : FrameAllocated abi (reach E T cfg l).scm f)
    (hc : FrameAllocated abi (reach E T cfg l).ccm g) :
    (∃ out, result_shuttle abi (reach E T cfg l).scm (reach E T cfg l).ccm f server_seg
        client_seg g = some out ∧
      out.keyframe = f.keyframe ∧
      out.mbs Y_COMPONENT = f.mbs Y_COMPONENT ∧
      out.mbs U_COMPONENT = f.mbs U_COMPONENT ∧
      out.mbs V_COMPONENT = f.mbs V_COMPONENT ∧
      out.Ydct = f.Ydct ∧ out.Udct = f.Udct ∧ out.Vdct = f.Vdct) ∧
    luma_mb_count (reach E T cfg l).scm = (reach E T cfg l).scm.mb_rows * (reach E T cfg l).scm.mb_cols ∧
    chroma_mb_count (reach E T cfg l).scm = (reach E T cfg l).scm.mb_rows / 2 * (reach E T cfg l).scm.mb_cols / 2 := by
  have h1 : luma_mb_count (reach E T cfg l).scm = (reach E T cfg l).scm.mb_rows * (reach E T cfg l).scm.mb_cols :=
    count32_small _ _ hgrid
  have hhalf : (reach E T cfg l).scm.mb_rows / 2 * (reach E T cfg l).scm.mb_cols
      ≤ (reach E T cfg l).scm.mb_rows * (reach E T cfg l).scm.mb_cols :=
    Nat.mul_le_mul_right _ (Nat.div_le_self _ _)
  have h2 : chroma_mb_count (reach E T cfg l).scm = (reach E T cfg l).scm.mb_rows / 2 * (reach E T cfg l).scm.mb_cols / 2 := by
    unfold chroma_mb_count chroma_mb_expr
    rw [mul32_small _ _ (by omega), show (2 : Int) = ((2 : Nat) : Int) from rfl,
      ← Int.ofNat_tdiv]
    exact size_t_of_int_small _ ((Nat.div_le_self _ _).trans_lt (by omega))
  have hle : chroma_mb_count (reach E T cfg l).scm ≤ luma_mb_count (reach E T cfg l).scm := by
    rw [h1, h2]
    exact (Nat.div_le_self _ _).trans hhalf
  exact ⟨result_shuttle_eq abi _ _ f g server_seg client_seg (reach_geometry E T cfg l) hmb hp2
    hle hf hc, h1, h2⟩

set_option maxRecDepth 100000 in
/-- Witness for C13: the sample run at the point where the client is about to
read the result of frame 0, on nodes with 8-byte pointers and 8-byte
macroblocks, with a sample frame on the server and the zeroed arrays of the
client. -/
theorem result_frame_round_trip_witness :
    (lp64.sizeof_macroblock ≤ lp64.sizeof_pointer ∧ 2 ≤ lp64.sizeof_pointer ∧
      sample_at_result.scm.mb_rows * sample_at_result.scm.mb_cols < 2 ^ 31 ∧
      FrameAllocated lp64 sample_at_result.scm (sample_frame_arrays 8) ∧
      FrameAllocated lp64 sample_at_result.ccm (client_frame_arrays lp64 sample_at_result.ccm)) ∧
    ∃ out, result_shuttle lp64 sample_at_result.scm sample_at_result.ccm (sample_frame_arrays 8)
        zero_result_memory zero_result_memory
        (client_frame_arrays lp64 sample_at_result.ccm) = some out ∧
      out.keyframe = (sample_frame_arrays 8).keyframe ∧
      out.mbs Y_COMPONENT = (sample_frame_arrays 8).mbs Y_COMPONENT ∧
      out.mbs U_COMPONENT = (sample_frame_arrays 8).mbs U_COMPONENT ∧
      out.mbs V_COMPONENT = (sample_frame_arrays 8).mbs V_COMPONENT ∧
      out.Ydct = (sample_frame_arrays 8).Ydct ∧ out.Udct = (sample_frame_arrays 8).Udct ∧
      out.Vdct = (sample_frame_arrays 8).Vdct :=
  ⟨⟨by decide, by decide, by decide,
      ⟨by decide, by decide, by decide, by decide, by decide, by decide⟩,
      client_frame_arrays_allocated lp64 sample_at_result.ccm⟩,
    (result_frame_round_trip lp64 sample_externals sample_tables sample_config sample_to_result
      (sample_frame_arrays 8) (client_frame_arrays lp64 sample_at_result.ccm)
      zero_result_memory zero_result_memory (by decide) (by decide) (by decide)
      ⟨by decide, by decide, by decide, by decide, by decide, by decide⟩
      (client_frame_arrays_allocated lp64 sample_at_result.ccm)).1⟩

set_option maxRecDepth 100000 in
/-- Counterexample for C13 as stated, in three parts. On nodes with 4-byte
pointers and 8-byte macroblocks the row `mbs[Y]` of the segment has 16 bytes
for the 32 bytes of the four luma macroblocks of the sample geometry, the copy
of `mbs[U]` overwrites the third of them, and the client receives the
macroblocks 1, 2, U, 4. With a pointer of one byte the member `Ydct` has 256
bytes for 512 bytes of coefficients and the copy leaves the segment. On 64-bit
nodes, for frames of 524288 x 524288 the luma grid has `2^32` macroblocks, the
product `mb_rows*mb_cols` formed in 32 bits is 0, while the intermediate
product of `mb_rows/2*mb_cols/2` is `2^31`, which is `-2^31` in an `int`, and
the expression is -1073741824, passed to `memcpy` as a count of
`2^64 - 2^30` macroblocks (an unsigned field type would give `2^30`): the rows
of `mbs` and the whole segment have 0 bytes and the copy of `mbs[U]` leaves the
segment, whatever the frames hold. -/
theorem result_frame_round_trip_counterexample :
    ((result_shuttle ilp32 sample_at_result.scm sample_at_result.ccm (sample_frame_arrays 8)
        zero_result_memory zero_result_memory
        (client_frame_arrays ilp32 sample_at_result.ccm)).map (fun out => out.mbs Y_COMPONENT)
      = some [1, 2, 3, 4, 5, 6, 7, 8, 9, 10, 11, 12, 13, 14, 15, 16,
          101, 102, 103, 104, 105, 106, 107, 108, 25, 26, 27, 28, 29, 30, 31, 32] ∧
      (sample_frame_arrays 8).mbs Y_COMPONENT
        = [1, 2, 3, 4, 5, 6, 7, 8, 9, 10, 11, 12, 13, 14, 15, 16,
          17, 18, 19, 20, 21, 22, 23, 24, 25, 26, 27, 28, 29, 30, 31, 32]) ∧
    (sizeof_result_arrays narrow_abi sample_at_result.scm = 396 ∧
      offsetof_Ydct narrow_abi sample_at_result.scm = 12 ∧
      (sample_frame_arrays 1).Ydct.length = 512 ∧
      (result_shuttle narrow_abi sample_at_result.scm sample_at_result.ccm
        (sample_frame_arrays 1) zero_result_memory zero_result_memory
        (client_frame_arrays narrow_abi sample_at_result.ccm)).isNone = true) ∧
    ((init_c63_enc sample_tables 524288 524288).mb_rows * (init_c63_enc sample_tables 524288 524288).mb_cols = 2 ^ 32 ∧
      luma_mb_count (init_c63_enc sample_tables 524288 524288) = 0 ∧
      (init_c63_enc sample_tables 524288 524288).mb_rows / 2 * (init_c63_enc sample_tables 524288 524288).mb_cols = 2 ^ 31 ∧
      chroma_mb_expr (init_c63_enc sample_tables 524288 524288) = -1073741824 ∧
      chroma_mb_count (init_c63_enc sample_tables 524288 524288) = 2 ^ 64 - 2 ^ 30 ∧
      sizeof_result_arrays lp64 (init_c63_enc sample_tables 524288 524288) = 0 ∧
      ∀ (f g : frame_arrays) (server_seg client_seg : result_memory),
        result_shuttle lp64 (init_c63_enc sample_tables 524288 524288) (init_c63_enc sample_tables 524288 524288) f server_seg client_seg g = none) := by
  have k0 : luma_mb_count (init_c63_enc sample_tables 524288 524288) = 0 := by decide
  have k1 : chroma_mb_count (init_c63_enc sample_tables 524288 524288) = 2 ^ 64 - 2 ^ 30 := by decide
  have k2 : sizeof_result_arrays lp64 (init_c63_enc sample_tables 524288 524288) = 0 := by decide
  refine ⟨⟨by decide, by decide⟩, ⟨by decide, by decide, by decide, by decide⟩,
    ⟨by decide, k0, by decide, by decide, k1, k2, ?_⟩⟩
  intro f g server_seg client_seg
  unfold result_shuttle server_copy_result
  rw [k0, k1, k2]
  simp [memcpy_to_segment, offsetof_mbs, lp64]

end C63
